import Mathlib

/-!
# Inventory management system: stock reconciliation and reorder workflow

A shallow embedding of the stock-level reconciliation code of the repository
(`backend/models/Product.js`, `backend/models/Order.js`,
`backend/routes/inventory.js`, `backend/routes/orders.js`,
`backend/services/stockService.js`, `backend/services/notificationService.js`)
and theorems about it.

Conventions of the embedding

* Stock counters and quantities are JavaScript numbers holding integers; they
  are `Int`. Prices are `ℚ` (binary floating point rounding is not modelled).
* A value read from a JSON request body is a `JsVal`: a number or a string.
  A string is read as a number by `stringToNumber` when it is an optional sign
  followed by decimal digits, which are the strings that the validators of the
  product create, restock and order create routes admit. The order edit route has no
  validators: it is embedded under an arbitrary reading of the quantities as
  integers (`editOrderBy`). The product update route is embedded for bodies of
  product fields (`UpdateBody`).
* The order number hook is the template `orderNumberOf` at the clock value and
  the integer `Math.floor(Math.random() * 1000)`; where the draw itself is
  used, the product with 1000 is exact.
* Documents live in a `Store`; every handler is a function from the store
  before the request to a response and the store after it.
* What the code cannot decide by itself is read from an `Env`: the clock, the
  random source, the generator of fresh document ids, and whether a given
  database write fails. They are indexed by `Store.tick`, the number of
  database writes attempted so far.
-/

namespace Inventory

/-! ## Identifiers -/

/-- A MongoDB ObjectId: twelve bytes. -/
abbrev ObjectId := Fin (16 ^ 24)

/-- Fixed-width lower-case hexadecimal rendering, most significant digit first. -/
def hexFixed : Nat → Nat → List Char
  | 0, _ => []
  | w + 1, n => hexFixed w (n / 16) ++ [Nat.digitChar (n % 16)]

/-- `ObjectId.prototype.toString()`: the 24 hexadecimal characters of the id. -/
def ObjectId.toString (i : ObjectId) : String := String.mk (hexFixed 24 i.val)

/-! ## JavaScript values of a request body -/

/-- A numeric field of a JSON request body as the handler sees it: a JSON
number (integer valued) or a JSON string given by its characters. -/
inductive JsVal where
  | num (n : Int)
  | str (s : List Char)
  deriving DecidableEq, Repr

/-- `typeof v === 'number'`. -/
def JsVal.isNumber : JsVal → Bool
  | .num _ => true
  | .str _ => false

/-- The value of a string of decimal digits, `none` if a character is not a digit
or the string is empty. -/
def parseDigits (cs : List Char) : Option Nat :=
  if cs ≠ [] ∧ cs.all Char.isDigit then
    some (cs.foldl (fun acc c => 10 * acc + (c.toNat - '0'.toNat)) 0)
  else none

/-- `Number(s)` for a string `s` that is an optional sign followed by decimal
digits. Every other string is `none`. JavaScript reads more strings as
integers (blank-padded, exponent and hexadecimal forms, the empty string): on
those this function differs from `Number`. The validator chain
`isNumeric().isInt()` of the product create, restock and order create routes
admits none of them; the order edit route has no validators and is embedded for an arbitrary
reading (`editOrderBy`), and statements on the product update route are made
for bodies on which the two agree (`UpdateBody.integerFields`). -/
def stringToNumber : List Char → Option Int
  | '-' :: cs => (parseDigits cs).map (fun n => - (n : Int))
  | '+' :: cs => (parseDigits cs).map (fun n => (n : Int))
  | cs => (parseDigits cs).map (fun n => (n : Int))

/-- `String(n)` for an integer valued number. -/
def numberToString (n : Int) : List Char := (toString n).toList

/-- `ToNumber(v)`; `none` is `NaN`. -/
def JsVal.toNumber : JsVal → Option Int
  | .num n => some n
  | .str s => stringToNumber s

/-- JavaScript `a + v` for a number `a`: addition when `v` is a number, string
concatenation when `v` is a string. -/
def jsAdd (a : Int) : JsVal → JsVal
  | .num q => .num (a + q)
  | .str s => .str (numberToString a ++ s)

/-- JavaScript `v > m` for a number `m`: numeric comparison after `ToNumber`,
false when `v` is `NaN`. -/
def jsGt (v : JsVal) (m : Int) : Bool :=
  match v.toNumber with
  | some x => decide (x > m)
  | none => false

/-- Mongoose's cast of a value assigned to a `Number` path: `none` is a
`CastError`. -/
def castNumber (v : JsVal) : Option Int := v.toNumber

/-- The express-validator chain `isNumeric().isInt({ min: m })` (validator.js:
the value is turned into a string and must match `[+-]?[0-9]+`, and its numeric
value must be at least `m`). -/
def isIntMin (m : Int) : JsVal → Bool
  | .num n => decide (m ≤ n)
  | .str s =>
    match stringToNumber s with
    | some n => decide (m ≤ n)
    | none => false

/-! ## Documents -/

/-- The four values of the `stockStatus` virtual. -/
inductive StockStatus where
  | out_of_stock | low_stock | overstock | in_stock
  deriving DecidableEq, Repr

/-- The `supplier` sub-document of a product (the address is not read by the
workflow and is left out). -/
structure Supplier where
  name : String
  email : String
  phone : Option String := none
  deriving DecidableEq, Repr

/-- A product document (`models/Product.js`). `description`, `expiryDate` and
`image` are not read by any embedded function and are left out. -/
structure Product where
  id : ObjectId
  business : ObjectId
  name : String
  category : String
  sku : String
  barcode : Option String := none
  currentStock : Int
  minStockLevel : Int
  maxStockLevel : Int
  unit : String
  costPrice : ℚ
  sellingPrice : ℚ
  supplier : Supplier
  reorderQuantity : Int
  maxOrderQuantity : Int := 100
  isActive : Bool := true
  lastRestocked : Option Nat := none
  deriving DecidableEq, Repr

/-- `productSchema.virtual('stockStatus')`. -/
def Product.stockStatus (p : Product) : StockStatus := Id.run do
  if p.currentStock ≤ 0 then return .out_of_stock
  if p.currentStock ≤ p.minStockLevel then return .low_stock
  if p.currentStock ≥ p.maxStockLevel then return .overstock
  return .in_stock

/-- The inline classification of the inventory routes (`GET /api/inventory`,
`/low-stock`, `/:id` and the reorder response), a chain of conditional
expressions on the plain product object. -/
def inlineStockStatus (p : Product) : StockStatus :=
  if p.currentStock ≤ 0 then .out_of_stock else
    if p.currentStock ≤ p.minStockLevel then .low_stock else
      if p.currentStock ≥ p.maxStockLevel then .overstock else .in_stock

/-- `totalPrice`-bearing line item of an order (`orderSchema.products`). -/
structure OrderLine where
  product : ObjectId
  quantity : Int
  unitPrice : ℚ
  totalPrice : ℚ
  deriving DecidableEq, Repr

/-- The `status` enumeration of an order. -/
inductive OrderStatus where
  | pending | confirmed | processing | shipped | delivered | cancelled
  deriving DecidableEq, Repr

/-- The `orderType` enumeration of an order. -/
inductive OrderType where
  | automatic | manual
  deriving DecidableEq, Repr

/-- The `paymentStatus` enumeration of an order. -/
inductive PaymentStatus where
  | pending | processing | completed | failed | refunded
  deriving DecidableEq, Repr

/-- An order document (`models/Order.js`), with the schema defaults. -/
structure Order where
  id : ObjectId
  business : ObjectId
  orderNumber : Option String := none
  products : List OrderLine
  totalAmount : Option ℚ := none
  status : OrderStatus := .pending
  orderType : OrderType := .manual
  paymentStatus : PaymentStatus := .pending
  paymentMethod : Option String := none
  paymentId : Option String := none
  paymentAmount : ℚ := 0
  paymentDate : Option Nat := none
  supplier : Option Supplier := none
  expectedDeliveryDate : Option Nat := none
  actualDeliveryDate : Option Nat := none
  notes : Option String := none
  createdBy : ObjectId
  isActive : Bool := true
  deriving DecidableEq, Repr

/-- The notification types used by the embedded code. -/
inductive NotificationType where
  | low_stock | out_of_stock | payment_pending | system_alert | order_placed | order_delivered
  | payment_success
  deriving DecidableEq, Repr

/-- The notification priorities. -/
inductive Priority where
  | low | medium | high | urgent
  deriving DecidableEq, Repr

/-- The free-form `data` payload of a notification, as the union of the fields
the embedded call sites put into it. -/
structure NotificationData where
  productId : Option ObjectId := none
  orderId : Option ObjectId := none
  orderNumber : Option String := none
  quantity : Option Int := none
  amount : Option ℚ := none
  productCount : Option Nat := none
  requiresPayment : Bool := false
  currentStock : Option Int := none
  minStockLevel : Option Int := none
  reorderedProducts : List ObjectId := []
  totalProducts : Option Nat := none
  paymentId : Option ObjectId := none
  transactionId : Option String := none
  deriving DecidableEq, Repr

/-- Modelled from the spec: `models/Notification.js` is missing; a notification
is an informational record tied to a tenant and a recipient user with a type, a
priority and a data payload. The fields are those the constructor calls in
`routes/` and `services/` pass; the message text is left out. -/
structure Notification where
  recipient : ObjectId
  business : Option ObjectId
  type : NotificationType
  priority : Option Priority := none
  title : String
  data : NotificationData := {}
  deriving DecidableEq, Repr

/-- Modelled from the spec: `models/User.js` is missing; the workflow reads of a
user its id, whether it is active and its current tenant (`currentBusiness`,
which may be unset). -/
structure User where
  id : ObjectId
  isActive : Bool := true
  currentBusiness : Option ObjectId := none
  deriving DecidableEq, Repr

/-- The `status` enumeration of a payment record. -/
inductive PaymentRecordStatus where
  | pending | processing | completed | failed | cancelled | refunded
  deriving DecidableEq, Repr

/-- A payment record (`models/Payment.js`). The gateway name, the currency, the
refund fields, the metadata and the id of the mock gateway order are not read
by the workflow and are left out. -/
structure Payment where
  id : ObjectId
  business : ObjectId
  order : ObjectId
  amount : ℚ
  paymentMethod : String
  gatewayPaymentId : Option String := none
  status : PaymentRecordStatus := .pending
  transactionId : Option String := none
  failureReason : Option String := none
  paymentDate : Option Nat := none
  createdBy : ObjectId
  deriving DecidableEq, Repr

/-! ## Store and environment -/

/-- The database: the collections and the count of writes attempted. -/
structure Store where
  products : List Product := []
  orders : List Order := []
  notifications : List Notification := []
  users : List User := []
  tick : Nat := 0
  payments : List Payment := []
  deriving DecidableEq, Repr

/-- What the handlers read from outside: `Date.now()`, `Math.random()`, the
fresh ObjectId of a new document, and whether the database write fails
(connection loss, duplicate key of a unique index, a validator of a model that
is not part of the embedding), each at a given tick. -/
structure Env where
  clock : Nat → Nat
  random : Nat → ℚ
  newId : Nat → ObjectId
  writeFails : Nat → Bool

/-- The authenticated user of a request (`req.user`), with a current tenant. -/
structure ReqUser where
  id : ObjectId
  currentBusiness : ObjectId
  deriving DecidableEq, Repr

/-- `Product.findById(id)`. -/
def findProduct (s : Store) (id : ObjectId) : Option Product :=
  s.products.find? (fun p => p.id == id)

/-- `Order.findById(id)`. -/
def findOrder (s : Store) (id : ObjectId) : Option Order :=
  s.orders.find? (fun o => o.id == id)

/-! ## Product model: hook, validators, save -/

/-- The `category` enumeration of the product schema. -/
def categories : List String :=
  ["fruits", "vegetables", "dairy", "meat", "seafood", "bakery", "pantry", "beverages",
   "snacks", "canned", "frozen", "other"]

/-- The `unit` enumeration of the product schema. -/
def units : List String :=
  ["kg", "g", "lb", "oz", "liter", "ml", "piece", "box", "pack", "bag", "bottle", "dozen"]

/-- `productSchema.pre('validate')`: mirror `maxStockLevel` into
`maxOrderQuantity`. The guard `typeof this.maxStockLevel === 'number' &&
!Number.isNaN(this.maxStockLevel)` holds of every `Product`. -/
def Product.preValidate (p : Product) : Product :=
  { p with maxOrderQuantity := p.maxStockLevel }

/-- The validators of the product schema (`required`, `enum`, `min`). -/
def Product.valid (p : Product) : Bool :=
  p.name ≠ "" && categories.contains p.category && p.sku ≠ "" &&
  decide (0 ≤ p.currentStock) && decide (0 ≤ p.minStockLevel) &&
  decide (0 ≤ p.maxStockLevel) && units.contains p.unit &&
  decide (0 ≤ p.costPrice) && decide (0 ≤ p.sellingPrice) &&
  p.supplier.name ≠ "" && p.supplier.email ≠ "" &&
  decide (1 ≤ p.reorderQuantity) && decide (1 ≤ p.maxOrderQuantity)

/-- The write of a product document that is already stored: the document with
the same `_id` is replaced. -/
def replaceProduct (s : Store) (p : Product) : Store :=
  { s with
    products := s.products.map (fun q => if q.id = p.id then p else q)
    tick := s.tick + 1 }

/-- `product.save()` on a document loaded from the store: the pre-validate hook,
the schema validators, then the write that replaces the stored document. `none`
means that `save` threw. -/
def saveProduct (env : Env) (s : Store) (p : Product) : Option Product × Store :=
  let p1 := p.preValidate
  if !p1.valid then (none, s)
  else if env.writeFails s.tick then (none, { s with tick := s.tick + 1 })
  else (some p1, replaceProduct s p1)

/-! ## Order model: hooks, validators, save -/

/-- The last `n` elements of a list (`String.prototype.slice(-n)`). -/
def lastN {α : Type} (n : Nat) (l : List α) : List α := l.drop (l.length - n)

/-- `String.prototype.padStart(n, '0')`. -/
def padStart0 (n : Nat) (l : List Char) : List Char :=
  List.replicate (n - l.length) '0' ++ l

/-- The template of the first `pre('save')` hook for the value `now` of
`Date.now()` and the value `k` of `Math.floor(Math.random() * 1000)`: `ORD-`,
the last six characters of the numeral of `now`, `-`, and the numeral of `k`
padded with zeros to three characters. -/
def orderNumberOf (now k : Nat) : String :=
  "ORD-" ++ String.mk (lastN 6 (Nat.toDigits 10 now)) ++ "-" ++
    String.mk (padStart0 3 (Nat.toDigits 10 k))

/-- The order number built by the first `pre('save')` hook from `Date.now()`
and `Math.random()`. The product `Math.random() * 1000` is taken exactly; the
statements on order numbers are made for `orderNumberOf` at every integer
below 1000 and do not depend on it. -/
def genOrderNumber (now : Nat) (r : ℚ) : String :=
  orderNumberOf now (⌊r * 1000⌋).toNat

/-- First `orderSchema.pre('save')` hook: generate the order number when the
order has none (`!this.orderNumber`). -/
def Order.preSaveNumber (now : Nat) (r : ℚ) (o : Order) : Order :=
  if o.orderNumber = none ∨ o.orderNumber = some "" then
    { o with orderNumber := some (genOrderNumber now r) }
  else o

/-- Second `orderSchema.pre('save')` hook: the total amount. -/
def Order.preSaveTotal (o : Order) : Order :=
  if o.products.length > 0 then
    { o with totalAmount := some (o.products.foldl (fun total item => total + item.totalPrice) 0) }
  else o

/-- The validators of the order schema that can fail on a typed order: every
line quantity is at least 1. -/
def Order.valid (o : Order) : Bool :=
  o.products.all (fun l => decide (1 ≤ l.quantity))

/-- The two `pre('save')` hooks in the order of their registration. -/
def Order.preSave (now : Nat) (r : ℚ) (o : Order) : Order :=
  (o.preSaveNumber now r).preSaveTotal

/-- The insert of a new order document. -/
def insertOrder (s : Store) (o : Order) : Store :=
  { s with orders := s.orders ++ [o], tick := s.tick + 1 }

/-- The unique index `(business, orderNumber)` of the order schema
(`orderSchema.index` with `unique: true`): whether the store holds an order
with the tenant and the order number of `o`. The database rejects the insert
of such an order. -/
def violatesOrderNumberIndex (s : Store) (o : Order) : Bool :=
  s.orders.any (fun q => q.business == o.business && q.orderNumber == o.orderNumber)

/-- The write of an order document that is already stored: the document with
the same `_id` is replaced. -/
def replaceOrder (s : Store) (o : Order) : Store :=
  { s with
    orders := s.orders.map (fun q => if q.id = o.id then o else q)
    tick := s.tick + 1 }

/-- `order.save()` of a document made with `new Order(...)`: validation, the two
pre-save hooks, then the insert. `none` means that `save` threw. -/
def saveNewOrder (env : Env) (s : Store) (o : Order) : Option Order × Store :=
  if !o.valid then (none, s)
  else
    let o1 := o.preSave (env.clock s.tick) (env.random s.tick)
    if env.writeFails s.tick then (none, { s with tick := s.tick + 1 })
    else (some o1, insertOrder s o1)

/-- `order.save()` of a document made with `new Order(...)` against the unique
index `(business, orderNumber)`: as `saveNewOrder`, and the write also fails
(duplicate key) when the order as the hooks leave it has the tenant and the
order number of a stored order. `saveNewOrder` leaves every failure of the
write to the environment; the two agree when the environment fails the writes
that violate the index. -/
def saveNewOrderIndexed (env : Env) (s : Store) (o : Order) : Option Order × Store :=
  if !o.valid then (none, s)
  else
    let o1 := o.preSave (env.clock s.tick) (env.random s.tick)
    if env.writeFails s.tick || violatesOrderNumberIndex s o1 then
      (none, { s with tick := s.tick + 1 })
    else (some o1, insertOrder s o1)

/-- `order.save()` of a document loaded from the store: validation, the two
pre-save hooks, then the write that replaces the stored document. `none` means
that `save` threw. -/
def saveOrder (env : Env) (s : Store) (o : Order) : Option Order × Store :=
  if !o.valid then (none, s)
  else
    let o1 := o.preSave (env.clock s.tick) (env.random s.tick)
    if env.writeFails s.tick then (none, { s with tick := s.tick + 1 })
    else (some o1, replaceOrder s o1)

/-- `notification.save()` of a new notification. `none` means that it threw. -/
def saveNotification (env : Env) (s : Store) (n : Notification) :
    Option Notification × Store :=
  if env.writeFails s.tick then (none, { s with tick := s.tick + 1 })
  else (some n, { s with notifications := s.notifications ++ [n], tick := s.tick + 1 })

/-- Two days in milliseconds (`2 * 24 * 60 * 60 * 1000`). -/
def twoDays : Nat := 2 * 24 * 60 * 60 * 1000

/-! ## Inventory routes: restock and manual reorder -/

/-- The capacity-exceeded rejection payload (besides the message). -/
structure CapacityPayload where
  currentStock : Int
  maxStockLevel : Int
  requestedQuantity : JsVal
  maxAllowedQuantity : Int
  deriving DecidableEq, Repr

/-- The body of `POST /api/inventory/:id/restock`; `costPrice` is a JSON number
when present. -/
structure RestockBody where
  quantity : JsVal
  costPrice : Option ℚ := none
  deriving DecidableEq, Repr

/-- The responses of the restock and manual reorder endpoints. -/
inductive StockResponse where
  /-- Status 400 with the validator errors. -/
  | validationErrors
  /-- Status 404 `Product not found`. -/
  | notFound
  /-- Status 400 `Cannot reorder inactive product`. -/
  | inactive
  /-- Status 400 with the capacity payload. -/
  | capacityExceeded (payload : CapacityPayload)
  /-- Status 500 `Server error`. -/
  | serverError
  /-- Status 200 `Product restocked successfully`; `sweepScheduled` tells whether the
  handler has scheduled `checkAndAutoReorder` to run one second later. -/
  | restocked (product : Product) (sweepScheduled : Bool)
  /-- Status 200 `Product reordered and restocked successfully`. -/
  | reordered (product : Product) (stockStatus : StockStatus) (order : Order)
  deriving DecidableEq, Repr

/-- The validator chains of the restock route: `quantity` a positive integer,
`costPrice`, when present, a non-negative number. -/
def restockValid (b : RestockBody) : Bool :=
  isIntMin 1 b.quantity &&
    (match b.costPrice with
     | none => true
     | some c => decide (0 ≤ c))

/-- `POST /api/inventory/:id/restock`. -/
def restock (env : Env) (s : Store) (user : ReqUser) (id : ObjectId) (b : RestockBody) :
    StockResponse × Store :=
  if !restockValid b then (.validationErrors, s)
  else
    match s.products.find? (fun p => p.id == id && p.business == user.currentBusiness) with
    | none => (.notFound, s)
    | some product =>
      -- Check if adding this quantity would exceed maximum stock level
      let newStockLevel := jsAdd product.currentStock b.quantity
      if jsGt newStockLevel product.maxStockLevel then
        (.capacityExceeded {
            currentStock := product.currentStock
            maxStockLevel := product.maxStockLevel
            requestedQuantity := b.quantity
            maxAllowedQuantity := product.maxStockLevel - product.currentStock }, s)
      else
        -- `product.currentStock += quantity`: the sum is cast to a Number; a value
        -- that cannot be cast makes `save` throw
        match castNumber (jsAdd product.currentStock b.quantity) with
        | none => (.serverError, s)
        | some stock =>
          let product1 := { product with
            currentStock := stock
            lastRestocked := some (env.clock s.tick) }
          -- `if (costPrice) product.costPrice = costPrice`
          let product2 :=
            match b.costPrice with
            | some c => if c ≠ 0 then { product1 with costPrice := c } else product1
            | none => product1
          match saveProduct env s product2 with
          | (none, s1) => (.serverError, s1)
          | (some saved, s1) =>
            (.restocked saved (decide (saved.currentStock ≤ saved.minStockLevel)), s1)

/-- `POST /api/inventory/:id/reorder`: create a confirmed order for
`reorderQuantity` units and restock at once. -/
def reorder (env : Env) (s : Store) (user : ReqUser) (id : ObjectId) :
    StockResponse × Store :=
  match findProduct s id with
  | none => (.notFound, s)
  | some product =>
    if !product.isActive then (.inactive, s)
    else
      let reorderQuantity := product.reorderQuantity
      let newStockLevel := product.currentStock + reorderQuantity
      if newStockLevel > product.maxStockLevel then
        (.capacityExceeded {
            currentStock := product.currentStock
            maxStockLevel := product.maxStockLevel
            requestedQuantity := .num reorderQuantity
            maxAllowedQuantity := product.maxStockLevel - product.currentStock }, s)
      else
        let orderItems : List OrderLine := [{
          product := product.id
          quantity := reorderQuantity
          unitPrice := product.costPrice
          totalPrice := reorderQuantity * product.costPrice }]
        let order : Order := {
          id := env.newId s.tick
          products := orderItems
          business := product.business
          status := .confirmed
          orderType := .manual
          supplier := some product.supplier
          expectedDeliveryDate := some (env.clock s.tick + twoDays)
          createdBy := user.id
          notes := some ("Auto-reorder for " ++ product.name ++ " - Low stock alert triggered") }
        match saveNewOrder env s order with
        | (none, s1) => (.serverError, s1)
        | (some order1, s1) =>
          let product1 := { product with
            currentStock := product.currentStock + reorderQuantity
            lastRestocked := some (env.clock s1.tick) }
          match saveProduct env s1 product1 with
          | (none, s2) => (.serverError, s2)
          | (some saved, s2) =>
            let notification : Notification := {
              recipient := user.id
              business := some saved.business
              type := .system_alert
              title := "Product Reordered"
              data := {
                productId := some saved.id
                orderId := some order1.id
                quantity := some reorderQuantity } }
            match saveNotification env s2 notification with
            | (none, s3) => (.serverError, s3)
            | (some _, s3) => (.reordered saved (inlineStockStatus saved) order1, s3)

/-! ## Inventory routes: create and update -/

/-- `String.prototype.trim()` (the `trim()` sanitizer and the `trim` schema
option), on the characters of the string. -/
def trimString (x : String) : String :=
  String.mk ((x.toList.dropWhile Char.isWhitespace).reverse.dropWhile Char.isWhitespace).reverse

/-- The `uppercase` schema option of `sku` (ASCII letters). -/
def upperString (x : String) : String := String.mk (x.toList.map Char.toUpper)

/-- The body of `POST /api/inventory`. The integer fields are JSON numbers or
strings; the prices are JSON numbers. -/
structure CreateBody where
  name : String
  category : String
  sku : String
  barcode : Option String := none
  currentStock : JsVal
  minStockLevel : JsVal
  maxStockLevel : JsVal
  unit : String
  costPrice : ℚ
  sellingPrice : ℚ
  supplier : Supplier
  reorderQuantity : JsVal
  maxOrderQuantity : Option JsVal := none
  isActive : Option Bool := none
  deriving DecidableEq, Repr

/-- The responses of the product create and update endpoints. -/
inductive ProductResponse where
  /-- Status 400 with the validator errors. -/
  | validationErrors
  /-- Status 400 `A product with this SKU already exists in your business`. -/
  | duplicateSku
  /-- Status 400 `A product with this barcode already exists in your business`. -/
  | duplicateBarcode
  /-- Status 404 `Product not found`. -/
  | notFound
  /-- The `catch` branch: a thrown cast, validation or write error. -/
  | failed
  /-- Status 201 `Product created successfully`. -/
  | created (product : Product)
  /-- Status 200 `Product updated successfully`. -/
  | updated (product : Product)
  deriving DecidableEq, Repr

/-- The validator chains of the create route. `isEmail` is validator.js's
e-mail check, which is not part of the repository. -/
def createValid (isEmail : String → Bool) (b : CreateBody) : Bool :=
  decide (1 ≤ (trimString b.name).length) && categories.contains b.category &&
  decide (1 ≤ (trimString b.sku).length) && isIntMin 0 b.currentStock &&
  isIntMin 0 b.minStockLevel && isIntMin 0 b.maxStockLevel && units.contains b.unit &&
  decide (0 ≤ b.costPrice) && decide (0 ≤ b.sellingPrice) &&
  decide (1 ≤ (trimString b.supplier.name).length) && isEmail b.supplier.email &&
  isIntMin 1 b.reorderQuantity

/-- The step of the create and update routes on the request body: `if (typeof
body.maxStockLevel === 'number') body.maxOrderQuantity = body.maxStockLevel`.
The result is the `maxOrderQuantity` of the body afterwards. -/
def forceMaxOrderQuantity (maxStockLevel maxOrderQuantity : Option JsVal) : Option JsVal :=
  match maxStockLevel with
  | some v => if v.isNumber then some v else maxOrderQuantity
  | none => maxOrderQuantity

/-- The `maxOrderQuantity` of a document constructed from a body: the schema
default 100 when the body has none, else its cast. -/
def castWithDefault : Option JsVal → Int
  | none => 100
  | some v => (castNumber v).getD 100

/-- `product.save()` of a new document: the pre-validate hook, the schema
validators, then the insert. -/
def insertProduct (env : Env) (s : Store) (p : Product) : Option Product × Store :=
  let p1 := p.preValidate
  if !p1.valid then (none, s)
  else if env.writeFails s.tick then (none, { s with tick := s.tick + 1 })
  else (some p1, { s with products := s.products ++ [p1], tick := s.tick + 1 })

/-- `POST /api/inventory`. -/
def createProduct (isEmail : String → Bool) (env : Env) (s : Store) (user : ReqUser)
    (b : CreateBody) : ProductResponse × Store :=
  if !createValid isEmail b then (.validationErrors, s)
  else
    -- the sanitizers have trimmed these fields in `req.body`; the `uppercase`
    -- setter of `sku` applies to the query and to the document
    let name := trimString b.name
    let sku := upperString (trimString b.sku)
    let supplier := { b.supplier with name := trimString b.supplier.name }
    if s.products.any (fun q => q.sku == sku && q.business == user.currentBusiness) then
      (.duplicateSku, s)
    else if b.barcode.any (fun bc => bc ≠ "" &&
        s.products.any (fun q => q.barcode == some bc && q.business == user.currentBusiness)) then
      (.duplicateBarcode, s)
    else
      -- Force maxOrderQuantity to mirror maxStockLevel on create
      let maxOrderQuantity := forceMaxOrderQuantity (some b.maxStockLevel) b.maxOrderQuantity
      -- `new Product(productData)` casts every field
      match castNumber b.currentStock, castNumber b.minStockLevel, castNumber b.maxStockLevel,
          castNumber b.reorderQuantity with
      | some cs, some mn, some mx, some rq =>
        let product : Product := {
          id := env.newId s.tick
          business := user.currentBusiness
          name := name
          category := b.category
          sku := sku
          barcode := b.barcode
          currentStock := cs
          minStockLevel := mn
          maxStockLevel := mx
          unit := b.unit
          costPrice := b.costPrice
          sellingPrice := b.sellingPrice
          supplier := supplier
          reorderQuantity := rq
          -- a value that cannot be cast leaves the path in error until the
          -- pre-validate hook assigns it again
          maxOrderQuantity := castWithDefault maxOrderQuantity
          isActive := b.isActive.getD true }
        match insertProduct env s product with
        | (none, s1) => (.failed, s1)
        | (some saved, s1) => (.created saved, s1)
      | _, _, _, _ => (.failed, s)

/-- The body of `PUT /api/inventory/:id` when it is an object of product
fields: any subset of them. The route hands `req.body` to `findOneAndUpdate` as
it is, so a body can also carry MongoDB update operators (`$set`, `$inc`, ...);
such bodies are not values of this type and no statement is made about them. -/
structure UpdateBody where
  name : Option String := none
  category : Option String := none
  sku : Option String := none
  barcode : Option String := none
  currentStock : Option JsVal := none
  minStockLevel : Option JsVal := none
  maxStockLevel : Option JsVal := none
  unit : Option String := none
  costPrice : Option ℚ := none
  sellingPrice : Option ℚ := none
  supplier : Option Supplier := none
  reorderQuantity : Option JsVal := none
  maxOrderQuantity : Option JsVal := none
  isActive : Option Bool := none
  deriving DecidableEq, Repr

/-- Cast of an optional numeric field of an update: `none` is a `CastError`,
`some none` an absent field. -/
def castOptional : Option JsVal → Option (Option Int)
  | none => some none
  | some v => (castNumber v).map some

/-- The update validators (`runValidators: true`) run on an optional field. -/
def validOptional {α : Type} (ok : α → Bool) : Option α → Bool
  | none => true
  | some a => ok a

/-- `PUT /api/inventory/:id`: `Product.findOneAndUpdate(filter, req.body,
  new and runValidators)`, for a body of product fields. The update is cast, the
validators of the fields it sets are run, and the stored document is modified
in place; no document hook runs. The cast reads a string with `stringToNumber`:
on a numeric field that is not a JSON integer or a signed digit string (such as
`" 50 "`, which Mongoose casts to 50) it answers with a failure where the route
stores the number. -/
def updateProduct (env : Env) (s : Store) (user : ReqUser) (id : ObjectId) (b : UpdateBody) :
    ProductResponse × Store :=
  if b.sku.any (fun k => k ≠ "" && s.products.any (fun q =>
      q.sku == upperString k && q.business == user.currentBusiness && q.id != id)) then
    (.duplicateSku, s)
  else if b.barcode.any (fun bc => bc ≠ "" && s.products.any (fun q =>
      q.barcode == some bc && q.business == user.currentBusiness && q.id != id)) then
    (.duplicateBarcode, s)
  else
    -- Force maxOrderQuantity to mirror maxStockLevel on update when provided
    let maxOrderQuantity := forceMaxOrderQuantity b.maxStockLevel b.maxOrderQuantity
    match castOptional b.currentStock, castOptional b.minStockLevel,
        castOptional b.maxStockLevel, castOptional b.reorderQuantity,
        castOptional maxOrderQuantity with
    | some cs, some mn, some mx, some rq, some moq =>
      let name := b.name.map trimString
      let sku := b.sku.map upperString
      if !(validOptional (fun x => x ≠ "") name &&
          validOptional (fun x => categories.contains x) b.category &&
          validOptional (fun x => x ≠ "") sku &&
          validOptional (fun x => decide ((0 : Int) ≤ x)) cs &&
          validOptional (fun x => decide ((0 : Int) ≤ x)) mn &&
          validOptional (fun x => decide ((0 : Int) ≤ x)) mx &&
          validOptional (fun x => units.contains x) b.unit &&
          validOptional (fun x => decide ((0 : ℚ) ≤ x)) b.costPrice &&
          validOptional (fun x => decide ((0 : ℚ) ≤ x)) b.sellingPrice &&
          validOptional (fun x => x.name ≠ "" && x.email ≠ "") b.supplier &&
          validOptional (fun x => decide ((1 : Int) ≤ x)) rq &&
          validOptional (fun x => decide ((1 : Int) ≤ x)) moq) then
        (.failed, s)
      else
        match s.products.find? (fun p => p.id == id && p.business == user.currentBusiness) with
        | none => (.notFound, s)
        | some product =>
          if env.writeFails s.tick then (.failed, { s with tick := s.tick + 1 })
          else
            let product1 : Product := { product with
              name := name.getD product.name
              category := b.category.getD product.category
              sku := sku.getD product.sku
              barcode := if b.barcode.isSome then b.barcode else product.barcode
              currentStock := cs.getD product.currentStock
              minStockLevel := mn.getD product.minStockLevel
              maxStockLevel := mx.getD product.maxStockLevel
              unit := b.unit.getD product.unit
              costPrice := b.costPrice.getD product.costPrice
              sellingPrice := b.sellingPrice.getD product.sellingPrice
              supplier := b.supplier.getD product.supplier
              reorderQuantity := rq.getD product.reorderQuantity
              maxOrderQuantity := moq.getD product.maxOrderQuantity
              isActive := b.isActive.getD product.isActive }
            (.updated product1, replaceProduct s product1)
    | _, _, _, _, _ => (.failed, s)

/-! ## Order routes: status update -/

/-- The rejection payload of a delivery that would exceed a maximum stock level
(besides the message and the product name). -/
structure DeliveryPayload where
  currentStock : Int
  maxStockLevel : Int
  orderQuantity : Int
  deriving DecidableEq, Repr

/-- The responses of `PUT /api/orders/:id/status`. -/
inductive StatusResponse where
  /-- Status 404 `Order not found`. -/
  | notFound
  /-- Status 400 `Cannot deliver order`, with the payload. -/
  | cannotDeliver (payload : DeliveryPayload)
  /-- Status 500 `Server error`. -/
  | serverError
  /-- Status 200 `Order status updated successfully`. -/
  | updated (order : Order)
  deriving DecidableEq, Repr

/-- The first loop of the delivery branch: the first line whose product exists
and would exceed its maximum stock level, if there is one. -/
def overstockCheck (s : Store) : List OrderLine → Option DeliveryPayload
  | [] => none
  | item :: rest =>
    match findProduct s item.product with
    | some product =>
      let newStockLevel := product.currentStock + item.quantity
      if newStockLevel > product.maxStockLevel then
        some {
          currentStock := product.currentStock
          maxStockLevel := product.maxStockLevel
          orderQuantity := item.quantity }
      else overstockCheck s rest
    | none => overstockCheck s rest

/-- `Product.findByIdAndUpdate(id, $inc currentStock by quantity)`: a write that
runs neither hooks nor validators; `false` means that it threw. -/
def incStock (env : Env) (s : Store) (id : ObjectId) (quantity : Int) : Bool × Store :=
  if env.writeFails s.tick then (false, { s with tick := s.tick + 1 })
  else (true, { s with
    products := s.products.map (fun q =>
      if q.id = id then { q with currentStock := q.currentStock + quantity } else q)
    tick := s.tick + 1 })

/-- The second loop of the delivery branch: increment the stock of every line in
turn; it stops at the first write that throws. -/
def applyDelivery (env : Env) (s : Store) : List OrderLine → Bool × Store
  | [] => (true, s)
  | item :: rest =>
    match incStock env s item.product item.quantity with
    | (false, s1) => (false, s1)
    | (true, s1) => applyDelivery env s1 rest

/-- `PUT /api/orders/:id/status` with a status accepted by the validator. -/
def updateOrderStatus (env : Env) (s : Store) (user : ReqUser) (id : ObjectId)
    (status : OrderStatus) : StatusResponse × Store :=
  match findOrder s id with
  | none => (.notFound, s)
  | some order =>
    let order1 := { order with status := status }
    if status = .delivered then
      let order2 := { order1 with actualDeliveryDate := some (env.clock s.tick) }
      -- Check for overstock before updating product stock
      match overstockCheck s order2.products with
      | some payload => (.cannotDeliver payload, s)
      | none =>
        -- Update product stock
        match applyDelivery env s order2.products with
        | (false, s1) => (.serverError, s1)
        | (true, s1) =>
          let notification : Notification := {
            business := some user.currentBusiness
            title := "Order Delivered"
            type := .order_delivered
            priority := some .medium
            recipient := user.id
            data := { orderId := some order2.id, orderNumber := order2.orderNumber } }
          match saveNotification env s1 notification with
          | (none, s2) => (.serverError, s2)
          | (some _, s2) =>
            match saveOrder env s2 order2 with
            | (none, s3) => (.serverError, s3)
            | (some saved, s3) => (.updated saved, s3)
    else
      match saveOrder env s order1 with
      | (none, s1) => (.serverError, s1)
      | (some saved, s1) => (.updated saved, s1)

/-! ## Stock service: the order-creating sweeps -/

/-- `notificationService.createNotification` called with a business id: build
the notification and save it; a failure of the save is thrown again. -/
def createNotification (env : Env) (s : Store) (title : String) (type : NotificationType)
    (priority : Priority) (recipientId : ObjectId) (data : NotificationData)
    (businessId : ObjectId) : Option Notification × Store :=
  saveNotification env s {
    title := title
    type := type
    priority := some priority
    recipient := recipientId
    business := some businessId
    data := data }

/-- The query `Product.find` of the two sweeps: active products whose current
stock is at most their minimum stock level. -/
def lowStockProducts (s : Store) : List Product :=
  s.products.filter (fun p => decide (p.currentStock ≤ p.minStockLevel) && p.isActive)

/-- `User.find` of the active users. -/
def activeUsers (s : Store) : List User := s.users.filter (fun u => u.isActive)

/-- The users of a tenant among `users`: `user.currentBusiness &&
user.currentBusiness.toString() === business.toString()`. -/
def businessUsers (users : List User) (business : ObjectId) : List User :=
  users.filter (fun user =>
    match user.currentBusiness with
    | some b => b.toString == business.toString
    | none => false)

/-- The body of the loop of `checkAndAutoReorder` for one product, with its
`try`/`catch`: an error of the order save or of the notification is logged and
the store is left as the failed write left it. -/
def autoReorderProduct (env : Env) (users : List User) (s : Store) (product : Product) : Store :=
  match businessUsers users product.business with
  | [] => s
  | owner :: _ =>
    let orderItems : List OrderLine := [{
      product := product.id
      quantity := product.reorderQuantity
      unitPrice := product.costPrice
      totalPrice := product.reorderQuantity * product.costPrice }]
    let order : Order := {
      id := env.newId s.tick
      products := orderItems
      business := product.business
      status := .pending
      paymentStatus := .pending
      orderType := .automatic
      supplier := some product.supplier
      expectedDeliveryDate := some (env.clock s.tick + twoDays)
      createdBy := owner.id
      notes := some ("Auto-reorder for " ++ product.name ++ " - Low stock alert triggered") }
    match saveNewOrder env s order with
    | (none, s1) => s1
    | (some saved, s1) =>
      (createNotification env s1 "Payment Pending - Auto Order" .payment_pending .high owner.id
        { productId := some product.id
          orderId := some saved.id
          orderNumber := saved.orderNumber
          quantity := some product.reorderQuantity
          amount := saved.totalAmount
          requiresPayment := true }
        product.business).2

/-- `stockService.checkAndAutoReorder`: the real-time auto-reorder sweep. -/
def checkAndAutoReorder (env : Env) (s : Store) : Store :=
  let lowStock := lowStockProducts s
  if lowStock.length = 0 then s
  else
    let users := activeUsers s
    if users.length = 0 then s
    else lowStock.foldl (autoReorderProduct env users) s

/-- A value of the `supplierGroups` object of `autoRenewStock`. -/
structure SupplierGroup where
  supplier : Supplier
  business : ObjectId
  products : List OrderLine
  deriving DecidableEq, Repr

/-- The key of a product in `supplierGroups`: the supplier e-mail, an
underscore and the tenant id as a string. -/
def groupKey (product : Product) : String :=
  product.supplier.email ++ "_" ++ product.business.toString

/-- One step of the grouping loop of `autoRenewStock`. The object
`supplierGroups` is the list of its entries in insertion order, which is the
order `Object.entries` enumerates them in. -/
def addToGroup (supplierGroups : List (String × SupplierGroup)) (product : Product) :
    List (String × SupplierGroup) :=
  let key := groupKey product
  let groups1 :=
    if supplierGroups.any (fun e => e.1 == key) then supplierGroups
    else supplierGroups ++
      [(key, { supplier := product.supplier, business := product.business, products := [] })]
  groups1.map (fun e =>
    if e.1 = key then
      (e.1, { e.2 with products := e.2.products ++ [{
          product := product.id
          quantity := product.reorderQuantity
          unitPrice := product.costPrice
          totalPrice := product.costPrice * product.reorderQuantity }] })
    else e)

/-- The second loop of `autoRenewStock`, one order per group. The loop has no
`try`/`catch` of its own: an error of the order save or of the notification
leaves the loop and is caught by the handler around the whole function. -/
def renewGroups (env : Env) (users : List User) (s : Store) :
    List (String × SupplierGroup) → Store
  | [] => s
  | (_, group) :: rest =>
    let totalAmount := group.products.foldl (fun sum item => sum + item.totalPrice) 0
    match businessUsers users group.business with
    | [] => renewGroups env users s rest
    | owner :: _ =>
      let order : Order := {
        id := env.newId s.tick
        products := group.products
        business := group.business
        totalAmount := some totalAmount
        supplier := some group.supplier
        createdBy := owner.id
        orderType := .automatic
        status := .pending
        paymentStatus := .pending
        expectedDeliveryDate := some (env.clock s.tick + twoDays)
        notes := some "Automatically generated order for low stock items - Payment pending" }
      match saveNewOrder env s order with
      | (none, s1) => s1
      | (some saved, s1) =>
        match createNotification env s1 "Payment Pending - Auto Order" .payment_pending .high
            owner.id
            { orderId := some saved.id
              orderNumber := saved.orderNumber
              productCount := some group.products.length
              amount := some totalAmount
              requiresPayment := true }
            group.business with
        | (none, s2) => s2
        | (some _, s2) => renewGroups env users s2 rest

/-- `stockService.autoRenewStock`: the supplier-grouped renewal sweep. -/
def autoRenewStock (env : Env) (s : Store) : Store :=
  let lowStock := lowStockProducts s
  if lowStock.length = 0 then s
  else
    let users := activeUsers s
    if users.length = 0 then s
    else
      let supplierGroups := lowStock.foldl addToGroup []
      renewGroups env users s supplierGroups

/-! ## Stock service: the low-stock notification sweep -/

/-- `notificationService.sendOutOfStockNotification`: the in-app notification,
whose error is caught and logged. The e-mail that follows goes to an external
service and leaves no trace in the store. -/
def sendOutOfStockNotification (env : Env) (s : Store) (product : Product) (user : User) :
    Store :=
  (createNotification env s "Out of Stock Alert" .out_of_stock .urgent user.id
    { productId := some product.id
      currentStock := some product.currentStock }
    product.business).2

/-- `notificationService.sendLowStockNotification`: the in-app notification,
whose error is caught and logged. The e-mail that follows goes to an external
service and leaves no trace in the store. -/
def sendLowStockNotification (env : Env) (s : Store) (product : Product) (user : User) :
    Store :=
  (createNotification env s "Low Stock Alert" .low_stock .high user.id
    { productId := some product.id
      currentStock := some product.currentStock
      minStockLevel := some product.minStockLevel }
    product.business).2

/-- The body of the loop of `checkLowStock` for one product. -/
def notifyLowStockProduct (env : Env) (users : List User) (s : Store) (product : Product) :
    Store :=
  if product.currentStock ≤ 0 then
    (businessUsers users product.business).foldl
      (fun st recipient => sendOutOfStockNotification env st product recipient) s
  else if product.currentStock ≤ product.minStockLevel then
    (businessUsers users product.business).foldl
      (fun st recipient => sendLowStockNotification env st product recipient) s
  else s

/-- `stockService.checkLowStock`: the low-stock notification sweep. -/
def checkLowStock (env : Env) (s : Store) : Store :=
  let products := s.products.filter (fun p => p.isActive)
  let users := activeUsers s
  if users.length = 0 then s
  else products.foldl (notifyLowStockProduct env users) s

/-! ## Inventory routes: bulk manual reorder -/

/-- An entry of the `results` list of the bulk reorder. -/
structure BulkResult where
  productId : ObjectId
  productName : String
  orderId : ObjectId
  orderNumber : Option String
  quantity : Int
  deriving DecidableEq, Repr

/-- What an entry of the `errors` list of the bulk reorder says. -/
inductive BulkErrorReason where
  /-- `Product not found or inactive`. -/
  | notFoundOrInactive
  /-- `Cannot reorder`, with the capacity payload. -/
  | capacityExceeded (payload : CapacityPayload)
  /-- The message of an error thrown while the id was processed. -/
  | raised
  deriving DecidableEq, Repr

/-- An entry of the `errors` list of the bulk reorder. -/
structure BulkError where
  productId : ObjectId
  error : BulkErrorReason
  deriving DecidableEq, Repr

/-- The two lists of the bulk reorder and the store, while the loop runs. -/
structure BulkState where
  results : List BulkResult := []
  errors : List BulkError := []
  store : Store
  deriving DecidableEq, Repr

/-- The responses of `POST /api/inventory/reorder-multiple`. -/
inductive BulkResponse where
  /-- Status 400 `Product IDs array is required`. -/
  | idsRequired
  /-- Status 500 `Server error`. -/
  | serverError
  /-- Status 200 `Bulk reorder completed`; an empty `errors` list is sent as
  `undefined`. -/
  | completed (results : List BulkResult) (errors : List BulkError)
  deriving DecidableEq, Repr

/-- The `results` list of a bulk response, empty when the response has none. -/
def BulkResponse.results : BulkResponse → List BulkResult
  | .completed results _ => results
  | _ => []

/-- The `errors` list of a bulk response, empty when the response has none. -/
def BulkResponse.errors : BulkResponse → List BulkError
  | .completed _ errors => errors
  | _ => []

/-- The body of the loop of the bulk reorder for one product id, with its
`try`/`catch`. -/
def reorderOne (env : Env) (user : ReqUser) (st : BulkState) (productId : ObjectId) :
    BulkState :=
  let s := st.store
  match findProduct s productId with
  | none =>
    { st with errors := st.errors ++ [{ productId := productId, error := .notFoundOrInactive }] }
  | some product =>
    if !product.isActive then
      { st with errors := st.errors ++ [{ productId := productId, error := .notFoundOrInactive }] }
    else
      -- Check if reordering would exceed maximum stock level
      let newStockLevel := product.currentStock + product.reorderQuantity
      if newStockLevel > product.maxStockLevel then
        { st with errors := st.errors ++ [{
            productId := productId
            error := .capacityExceeded {
              currentStock := product.currentStock
              maxStockLevel := product.maxStockLevel
              requestedQuantity := .num product.reorderQuantity
              maxAllowedQuantity := product.maxStockLevel - product.currentStock } }] }
      else
        let orderItems : List OrderLine := [{
          product := product.id
          quantity := product.reorderQuantity
          unitPrice := product.costPrice
          totalPrice := product.reorderQuantity * product.costPrice }]
        let order : Order := {
          id := env.newId s.tick
          products := orderItems
          business := product.business
          status := .confirmed
          orderType := .manual
          supplier := some product.supplier
          expectedDeliveryDate := some (env.clock s.tick + twoDays)
          createdBy := user.id
          notes := some ("Bulk reorder for " ++ product.name ++ " - Low stock alert triggered") }
        match saveNewOrder env s order with
        | (none, s1) =>
          { st with
            errors := st.errors ++ [{ productId := productId, error := .raised }]
            store := s1 }
        | (some order1, s1) =>
          -- Restock the product
          let product1 := { product with
            currentStock := product.currentStock + product.reorderQuantity
            lastRestocked := some (env.clock s1.tick) }
          match saveProduct env s1 product1 with
          | (none, s2) =>
            { st with
              errors := st.errors ++ [{ productId := productId, error := .raised }]
              store := s2 }
          | (some saved, s2) =>
            { st with
              results := st.results ++ [{
                productId := saved.id
                productName := saved.name
                orderId := order1.id
                orderNumber := order1.orderNumber
                quantity := saved.reorderQuantity }]
              store := s2 }

/-- `POST /api/inventory/reorder-multiple`. -/
def reorderMultiple (env : Env) (s : Store) (user : ReqUser) (productIds : List ObjectId) :
    BulkResponse × Store :=
  if productIds.length = 0 then (.idsRequired, s)
  else
    let st := productIds.foldl (reorderOne env user) { store := s }
    -- Create notification for bulk reorder
    if st.results.length > 0 then
      let notification : Notification := {
        recipient := user.id
        business := some user.currentBusiness
        type := .system_alert
        title := "Bulk Reorder Completed"
        data := {
          reorderedProducts := st.results.map (fun r => r.productId)
          totalProducts := some st.results.length } }
      match saveNotification env st.store notification with
      | (none, s1) => (.serverError, s1)
      | (some _, s1) => (.completed st.results st.errors, s1)
    else (.completed st.results st.errors, st.store)

/-! ## Order routes: create, edit, cancel -/

/-- A line of the `products` array of an order request: a product id and a
quantity, which is a JSON number or string. -/
structure OrderItemBody where
  product : ObjectId
  quantity : JsVal
  deriving DecidableEq, Repr

/-- The body of `POST /api/orders` and of `PUT /api/orders/:id`. A `products`
value that is absent or not an array is the empty list; the supplier, when
given, has a name and an e-mail; the delivery date is given as its time value. -/
structure OrderBody where
  products : List OrderItemBody := []
  supplier : Option Supplier := none
  expectedDeliveryDate : Option Nat := none
  notes : Option String := none
  deriving DecidableEq, Repr

/-- The payload of the order size limit rejection (besides the message). -/
structure OrderLimitPayload where
  productName : String
  requestedQuantity : JsVal
  maxOrderQuantity : Int
  deriving DecidableEq, Repr

/-- The responses of the order create, edit and cancel endpoints. -/
inductive OrderResponse where
  /-- Status 400 with the validator errors. -/
  | validationErrors
  /-- Status 404 `Order not found`. -/
  | orderNotFound
  /-- Status 400 `Product ... not found`. -/
  | productNotFound (product : ObjectId)
  /-- Status 400 with error `ORDER_SIZE_LIMIT_EXCEEDED`. -/
  | orderSizeLimitExceeded (payload : OrderLimitPayload)
  /-- Status 400 `Cannot edit delivered or cancelled orders`. -/
  | notEditable
  /-- Status 400 `Cannot cancel delivered order`. -/
  | cannotCancelDelivered
  /-- Status 500 `Server error`. -/
  | serverError
  /-- Status 201 `Order created successfully`. -/
  | created (order : Order)
  /-- Status 200 `Order updated successfully`. -/
  | updated (order : Order)
  /-- Status 200 `Order cancelled successfully`. -/
  | cancelled
  deriving DecidableEq, Repr

/-- The line pushed for an item: `unitPrice = product.costPrice`, `totalPrice =
unitPrice * item.quantity`. When the quantity is not a number the product is
`NaN` and the line cannot be cast by the order schema: `none`. -/
def priceLine (product : Product) (item : OrderItemBody) : Option OrderLine :=
  match item.quantity.toNumber with
  | some quantity =>
    some {
      product := product.id
      quantity := quantity
      unitPrice := product.costPrice
      totalPrice := product.costPrice * quantity }
  | none => none

/-- The loop over the requested lines of the create and edit endpoints: the
first line whose product is missing or whose quantity exceeds the product's
`maxOrderQuantity` ends the request with its response; otherwise the priced
lines. -/
def buildLines (s : Store) : List OrderItemBody → Except OrderResponse (List (Option OrderLine))
  | [] => .ok []
  | item :: rest =>
    match findProduct s item.product with
    | none => .error (.productNotFound item.product)
    | some product =>
      -- Check order size limit
      if jsGt item.quantity product.maxOrderQuantity then
        .error (.orderSizeLimitExceeded {
          productName := product.name
          requestedQuantity := item.quantity
          maxOrderQuantity := product.maxOrderQuantity })
      else
        match buildLines s rest with
        | .error response => .error response
        | .ok lines => .ok (priceLine product item :: lines)

/-- The lines as the order schema casts them: `none` when some line cannot be
cast. -/
def castLines : List (Option OrderLine) → Option (List OrderLine)
  | [] => some []
  | none :: _ => none
  | some line :: rest => (castLines rest).map (fun lines => line :: lines)

/-- The validator chains of the order create route. `isEmail` is validator.js's
e-mail check. -/
def createOrderValid (isEmail : String → Bool) (b : OrderBody) : Bool :=
  decide (1 ≤ b.products.length) &&
  b.products.all (fun item => isIntMin 1 item.quantity) &&
  (match b.supplier with
   | none => true
   | some supplier => decide (1 ≤ (trimString supplier.name).length) && isEmail supplier.email)

/-- `POST /api/orders`, for a user with a current tenant. -/
def createOrder (isEmail : String → Bool) (env : Env) (s : Store) (user : ReqUser)
    (b : OrderBody) : OrderResponse × Store :=
  if !createOrderValid isEmail b then (.validationErrors, s)
  else
    -- Validate products and calculate prices
    match buildLines s b.products with
    | .error response => (response, s)
    | .ok drafts =>
      match castLines drafts with
      | none => (.serverError, s)
      | some orderProducts =>
        let totalAmount := orderProducts.foldl (fun total item => total + item.totalPrice) 0
        let order : Order := {
          id := env.newId s.tick
          products := orderProducts
          totalAmount := some totalAmount
          supplier := b.supplier.map (fun x => { x with name := trimString x.name })
          expectedDeliveryDate := b.expectedDeliveryDate
          notes := b.notes
          createdBy := user.id
          business := user.currentBusiness
          orderType := .manual }
        match saveNewOrder env s order with
        | (none, s1) => (.serverError, s1)
        | (some saved, s1) =>
          let notification : Notification := {
            business := some user.currentBusiness
            title := "New Order Created"
            type := .order_placed
            priority := some .medium
            recipient := user.id
            data := { orderId := some saved.id, orderNumber := saved.orderNumber } }
          match saveNotification env s1 notification with
          | (none, s2) => (.serverError, s2)
          | (some _, s2) => (.created saved, s2)

/-- `PUT /api/orders/:id`, the line quantities read with `JsVal.toNumber`. It
is the instance of `editOrderBy` for this reading, which is the one of the
route on JSON integers and signed digit strings; on other strings that
`Number` reads as integers (such as `" 4 "`) the route is `editOrderBy` under a
reading that accepts them. -/
def editOrder (env : Env) (s : Store) (id : ObjectId) (b : OrderBody) : OrderResponse × Store :=
  match findOrder s id with
  | none => (.orderNotFound, s)
  | some order =>
    if order.status = .delivered ∨ order.status = .cancelled then (.notEditable, s)
    else
      let edited : Except OrderResponse (Option Order) :=
        if b.products.length > 0 then
          -- Re-validate products and recalc totals
          match buildLines s b.products with
          | .error response => .error response
          | .ok drafts =>
            match castLines drafts with
            | none => .ok none
            | some updatedProducts =>
              .ok (some { order with
                products := updatedProducts
                totalAmount := some
                  (updatedProducts.foldl (fun total item => total + item.totalPrice) 0) })
        else .ok (some order)
      match edited with
      | .error response => (response, s)
      | .ok none => (.serverError, s)
      | .ok (some order1) =>
        let order2 := { order1 with
          supplier := if b.supplier.isSome then b.supplier else order1.supplier
          expectedDeliveryDate :=
            if b.expectedDeliveryDate.isSome then b.expectedDeliveryDate
            else order1.expectedDeliveryDate
          notes := if b.notes.isSome then b.notes else order1.notes }
        match saveOrder env s order2 with
        | (none, s1) => (.serverError, s1)
        | (some saved, s1) => (.updated saved, s1)

/-- `DELETE /api/orders/:id`: cancel an order. -/
def cancelOrder (env : Env) (s : Store) (id : ObjectId) : OrderResponse × Store :=
  match findOrder s id with
  | none => (.orderNotFound, s)
  | some order =>
    if order.status = .delivered then (.cannotCancelDelivered, s)
    else
      match saveOrder env s { order with status := .cancelled } with
      | (none, s1) => (.serverError, s1)
      | (some _, s1) => (.cancelled, s1)

/-- JavaScript `v > m` for a number `m`, under a reading `read` of request
values as numbers (`none` is `NaN`). -/
def gtBy (read : JsVal → Option Int) (v : JsVal) (m : Int) : Bool :=
  match read v with
  | some x => decide (x > m)
  | none => false

/-- The line pushed for an item, under a reading `read` of its quantity. -/
def priceLineBy (read : JsVal → Option Int) (product : Product) (item : OrderItemBody) :
    Option OrderLine :=
  match read item.quantity with
  | some quantity =>
    some {
      product := product.id
      quantity := quantity
      unitPrice := product.costPrice
      totalPrice := product.costPrice * quantity }
  | none => none

/-- The loop over the requested lines, under a reading `read` of the
quantities. -/
def buildLinesBy (read : JsVal → Option Int) (s : Store) :
    List OrderItemBody → Except OrderResponse (List (Option OrderLine))
  | [] => .ok []
  | item :: rest =>
    match findProduct s item.product with
    | none => .error (.productNotFound item.product)
    | some product =>
      -- Check order size limit
      if gtBy read item.quantity product.maxOrderQuantity then
        .error (.orderSizeLimitExceeded {
          productName := product.name
          requestedQuantity := item.quantity
          maxOrderQuantity := product.maxOrderQuantity })
      else
        match buildLinesBy read s rest with
        | .error response => .error response
        | .ok lines => .ok (priceLineBy read product item :: lines)

/-- `PUT /api/orders/:id` under a reading `read` of the line quantities as
numbers. The route has no validators, so a quantity can be any string; the
comparison with `maxOrderQuantity`, the product with the unit price and the
cast of the order schema all apply `Number` to it, for which `read` stands.
`editOrder` is the instance for `JsVal.toNumber`. -/
def editOrderBy (read : JsVal → Option Int) (env : Env) (s : Store) (id : ObjectId)
    (b : OrderBody) : OrderResponse × Store :=
  match findOrder s id with
  | none => (.orderNotFound, s)
  | some order =>
    if order.status = .delivered ∨ order.status = .cancelled then (.notEditable, s)
    else
      let edited : Except OrderResponse (Option Order) :=
        if b.products.length > 0 then
          -- Re-validate products and recalc totals
          match buildLinesBy read s b.products with
          | .error response => .error response
          | .ok drafts =>
            match castLines drafts with
            | none => .ok none
            | some updatedProducts =>
              .ok (some { order with
                products := updatedProducts
                totalAmount := some
                  (updatedProducts.foldl (fun total item => total + item.totalPrice) 0) })
        else .ok (some order)
      match edited with
      | .error response => (response, s)
      | .ok none => (.serverError, s)
      | .ok (some order1) =>
        let order2 := { order1 with
          supplier := if b.supplier.isSome then b.supplier else order1.supplier
          expectedDeliveryDate :=
            if b.expectedDeliveryDate.isSome then b.expectedDeliveryDate
            else order1.expectedDeliveryDate
          notes := if b.notes.isSome then b.notes else order1.notes }
        match saveOrder env s order2 with
        | (none, s1) => (.serverError, s1)
        | (some saved, s1) => (.updated saved, s1)

/-! ## Payment routes: create and verify -/

/-- The `paymentMethod` enumeration. -/
def paymentMethods : List String :=
  ["credit_card", "debit_card", "net_banking", "upi", "wallet", "cod"]

/-- The transaction id built by the `pre('save')` hook of the payment schema. -/
def genTransactionId (now : Nat) (r : ℚ) : String :=
  "TXN-" ++ String.mk (lastN 8 (Nat.toDigits 10 now)) ++ "-" ++
    String.mk (padStart0 4 (Nat.toDigits 10 (⌊r * 10000⌋).toNat))

/-- `paymentSchema.pre('save')`: generate the transaction id when there is none. -/
def Payment.preSave (now : Nat) (r : ℚ) (p : Payment) : Payment :=
  if p.transactionId = none ∨ p.transactionId = some "" then
    { p with transactionId := some (genTransactionId now r) }
  else p

/-- The validators of the payment schema that can fail on a typed payment. -/
def Payment.valid (p : Payment) : Bool :=
  decide (0 ≤ p.amount) && paymentMethods.contains p.paymentMethod

/-- `payment.save()` of a new payment. `none` means that it threw. -/
def saveNewPayment (env : Env) (s : Store) (p : Payment) : Option Payment × Store :=
  if !p.valid then (none, s)
  else
    let p1 := p.preSave (env.clock s.tick) (env.random s.tick)
    if env.writeFails s.tick then (none, { s with tick := s.tick + 1 })
    else (some p1, { s with payments := s.payments ++ [p1], tick := s.tick + 1 })

/-- `payment.save()` of a stored payment. `none` means that it threw. -/
def savePayment (env : Env) (s : Store) (p : Payment) : Option Payment × Store :=
  if !p.valid then (none, s)
  else
    let p1 := p.preSave (env.clock s.tick) (env.random s.tick)
    if env.writeFails s.tick then (none, { s with tick := s.tick + 1 })
    else (some p1, { s with
      payments := s.payments.map (fun q => if q.id = p1.id then p1 else q)
      tick := s.tick + 1 })

/-- The responses of the payment endpoints. -/
inductive PaymentResponse where
  /-- Status 400 with the validator errors. -/
  | validationErrors
  /-- Status 404 `Order not found`. -/
  | orderNotFound
  /-- Status 404 `Payment record not found`. -/
  | paymentNotFound
  /-- Status 400 `Payment already completed for this order`. -/
  | alreadyCompleted
  /-- Status 400 `Payment verification failed`. -/
  | verificationFailed
  /-- Status 500 `Server error`. -/
  | serverError
  /-- Status 200 `Payment order created successfully`. -/
  | paymentCreated (payment : Payment)
  /-- Status 200 `Payment verified successfully`. -/
  | verified (order : Order)
  deriving DecidableEq, Repr

/-- `POST /api/payments/create`. -/
def createPayment (env : Env) (s : Store) (user : ReqUser) (orderId : ObjectId)
    (paymentMethod : String) : PaymentResponse × Store :=
  if !paymentMethods.contains paymentMethod then (.validationErrors, s)
  else
    match findOrder s orderId with
    | none => (.orderNotFound, s)
    | some order =>
      if order.paymentStatus = .completed then (.alreadyCompleted, s)
      else
        -- `amount` is required: an order without a total makes the save throw
        match order.totalAmount with
        | none => (.serverError, s)
        | some amount =>
          let payment : Payment := {
            id := env.newId s.tick
            business := user.currentBusiness
            order := order.id
            amount := amount
            paymentMethod := paymentMethod
            createdBy := user.id }
          match saveNewPayment env s payment with
          | (none, s1) => (.serverError, s1)
          | (some saved, s1) =>
            -- Update order payment status
            let order1 := { order with paymentStatus := .processing, paymentAmount := amount }
            match saveOrder env s1 order1 with
            | (none, s2) => (.serverError, s2)
            | (some _, s2) => (.paymentCreated saved, s2)

/-- The body of `POST /api/payments/verify`; `transactionId` is the id of the
payment record. -/
structure VerifyBody where
  paymentId : String
  orderId : String
  signature : String
  transactionId : ObjectId
  deriving DecidableEq, Repr

/-- The mock `verifyPaymentSignature` of the route. -/
def verifyPaymentSignature (_paymentId _orderId _signature : String) : Bool := true

/-- `POST /api/payments/verify`. -/
def verifyPayment (env : Env) (s : Store) (user : ReqUser) (b : VerifyBody) :
    PaymentResponse × Store :=
  if b.paymentId = "" ∨ b.orderId = "" ∨ b.signature = "" then (.validationErrors, s)
  else
    match s.payments.find? (fun p => p.id == b.transactionId) with
    | none => (.paymentNotFound, s)
    | some payment =>
      if verifyPaymentSignature b.paymentId b.orderId b.signature then
        -- Update payment status
        let payment1 := { payment with
          status := .completed
          gatewayPaymentId := some b.paymentId
          paymentDate := some (env.clock s.tick) }
        match savePayment env s payment1 with
        | (none, s1) => (.serverError, s1)
        | (some saved, s1) =>
          -- Update order; a missing order makes the assignment throw
          match findOrder s1 saved.order with
          | none => (.serverError, s1)
          | some order =>
            let order1 := { order with
              paymentStatus := .completed
              paymentId := some b.paymentId
              paymentDate := some (env.clock s1.tick)
              status := .confirmed }
            match saveOrder env s1 order1 with
            | (none, s2) => (.serverError, s2)
            | (some savedOrder, s2) =>
              let notification : Notification := {
                business := some user.currentBusiness
                title := "Payment Successful"
                type := .payment_success
                priority := some .high
                recipient := user.id
                data := {
                  orderId := some savedOrder.id
                  orderNumber := savedOrder.orderNumber
                  paymentId := some saved.id
                  transactionId := saved.transactionId } }
              match saveNotification env s2 notification with
              | (none, s3) => (.serverError, s3)
              | (some _, s3) => (.verified savedOrder, s3)
      else
        -- Payment verification failed
        let payment1 := { payment with
          status := .failed
          failureReason := some "Invalid signature" }
        match savePayment env s payment1 with
        | (none, s1) => (.serverError, s1)
        | (some saved, s1) =>
          match findOrder s1 saved.order with
          | none => (.serverError, s1)
          | some order =>
            match saveOrder env s1 { order with paymentStatus := .failed } with
            | (none, s2) => (.serverError, s2)
            | (some _, s2) => (.verificationFailed, s2)

/-! ## Specification-side vocabulary of the sweeps -/

/-- Whether a tenant has an active user: some active user has it as current
business. -/
def tenantHasActiveUser (s : Store) (business : ObjectId) : Bool :=
  s.users.any (fun u => u.isActive && u.currentBusiness == some business)

/-- The products the order-creating sweeps act on: active, with current stock
at most the minimum stock level, of a tenant that has an active user. -/
def qualifyingProducts (s : Store) : List Product :=
  s.products.filter (fun p =>
    p.isActive && decide (p.currentStock ≤ p.minStockLevel) && tenantHasActiveUser s p.business)

/-- The order line proposed for a product: `reorderQuantity` units at cost price. -/
def reorderLine (p : Product) : OrderLine where
  product := p.id
  quantity := p.reorderQuantity
  unitPrice := p.costPrice
  totalPrice := p.reorderQuantity * p.costPrice

/-- An automatic, pending, payment-pending order of the tenant of `p` whose
only line is the reorder line of `p`. -/
def IsAutoOrderFor (p : Product) (o : Order) : Prop :=
  o.orderType = .automatic ∧ o.status = .pending ∧ o.paymentStatus = .pending ∧
    o.business = p.business ∧ o.products = [reorderLine p]

/-- The pair a product is grouped by: supplier e-mail and tenant. -/
def supplierPair (p : Product) : String × ObjectId := (p.supplier.email, p.business)

/-- The key string of a pair of supplier e-mail and tenant. -/
def pairKey (pair : String × ObjectId) : String := pair.1 ++ "_" ++ pair.2.toString

/-- The state of the grouping loop after the products `processed`: the keys are
distinct, they are the keys of the processed products, every group holds the
lines of the processed products with its key, in order, and its key is the key
of its own supplier e-mail and tenant. -/
def GroupedFrom (groups : List (String × SupplierGroup)) (processed : List Product) : Prop :=
  (groups.map Prod.fst).Nodup ∧
  (∀ k, k ∈ groups.map Prod.fst ↔ ∃ p ∈ processed, groupKey p = k) ∧
  ∀ e ∈ groups,
    e.2.products = (processed.filter (fun p => decide (groupKey p = e.1))).map reorderLine ∧
    e.1 = pairKey (e.2.supplier.email, e.2.business)

/-- An automatic, pending, payment-pending order of the tenant and supplier
e-mail of `pair` whose lines are the reorder lines of the products of `low` that
have this pair, in order. -/
def IsGroupOrderFor (low : List Product) (pair : String × ObjectId) (o : Order) : Prop :=
  o.orderType = .automatic ∧ o.status = .pending ∧ o.paymentStatus = .pending ∧
    o.business = pair.2 ∧ o.supplier.map (fun x => x.email) = some pair.1 ∧
    o.products = (low.filter (fun p => decide (supplierPair p = pair))).map reorderLine

/-- A payment-pending notification about the order `o`, for its tenant. -/
def IsNotificationFor (o : Order) (n : Notification) : Prop :=
  n.type = .payment_pending ∧ n.data.orderId = some o.id ∧ n.business = some o.business

/-- The sum of the quantities of the lines that reference a product. -/
def deliveredQuantity (lines : List OrderLine) (id : ObjectId) : Int :=
  ((lines.filter (fun l => l.product == id)).map (fun l => l.quantity)).sum

/-- Whether some user of the list has the tenant as current business. -/
def hasUserOf (users : List User) (business : ObjectId) : Bool :=
  users.any (fun u => u.currentBusiness == some business)

/-- The products of a run of the real-time sweep whose order is saved, when the
run starts at tick `t`: those with a user of their tenant and a reorder quantity
the order schema accepts, at whose turn the order write does not fail. A
product without user or with a rejected order attempts no write; a failed
order write is one attempt; a saved order is followed by the write of its
notification, two attempts. -/
def ordersSavedFor (env : Env) (users : List User) : Nat → List Product → List Product
  | _, [] => []
  | t, p :: rest =>
    if !hasUserOf users p.business || decide (p.reorderQuantity < 1) then
      ordersSavedFor env users t rest
    else if env.writeFails t then ordersSavedFor env users (t + 1) rest
    else p :: ordersSavedFor env users (t + 2) rest

/-- The out-of-stock notification about a product, addressed to a user. -/
def outOfStockNotice (p : Product) (u : User) : Notification where
  recipient := u.id
  business := some p.business
  type := .out_of_stock
  priority := some .urgent
  title := "Out of Stock Alert"
  data := { productId := some p.id, currentStock := some p.currentStock }

/-- The low-stock notification about a product, addressed to a user. -/
def lowStockNotice (p : Product) (u : User) : Notification where
  recipient := u.id
  business := some p.business
  type := .low_stock
  priority := some .high
  title := "Low Stock Alert"
  data := {
    productId := some p.id
    currentStock := some p.currentStock
    minStockLevel := some p.minStockLevel }

/-- The notification a user is due about a product: out of stock when the stock
is at most 0, low stock when it is positive and at most the minimum, none
above the minimum. -/
def noticeFor (p : Product) (u : User) : Option Notification :=
  if p.currentStock ≤ 0 then some (outOfStockNotice p u)
  else if p.currentStock ≤ p.minStockLevel then some (lowStockNotice p u)
  else none

/-- The notifications one run of the low-stock sweep is due to create: for
every active product, in order, and every active user whose current tenant is
the tenant of the product, in order, the notification due. -/
def lowStockNotices (s : Store) : List Notification :=
  (s.products.filter (fun p => p.isActive)).flatMap (fun p =>
    ((s.users.filter (fun u => u.isActive)).filter
      (fun u => u.currentBusiness == some p.business)).filterMap (noticeFor p))

/-- Whether the bulk reorder puts a product id into its `errors` list when it
processes it in the store `s`: the product is missing or inactive, its stock
plus its reorder quantity exceeds its maximum, or processing raises, which
happens when the order is rejected by the order schema (reorder quantity below
1), when the write of the order fails, when the restocked product is rejected
by the product schema, or when the write of the product fails. -/
def bulkItemFails (env : Env) (s : Store) (id : ObjectId) : Bool :=
  match findProduct s id with
  | none => true
  | some p =>
    !p.isActive || decide (p.currentStock + p.reorderQuantity > p.maxStockLevel) ||
    decide (p.reorderQuantity < 1) || env.writeFails s.tick ||
    !({ p with currentStock := p.currentStock + p.reorderQuantity } : Product).preValidate.valid ||
    env.writeFails (s.tick + 1)

/-- An order line priced from a list of products: some product of the list has
the id the line references and its cost price is the unit price of the line,
and the total price of the line is its quantity times its unit price. -/
def LinePricedFrom (products : List Product) (l : OrderLine) : Prop :=
  ∃ p ∈ products, p.id = l.product ∧ l.unitPrice = p.costPrice ∧
    l.totalPrice = l.quantity * l.unitPrice

/-- The six decimal digits of `n % 1000000`, most significant first. -/
def sixDigits (n : Nat) : List Char :=
  [Nat.digitChar (n / 100000 % 10), Nat.digitChar (n / 10000 % 10),
    Nat.digitChar (n / 1000 % 10), Nat.digitChar (n / 100 % 10),
    Nat.digitChar (n / 10 % 10), Nat.digitChar (n % 10)]

/-- The three decimal digits of `k % 1000`, most significant first. -/
def threeDigits (k : Nat) : List Char :=
  [Nat.digitChar (k / 100 % 10), Nat.digitChar (k / 10 % 10), Nat.digitChar (k % 10)]

/-- Whether a response of the status endpoint is the success. -/
def StatusResponse.isUpdated : StatusResponse → Bool
  | .updated _ => true
  | _ => false

/-- Whether a response of the restock endpoint is the success. -/
def StockResponse.isRestocked : StockResponse → Bool
  | .restocked _ _ => true
  | _ => false

/-- A product whose stock is neither negative nor above its maximum. -/
def WithinCeiling (p : Product) : Prop :=
  0 ≤ p.currentStock ∧ p.currentStock ≤ p.maxStockLevel

/-- Whether the embedding reads a request value exactly as JavaScript does: a
JSON integer, or a string of an optional sign followed by decimal digits. -/
def JsVal.isIntegerLiteral : JsVal → Bool
  | .num _ => true
  | .str s => (stringToNumber s).isSome

/-- Whether every numeric field that an update body carries is read exactly. -/
def UpdateBody.integerFields (b : UpdateBody) : Bool :=
  [b.currentStock, b.minStockLevel, b.maxStockLevel, b.reorderQuantity,
    b.maxOrderQuantity].all (fun v => v.all JsVal.isIntegerLiteral)

/-- No two stored orders have the same tenant and the same order number. -/
def UniqueOrderNumbers (s : Store) : Prop :=
  s.orders.Pairwise (fun a b => ¬ (a.business = b.business ∧ a.orderNumber = b.orderNumber))

/-! ## Example data -/

/-- An environment in which no write fails: a fixed clock and random draw, ids
numbered by the tick. -/
def quietEnv : Env where
  clock := fun _ => 1700000123456
  random := fun _ => 1 / 2
  newId := fun k => Fin.ofNat (1000 + k)
  writeFails := fun _ => false

/-- An environment like `quietEnv` in which the first write fails. -/
def firstWriteFailsEnv : Env := { quietEnv with writeFails := fun k => decide (k = 0) }

/-- The supplier of the example products. -/
def acme : Supplier := { name := "Acme", email := "orders@acme.test" }

/-- A second supplier. -/
def bolt : Supplier := { name := "Bolt", email := "sales@bolt.test" }

/-- A product of tenant 7 with stock 95 of at most 100 and reorder quantity 10. -/
def rice : Product where
  id := 1
  business := 7
  name := "Rice"
  category := "pantry"
  sku := "RICE-1"
  currentStock := 95
  minStockLevel := 5
  maxStockLevel := 100
  unit := "kg"
  costPrice := 3
  sellingPrice := 4
  supplier := acme
  reorderQuantity := 10

/-- A low-stock product of tenant 7: stock 2, minimum 5, reorder quantity 10,
cost price 3.00, maximum 100. -/
def beans : Product :=
  { rice with id := 2, name := "Beans", sku := "BEANS-1", currentStock := 2 }

/-- A low-stock product of tenant 7 from the second supplier. -/
def salt : Product :=
  { beans with id := 3, name := "Salt", sku := "SALT-1", supplier := bolt, costPrice := 1 }

/-- The signed-in user of the examples, an active user of tenant 7. -/
def owner : ReqUser := { id := 50, currentBusiness := 7 }

/-- The user document of `owner`. -/
def ownerUser : User := { id := 50, isActive := true, currentBusiness := some 7 }

/-- A store holding `rice` alone. -/
def riceStore : Store := { products := [rice], users := [ownerUser] }

/-- A store holding `rice` marked inactive. -/
def inactiveRiceStore : Store :=
  { products := [{ rice with isActive := false }], users := [ownerUser] }

/-- A store whose `rice` holds 101 units, one more than its maximum. -/
def overfullRiceStore : Store :=
  { products := [{ rice with currentStock := 101 }], users := [ownerUser] }

/-- A store holding the low-stock product `beans`. -/
def beansStore : Store := { products := [beans], users := [ownerUser] }

/-- A store with two low-stock products of different suppliers. -/
def twoSupplierStore : Store := { products := [beans, salt], users := [ownerUser] }

/-- A create request with `maxStockLevel` sent as the string "50" and a
`maxOrderQuantity` of 7. -/
def oatsBody : CreateBody where
  name := " Oats "
  category := "pantry"
  sku := "oats-1"
  currentStock := .num 20
  minStockLevel := .num 5
  maxStockLevel := .str ['5', '0']
  unit := "kg"
  costPrice := 2
  sellingPrice := 3
  supplier := acme
  reorderQuantity := .num 10
  maxOrderQuantity := some (.num 7)

/-- The product that `oatsBody` creates in tenant 7 under `quietEnv` at tick 0. -/
def oats : Product where
  id := 1000
  business := 7
  name := "Oats"
  category := "pantry"
  sku := "OATS-1"
  currentStock := 20
  minStockLevel := 5
  maxStockLevel := 50
  unit := "kg"
  costPrice := 2
  sellingPrice := 3
  supplier := acme
  reorderQuantity := 10
  maxOrderQuantity := 50

/-- An order without lines that carries a total amount of 50. -/
def emptyOrder : Order :=
  { id := 900, business := 7, products := [], totalAmount := some 50, createdBy := 50 }

/-- An order with two lines of totals 30 and 12 that carries a stale total of 5. -/
def twoLineOrder : Order where
  id := 901
  business := 7
  products := [
    { product := 1, quantity := 10, unitPrice := 3, totalPrice := 30 },
    { product := 3, quantity := 12, unitPrice := 1, totalPrice := 12 }]
  totalAmount := some 5
  createdBy := 50

/-- A confirmed order of tenant 7 with two lines for `beans` (10 and 5 units)
and one for `salt` (4 units). -/
def beansOrder : Order where
  id := 902
  business := 7
  orderNumber := some "ORD-000001-001"
  products := [
    { product := 2, quantity := 10, unitPrice := 3, totalPrice := 30 },
    { product := 3, quantity := 4, unitPrice := 1, totalPrice := 4 },
    { product := 2, quantity := 5, unitPrice := 3, totalPrice := 15 }]
  totalAmount := some 49
  status := .confirmed
  createdBy := 50

/-- A store with `beans`, `salt` and the order `beansOrder`. -/
def beansOrderStore : Store :=
  { products := [beans, salt], orders := [beansOrder], users := [ownerUser] }

/-- A confirmed order with a line for `salt` (4 units) followed by a line of 10
units for `rice`, which holds 95 of at most 100. -/
def riceOrder : Order where
  id := 903
  business := 7
  orderNumber := some "ORD-000002-002"
  products := [
    { product := 3, quantity := 4, unitPrice := 1, totalPrice := 4 },
    { product := 1, quantity := 10, unitPrice := 3, totalPrice := 30 }]
  totalAmount := some 34
  status := .confirmed
  createdBy := 50

/-- A store with `rice`, `salt` and the order `riceOrder`. -/
def riceOrderStore : Store :=
  { products := [rice, salt], orders := [riceOrder], users := [ownerUser] }

/-- A second low-stock product of tenant 7 from the first supplier. -/
def lentils : Product :=
  { beans with id := 4, name := "Lentils", sku := "LENTILS-1", costPrice := 2,
               reorderQuantity := 6 }

/-- A low-stock product of tenant 8, which has no user, from the first supplier. -/
def flour : Product :=
  { beans with id := 5, business := 8, name := "Flour", sku := "FLOUR-1" }

/-- A store with low-stock products of two suppliers and two tenants. -/
def groupingStore : Store :=
  { products := [beans, salt, rice, lentils, flour], users := [ownerUser] }

/-- A stand-in for validator.js's `isEmail`: the address contains an `@`. -/
def hasAt (e : String) : Bool := e.toList.contains '@'

/-- An environment like `quietEnv` in which the second write fails. -/
def secondWriteFailsEnv : Env := { quietEnv with writeFails := fun k => decide (k = 1) }

/-- An out-of-stock product of tenant 7: stock 0, minimum 5. -/
def sugar : Product :=
  { beans with id := 6, name := "Sugar", sku := "SUGAR-1", currentStock := 0 }

/-- A second product of tenant 7 with stock 3 and minimum 5. -/
def peas : Product :=
  { beans with id := 8, name := "Peas", sku := "PEAS-1", currentStock := 3 }

/-- An active user of tenant 8, not signed in. -/
def otherUser : User := { id := 51, isActive := true, currentBusiness := some 8 }

/-- A store with `sugar` (out of stock), `peas` (low) and `rice` (well stocked)
of tenant 7, one user of tenant 7 and one of tenant 8. -/
def lowStockStore : Store :=
  { products := [sugar, peas, rice], users := [ownerUser, otherUser] }

/-- A low-stock product of tenant 7 that passes the schema validators and whose
reorder quantity, 200, is above its maximum order quantity, 100. -/
def bulky : Product :=
  { beans with id := 9, name := "Bulky", sku := "BULKY-1", reorderQuantity := 200 }

/-- A store holding `bulky`. -/
def bulkyStore : Store := { products := [bulky], users := [ownerUser] }

/-- An inactive low-stock product of tenant 7. -/
def retired : Product :=
  { beans with id := 10, name := "Retired", sku := "RETIRED-1", isActive := false }

/-- A store with `beans`, the inactive `retired` and `salt`. -/
def bulkStore : Store := { products := [beans, retired, salt], users := [ownerUser] }

/-- An order request whose second line asks for 150 units of `beans`, above its
maximum order quantity of 100, after a line within the limit and before a line
further above it. -/
def overCapBody : OrderBody :=
  { products := [
      { product := 3, quantity := .num 4 },
      { product := 2, quantity := .num 150 },
      { product := 3, quantity := .str "500".toList }] }

/-- An order request whose first line references a product that does not exist
and whose second line asks for 150 units of `beans`. -/
def missingFirstBody : OrderBody :=
  { products := [
      { product := 77, quantity := .num 1 },
      { product := 2, quantity := .num 150 }] }

/-- An order request with one line: 4 units of `salt`, the quantity sent as the
string "4". -/
def saltBody : OrderBody := { products := [{ product := 3, quantity := .str "4".toList }] }

/-- The order `beansOrder` already delivered. -/
def deliveredBeansOrder : Order := { beansOrder with status := .delivered }

/-- A store with `beans`, `salt` and the delivered order `deliveredBeansOrder`. -/
def deliveredStore : Store :=
  { products := [beans, salt], orders := [deliveredBeansOrder], users := [ownerUser] }

/-- The order `beansOrder` cancelled. -/
def cancelledBeansOrder : Order := { beansOrder with status := .cancelled }

/-- A store with `beans`, `salt` and the cancelled order `cancelledBeansOrder`. -/
def cancelledStore : Store :=
  { products := [beans, salt], orders := [cancelledBeansOrder], users := [ownerUser] }

/-- An edit request with a line of 4 units of `salt`, a supplier, a delivery
date and notes. -/
def fullEditBody : OrderBody :=
  { products := [{ product := 3, quantity := .num 4 }]
    supplier := some bolt
    expectedDeliveryDate := some 1700000000000
    notes := some "changed" }

/-- The order `beansOrder` still pending, with a total of 49. -/
def pendingBeansOrder : Order := { beansOrder with status := .pending }

/-- A payment record for the order 902, created and not yet verified. -/
def beansPayment : Payment :=
  { id := 700, business := 7, order := 902, amount := 49, paymentMethod := "upi",
    transactionId := some "TXN-00000001-0001", createdBy := 50 }

/-- A store with the pending order `pendingBeansOrder` and its payment record. -/
def paymentStore : Store :=
  { products := [beans, salt], orders := [pendingBeansOrder], users := [ownerUser],
    payments := [beansPayment] }

/-- A store with the delivered order `deliveredBeansOrder` and a payment record
for it. -/
def deliveredPaymentStore : Store :=
  { products := [beans, salt], orders := [deliveredBeansOrder], users := [ownerUser],
    payments := [beansPayment] }

/-- A verification request for the payment record 700. -/
def verifyBeans : VerifyBody :=
  { paymentId := "pay_1", orderId := "order_1", signature := "sig", transactionId := 700 }

/-- An environment like `quietEnv` whose clock shows 5 milliseconds after the
epoch. -/
def earlyEnv : Env := { quietEnv with clock := fun _ => 5 }

/-- A new order of tenant 7 without order number. -/
def firstNewOrder : Order :=
  { id := 910, business := 7, createdBy := 50,
    products := [{ product := 2, quantity := 10, unitPrice := 3, totalPrice := 30 }] }

/-- Another new order of tenant 7 without order number. -/
def secondNewOrder : Order := { firstNewOrder with id := 911 }

/-- A confirmed order with two lines of 4 units each for `rice`, which holds 95
of at most 100. -/
def doubleLineOrder : Order where
  id := 904
  business := 7
  orderNumber := some "ORD-000004-004"
  products := [
    { product := 1, quantity := 4, unitPrice := 3, totalPrice := 12 },
    { product := 1, quantity := 4, unitPrice := 3, totalPrice := 12 }]
  totalAmount := some 24
  status := .confirmed
  createdBy := 50

/-- A store with `rice` and the order `doubleLineOrder`. -/
def doubleLineStore : Store :=
  { products := [rice], orders := [doubleLineOrder], users := [ownerUser] }

/-- The create request `oatsBody` with a maximum stock level of 0. -/
def zeroMaxBody : CreateBody := { oatsBody with maxStockLevel := .num 0, currentStock := .num 0 }

/-- An environment like `quietEnv` whose clock advances by 1000000 milliseconds
with every write. -/
def steppingEnv : Env :=
  { quietEnv with clock := fun t => 1700000000000 + 1000000 * t }

/-- An environment like `steppingEnv` whose second write fails. -/
def indexEnv : Env :=
  { steppingEnv with writeFails := fun t => decide (t = 1) }

/-- A reading of request values that, like `Number`, ignores white space around
the digits of a string. -/
def readPadded : JsVal → Option Int
  | .num n => some n
  | .str s =>
    stringToNumber
      ((s.dropWhile Char.isWhitespace).reverse.dropWhile Char.isWhitespace).reverse

/-- An edit request whose first line asks for `" 150 "` units of `beans`, the
digits between blanks, and whose second line asks for 150 units. -/
def paddedCapBody : OrderBody :=
  { products := [
      { product := 2, quantity := .str " 150 ".toList },
      { product := 2, quantity := .num 150 }] }

/-- An edit request for `" 4 "` units of `salt`, the digit between blanks. -/
def paddedSaltBody : OrderBody :=
  { products := [{ product := 3, quantity := .str " 4 ".toList }] }

/-! ## Theorems -/

/-! ### Shared lemmas -/

/-- Replacing a product by one with the same id keeps a lookup that the new
document satisfies. -/
theorem find?_map_replace (l : List Product) (f : Product → Bool) (p p1 : Product)
    (hfind : l.find? f = some p) (hid : p1.id = p.id) (hf1 : f p1 = true) :
    (l.map (fun q => if q.id = p1.id then p1 else q)).find? f = some p1 := by
  induction l with
  | nil => simp at hfind
  | cons a t ih =>
    simp only [List.map_cons, List.find?_cons] at hfind ⊢
    by_cases ha : a.id = p1.id
    · simp [ha, hf1]
    · simp only [ha, if_false]
      cases hfa : f a with
      | true =>
        simp only [hfa] at hfind
        injection hfind with h
        exact absurd (by rw [h, hid]) ha
      | false =>
        simp only [hfa] at hfind
        exact ih hfind

/-- A valid new order is saved when the write does not fail. -/
theorem saveNewOrder_ok (env : Env) (s : Store) (o : Order)
    (hw : env.writeFails s.tick = false) (hv : o.valid = true) :
    saveNewOrder env s o =
      (some (o.preSave (env.clock s.tick) (env.random s.tick)),
        insertOrder s (o.preSave (env.clock s.tick) (env.random s.tick))) := by
  simp [saveNewOrder, hv, hw]

/-- A product that is valid after the hook is saved when the write does not fail. -/
theorem saveProduct_ok (env : Env) (s : Store) (p : Product)
    (hw : env.writeFails s.tick = false) (hv : p.preValidate.valid = true) :
    saveProduct env s p = (some p.preValidate, replaceProduct s p.preValidate) := by
  simp [saveProduct, hv, hw]

/-- Validity is kept when the stock is raised within the maximum, whatever the
stored `maxOrderQuantity` was. -/
theorem valid_after_restock {id business : ObjectId} {name category sku : String}
    {barcode : Option String} {cs mn mx : Int} {unit : String} {cp sp : ℚ} {sup : Supplier}
    {rq moq : Int} {act : Bool} {lr : Option Nat}
    (hv : (Product.mk id business name category sku barcode cs mn mx unit cp sp sup rq moq act
      lr).valid = true)
    {cs1 : Int} {cp1 : ℚ} {moq1 : Int} {act1 : Bool} {lr1 : Option Nat}
    (h0 : 1 ≤ cs1) (hmax : cs1 ≤ mx) (hc : 0 ≤ cp1) :
    (Product.mk id business name category sku barcode cs1 mn mx unit cp1 sp sup rq moq1 act1
      lr1).preValidate.valid = true := by
  simp only [Product.valid, Product.preValidate, Bool.and_eq_true, decide_eq_true_eq] at hv ⊢
  obtain ⟨⟨⟨⟨⟨⟨⟨⟨⟨⟨⟨⟨h1, h2⟩, h3⟩, h4⟩, h5⟩, h6⟩, h7⟩, h8⟩, h9⟩, h10⟩, h11⟩, h12⟩, h13⟩ := hv
  refine ⟨⟨⟨⟨⟨⟨⟨⟨⟨⟨⟨⟨h1, h2⟩, h3⟩, ?_⟩, h5⟩, h6⟩, h7⟩, hc⟩, h9⟩, h10⟩, h11⟩, h12⟩, ?_⟩ <;> omega

/-! ### C1: the threshold evaluator -/

/-- C1. The status of a product is decided by first match: `out_of_stock` exactly
when the stock is at most 0, `low_stock` exactly when it is positive and at most
the minimum, `overstock` exactly when it is positive, above the minimum and at
least the maximum, `in_stock` exactly in the remaining case; a positive stock
that is both at most the minimum and at least the maximum is `low_stock`, not
`overstock`; and the inline classification of the routes is the same function
as the virtual. -/
theorem stockStatus_first_match (p : Product) :
    (p.stockStatus = .out_of_stock ↔ p.currentStock ≤ 0) ∧
    (p.stockStatus = .low_stock ↔ 0 < p.currentStock ∧ p.currentStock ≤ p.minStockLevel) ∧
    (p.stockStatus = .overstock ↔
      0 < p.currentStock ∧ p.minStockLevel < p.currentStock ∧
        p.maxStockLevel ≤ p.currentStock) ∧
    (p.stockStatus = .in_stock ↔
      0 < p.currentStock ∧ p.minStockLevel < p.currentStock ∧
        p.currentStock < p.maxStockLevel) ∧
    (0 < p.currentStock → p.currentStock ≤ p.minStockLevel →
      p.maxStockLevel ≤ p.currentStock →
      p.stockStatus = .low_stock ∧ p.stockStatus ≠ .overstock) ∧
    inlineStockStatus p = p.stockStatus := by
  simp only [Product.stockStatus, inlineStockStatus, Id.run]
  refine ⟨?_, ?_, ?_, ?_, ?_, ?_⟩ <;> split_ifs <;> simp_all

/-! ### C2: capacity rejection -/

/-- C2, as stated, fails: an inactive product whose reorder would exceed the
maximum is rejected as inactive, and a restock of quantity 0 on a product
already above its maximum is rejected by the validators; neither response
carries the capacity payload. -/
theorem capacity_payload_counterexample :
    (findProduct inactiveRiceStore 1).isSome = true ∧
    (95 : Int) + 10 > 100 ∧
    (reorder quietEnv inactiveRiceStore owner 1).1 = .inactive ∧
    (findProduct overfullRiceStore 1).isSome = true ∧
    (101 : Int) + 0 > 100 ∧
    (restock quietEnv overfullRiceStore owner 1 { quantity := .num 0 }).1 =
      .validationErrors := by
  decide!

/-- C2, amended. For an existing active product whose `currentStock +
reorderQuantity` exceeds `maxStockLevel`, the manual reorder answers with the
capacity payload and leaves the whole store as it was; for an existing product
and a restock request that passes the validators with a number `q` such that
`currentStock + q` exceeds `maxStockLevel`, the restock does the same. The
payload carries the current stock, the maximum, the requested quantity and
`maxStockLevel - currentStock`. -/
theorem capacity_rejection (env : Env) (s : Store) (user : ReqUser) (id : ObjectId)
    (product : Product) (q : Int) (c : Option ℚ) :
    (findProduct s id = some product → product.isActive = true →
      product.currentStock + product.reorderQuantity > product.maxStockLevel →
      reorder env s user id =
        (.capacityExceeded {
          currentStock := product.currentStock
          maxStockLevel := product.maxStockLevel
          requestedQuantity := .num product.reorderQuantity
          maxAllowedQuantity := product.maxStockLevel - product.currentStock }, s)) ∧
    (s.products.find? (fun p => p.id == id && p.business == user.currentBusiness) =
        some product →
      restockValid { quantity := .num q, costPrice := c } = true →
      product.currentStock + q > product.maxStockLevel →
      restock env s user id { quantity := .num q, costPrice := c } =
        (.capacityExceeded {
          currentStock := product.currentStock
          maxStockLevel := product.maxStockLevel
          requestedQuantity := .num q
          maxAllowedQuantity := product.maxStockLevel - product.currentStock }, s)) := by
  constructor
  · intro hfind hact hcap
    simp [reorder, hfind, hact, hcap]
  · intro hfind hvalid hcap
    simp [restock, hfind, hvalid, jsAdd, jsGt, JsVal.toNumber, hcap]

/-- The scenario of C2: stock 95, maximum 100, reorder quantity 10 is rejected
with `maxAllowedQuantity = 5` and the store, with its stock of 95, is unchanged;
so is a restock of 10. -/
theorem capacity_rejection_witness :
    reorder quietEnv riceStore owner 1 =
      (.capacityExceeded {
        currentStock := 95
        maxStockLevel := 100
        requestedQuantity := .num 10
        maxAllowedQuantity := 5 }, riceStore) ∧
    restock quietEnv riceStore owner 1 { quantity := .num 10, costPrice := none } =
      (.capacityExceeded {
        currentStock := 95
        maxStockLevel := 100
        requestedQuantity := .num 10
        maxAllowedQuantity := 5 }, riceStore) :=
  ⟨(capacity_rejection quietEnv riceStore owner 1 rice 10 none).1 (by decide!) (by decide)
      (by decide),
   (capacity_rejection quietEnv riceStore owner 1 rice 10 none).2 (by decide!) (by decide)
      (by decide)⟩

/-! ### C3: successful restock and reorder -/

/-- C3. Let the stored product satisfy the schema validators and let no write
fail. If the product is found and active and `currentStock + reorderQuantity`
is at most `maxStockLevel`, the manual reorder succeeds; if the product is
found, the restock request passes the validators with a number `q` and
`currentStock + q` is at most `maxStockLevel`, the restock succeeds. In both
cases the stored product afterwards has the old stock plus the quantity and
`lastRestocked` equal to the clock at the product write. -/
theorem restock_reorder_success (env : Env) (s : Store) (user : ReqUser) (id : ObjectId)
    (product : Product) (q : Int) (c : Option ℚ)
    (hvalid : product.valid = true) (hw : ∀ k, env.writeFails k = false) :
    (findProduct s id = some product → product.isActive = true →
      product.currentStock + product.reorderQuantity ≤ product.maxStockLevel →
      ∃ saved order s1,
        reorder env s user id = (.reordered saved (inlineStockStatus saved) order, s1) ∧
        findProduct s1 id = some saved ∧
        saved.currentStock = product.currentStock + product.reorderQuantity ∧
        saved.lastRestocked = some (env.clock (s.tick + 1))) ∧
    (s.products.find? (fun p => p.id == id && p.business == user.currentBusiness) = some product →
      restockValid { quantity := .num q, costPrice := c } = true →
      product.currentStock + q ≤ product.maxStockLevel →
      ∃ saved sweep s1,
        restock env s user id { quantity := .num q, costPrice := c } =
          (.restocked saved sweep, s1) ∧
        s1.products.find? (fun p => p.id == id && p.business == user.currentBusiness) = some saved ∧
        saved.currentStock = product.currentStock + q ∧
        saved.lastRestocked = some (env.clock s.tick)) := by
  have hrq : 1 ≤ product.reorderQuantity := by
    simp only [Product.valid, Bool.and_eq_true, decide_eq_true_eq] at hvalid
    exact hvalid.1.2
  have hcs : 0 ≤ product.currentStock := by
    simp only [Product.valid, Bool.and_eq_true, decide_eq_true_eq] at hvalid
    exact hvalid.1.1.1.1.1.1.1.1.1.2
  have hcp : 0 ≤ product.costPrice := by
    simp only [Product.valid, Bool.and_eq_true, decide_eq_true_eq] at hvalid
    exact hvalid.1.1.1.1.1.2
  constructor
  · intro hfind hact hcap
    have hid : product.id = id := by
      have := List.find?_some hfind
      simpa using this
    simp only [reorder, hfind, hact, Bool.not_true, Bool.false_eq_true, if_false,
        not_lt.mpr hcap, gt_iff_lt]
    rw [saveNewOrder_ok env s _ (hw _) (by simp [Order.valid, hrq])]
    simp only []
    rw [saveProduct_ok env _ _ (hw _) (valid_after_restock hvalid (by omega) hcap hcp)]
    simp only [saveNotification, hw, Bool.false_eq_true, if_false]
    refine ⟨_, _, _, rfl, ?_, ?_, ?_⟩
    · simp only [findProduct, replaceProduct, insertOrder]
      exact find?_map_replace _ _ product _ hfind (by simp [Product.preValidate])
        (by simp [Product.preValidate, hid])
    · simp [Product.preValidate]
    · simp [Product.preValidate, insertOrder]
  · intro hfind hval hcap
    have hq : 1 ≤ q := by
      simp only [restockValid, isIntMin, Bool.and_eq_true, decide_eq_true_eq] at hval
      exact hval.1
    have hpf := List.find?_some hfind
    simp only [Bool.and_eq_true, beq_iff_eq] at hpf
    simp only [restock, hval, hfind, jsAdd, jsGt, JsVal.toNumber, castNumber,
      Bool.not_true, Bool.false_eq_true, if_false, gt_iff_lt, not_lt.mpr hcap, decide_False]
    cases c with
    | none =>
      simp only []
      rw [saveProduct_ok env _ _ (hw _) (valid_after_restock hvalid (by omega) hcap hcp)]
      refine ⟨_, _, _, rfl, ?_, ?_, ?_⟩
      · simp only [replaceProduct]
        exact find?_map_replace _ _ product _ hfind (by simp [Product.preValidate])
          (by simp [Product.preValidate, hpf])
      · simp [Product.preValidate]
      · simp [Product.preValidate]
    | some c =>
      have hc0 : 0 ≤ c := by
        simp only [restockValid, isIntMin, Bool.and_eq_true, decide_eq_true_eq] at hval
        exact hval.2
      by_cases hcz : c = 0
      · simp only [hcz, ne_eq, not_true_eq_false, if_false]
        rw [saveProduct_ok env _ _ (hw _) (valid_after_restock hvalid (by omega) hcap hcp)]
        refine ⟨_, _, _, rfl, ?_, ?_, ?_⟩
        · simp only [replaceProduct]
          exact find?_map_replace _ _ product _ hfind (by simp [Product.preValidate])
            (by simp [Product.preValidate, hpf])
        · simp [Product.preValidate]
        · simp [Product.preValidate]
      · simp only [hcz, ne_eq, not_false_eq_true, if_true]
        rw [saveProduct_ok env _ _ (hw _) (valid_after_restock hvalid (by omega) hcap hc0)]
        refine ⟨_, _, _, rfl, ?_, ?_, ?_⟩
        · simp only [replaceProduct]
          exact find?_map_replace _ _ product _ hfind (by simp [Product.preValidate])
            (by simp [Product.preValidate, hpf])
        · simp [Product.preValidate]
        · simp [Product.preValidate]

/-- The example of C3: `beans` (stock 2, maximum 100, reorder quantity 10) is
reordered to 12, and restocked by 5 to 7. -/
theorem restock_reorder_success_witness :
    (∃ saved order s1,
      reorder quietEnv beansStore owner 2 =
        (.reordered saved (inlineStockStatus saved) order, s1) ∧
      findProduct s1 2 = some saved ∧
      saved.currentStock = beans.currentStock + beans.reorderQuantity ∧
      saved.lastRestocked = some (quietEnv.clock (beansStore.tick + 1))) ∧
    (∃ saved sweep s1,
      restock quietEnv beansStore owner 2 { quantity := .num 5, costPrice := none } =
        (.restocked saved sweep, s1) ∧
      s1.products.find? (fun p => p.id == 2 && p.business == owner.currentBusiness) =
        some saved ∧
      saved.currentStock = beans.currentStock + 5 ∧
      saved.lastRestocked = some (quietEnv.clock beansStore.tick)) :=
  ⟨(restock_reorder_success quietEnv beansStore owner 2 beans 5 none (by decide!)
      (fun _ => rfl)).1 (by decide!) (by decide) (by decide),
   (restock_reorder_success quietEnv beansStore owner 2 beans 5 none (by decide!)
      (fun _ => rfl)).2 (by decide!) (by decide) (by decide)⟩

/-! ### C4 and C5: `maxOrderQuantity` mirrors `maxStockLevel` -/

/-- C4. Whenever the create endpoint accepts a request, the product it stores has
`maxOrderQuantity` equal to `maxStockLevel`, which is the number the request
gave for `maxStockLevel`, whatever the request gave for `maxOrderQuantity`. -/
theorem create_mirrors_maxStockLevel (isEmail : String → Bool) (env : Env) (s : Store)
    (user : ReqUser) (b : CreateBody) (p : Product) (s1 : Store)
    (h : createProduct isEmail env s user b = (.created p, s1)) :
    p.maxOrderQuantity = p.maxStockLevel ∧
    castNumber b.maxStockLevel = some p.maxStockLevel ∧
    s1.products = s.products ++ [p] := by
  simp only [createProduct] at h
  split_ifs at h
  · cases h
  · cases h
  · cases h
  · split at h
    · rename_i cs mn mx rq hcs hmn hmx hrq
      simp only [insertProduct] at h
      split_ifs at h
      · cases h
      · cases h
      · simp only [Prod.mk.injEq, ProductResponse.created.injEq] at h
        obtain ⟨hp, hs⟩ := h
        subst hp
        subst hs
        exact ⟨rfl, hmx, rfl⟩
    · cases h

/-- The example of C4: the request `oatsBody`, with `maxStockLevel` "50" and
`maxOrderQuantity` 7, is accepted and stored as `oats`, with both equal to 50. -/
theorem create_mirrors_maxStockLevel_witness :
    (createProduct hasAt quietEnv riceStore owner oatsBody).1 = .created oats ∧
    oats.maxOrderQuantity = oats.maxStockLevel ∧
    castNumber oatsBody.maxStockLevel = some oats.maxStockLevel ∧
    (createProduct hasAt quietEnv riceStore owner oatsBody).2.products =
      riceStore.products ++ [oats] :=
  have h : createProduct hasAt quietEnv riceStore owner oatsBody =
      (.created oats, (createProduct hasAt quietEnv riceStore owner oatsBody).2) := by
    decide!
  ⟨congrArg Prod.fst h,
    create_mirrors_maxStockLevel hasAt quietEnv riceStore owner oatsBody oats _ h⟩

/-- C5, the code at the failing inputs. An update that sets `maxOrderQuantity`
alone stores 7 beside a `maxStockLevel` of 100, and an update that sets
`maxStockLevel` to the string "50" stores 50 beside a `maxOrderQuantity` of
100: the update endpoint accepts both and the stored product does not mirror. -/
theorem update_breaks_mirror :
    updateProduct quietEnv riceStore owner 1 { maxOrderQuantity := some (.num 7) } =
      (.updated { rice with maxOrderQuantity := 7 },
        { riceStore with products := [{ rice with maxOrderQuantity := 7 }], tick := 1 }) ∧
    ({ rice with maxOrderQuantity := 7 } : Product).maxStockLevel = 100 ∧
    updateProduct quietEnv riceStore owner 1 { maxStockLevel := some (.str ['5', '0']) } =
      (.updated { rice with maxStockLevel := 50 },
        { riceStore with products := [{ rice with maxStockLevel := 50 }], tick := 1 }) ∧
    ({ rice with maxStockLevel := 50 } : Product).maxOrderQuantity = 100 := by
  decide!

/-! ### C6: the total amount of a saved order -/

/-- The fold of the total-amount hook is the sum of the line totals. -/
theorem foldl_totalPrice (l : List OrderLine) (a : ℚ) :
    l.foldl (fun total item => total + item.totalPrice) a =
      a + (l.map (fun item => item.totalPrice)).sum := by
  induction l generalizing a with
  | nil => simp
  | cons x t ih => simp [List.foldl_cons, ih, add_assoc]

/-- C6, as stated, fails on the empty products array: the order `emptyOrder`
is saved with the total amount 50 it carried, while the sum over its lines
is 0. -/
theorem empty_order_total_counterexample :
    (saveNewOrder quietEnv riceStore emptyOrder).1.map (fun o => (o.products, o.totalAmount)) =
      some ([], some 50) ∧
    (emptyOrder.products.map (fun item => item.totalPrice)).sum = 0 ∧
    (saveOrder quietEnv { riceStore with orders := [emptyOrder] } emptyOrder).1.map
      (fun o => (o.products, o.totalAmount)) = some ([], some 50) := by
  decide!

/-- C6, amended. Whenever an order is saved, as a new document or as a stored
one, the saved order keeps its lines; if the products array is not empty its
`totalAmount` is the sum of `totalPrice` over the array, whatever total the
order carried before; if the array is empty the total it carried is kept. -/
theorem saved_total_is_sum (env : Env) (s : Store) (o saved : Order) (s1 : Store)
    (h : saveNewOrder env s o = (some saved, s1) ∨ saveOrder env s o = (some saved, s1)) :
    saved.products = o.products ∧
    (o.products ≠ [] →
      saved.totalAmount = some ((saved.products.map (fun item => item.totalPrice)).sum)) ∧
    (o.products = [] → saved.totalAmount = o.totalAmount) := by
  have key : saved = o.preSave (env.clock s.tick) (env.random s.tick) := by
    rcases h with h | h
    · simp only [saveNewOrder] at h
      split_ifs at h
      · cases h
      · cases h
      · simp only [Prod.mk.injEq, Option.some.injEq] at h
        exact h.1.symm
    · simp only [saveOrder] at h
      split_ifs at h
      · cases h
      · cases h
      · simp only [Prod.mk.injEq, Option.some.injEq] at h
        exact h.1.symm
  subst key
  have hprod : (o.preSave (env.clock s.tick) (env.random s.tick)).products = o.products := by
    simp only [Order.preSave, Order.preSaveTotal, Order.preSaveNumber]
    split_ifs <;> rfl
  refine ⟨hprod, ?_, ?_⟩
  · intro hne
    rw [hprod]
    have hlen : (o.preSaveNumber (env.clock s.tick) (env.random s.tick)).products.length > 0 := by
      have : (o.preSaveNumber (env.clock s.tick) (env.random s.tick)).products = o.products := by
        simp only [Order.preSaveNumber]; split_ifs <;> rfl
      rw [this]
      exact List.length_pos.mpr hne
    simp only [Order.preSave, Order.preSaveTotal, hlen, if_true, foldl_totalPrice, zero_add]
    simp only [Order.preSaveNumber]
    split_ifs <;> rfl
  · intro he
    simp only [Order.preSave, Order.preSaveTotal, Order.preSaveNumber]
    split_ifs <;> simp_all

/-- The example of C6: `twoLineOrder`, which carries a stale total of 5, is
saved with the total 42 = 30 + 12. -/
theorem saved_total_is_sum_witness :
    ∃ saved s1, saveNewOrder quietEnv riceStore twoLineOrder = (some saved, s1) ∧
      saved.products = twoLineOrder.products ∧
      (twoLineOrder.products ≠ [] →
        saved.totalAmount = some ((saved.products.map (fun item => item.totalPrice)).sum)) ∧
      (twoLineOrder.products = [] → saved.totalAmount = twoLineOrder.totalAmount) ∧
      saved.totalAmount = some 42 :=
  have h : saveNewOrder quietEnv riceStore twoLineOrder =
      (some (twoLineOrder.preSave (quietEnv.clock 0) (quietEnv.random 0)),
        (saveNewOrder quietEnv riceStore twoLineOrder).2) := by decide!
  ⟨_, _, h,
    (saved_total_is_sum quietEnv riceStore twoLineOrder _ _ (Or.inl h)).1,
    (saved_total_is_sum quietEnv riceStore twoLineOrder _ _ (Or.inl h)).2.1,
    (saved_total_is_sum quietEnv riceStore twoLineOrder _ _ (Or.inl h)).2.2,
    by decide!⟩

/-! ### Lemmas on ids and tenants -/

/-- The sixteen hexadecimal digit characters are distinct. -/
theorem digitChar_inj : ∀ a b : Fin 16,
    Nat.digitChar a.val = Nat.digitChar b.val → a = b := by
  decide

/-- The fixed-width rendering has the width as length. -/
theorem hexFixed_length (w n : Nat) : (hexFixed w n).length = w := by
  induction w generalizing n with
  | zero => rfl
  | succ w ih => simp [hexFixed, ih]

/-- The fixed-width rendering determines the number below `16 ^ w`. -/
theorem hexFixed_inj (w : Nat) : ∀ a b : Nat, a < 16 ^ w → b < 16 ^ w →
    hexFixed w a = hexFixed w b → a = b := by
  induction w with
  | zero =>
    intro a b ha hb _
    simp at ha hb
    omega
  | succ w ih =>
    intro a b ha hb h
    simp only [hexFixed] at h
    have hlen : (hexFixed w (a / 16)).length = (hexFixed w (b / 16)).length := by
      simp [hexFixed_length]
    obtain ⟨h1, h2⟩ := List.append_inj h hlen
    have hq : a / 16 = b / 16 := by
      apply ih _ _ _ _ h1
      · rw [pow_succ] at ha; omega
      · rw [pow_succ] at hb; omega
    have hr : a % 16 = b % 16 := by
      have h3 : Nat.digitChar (a % 16) = Nat.digitChar (b % 16) := by simpa using h2
      have := digitChar_inj ⟨a % 16, Nat.mod_lt _ (by decide)⟩ ⟨b % 16, Nat.mod_lt _ (by decide)⟩ h3
      simpa using congrArg Fin.val this
    omega

/-- Two ids have the same string exactly when they are equal. -/
theorem ObjectId.toString_inj (a b : ObjectId) : a.toString = b.toString ↔ a = b := by
  constructor
  · intro h
    have h1 : hexFixed 24 a.val = hexFixed 24 b.val := congrArg String.data h
    exact Fin.ext (hexFixed_inj 24 a.val b.val a.isLt b.isLt h1)
  · intro h; rw [h]

/-- The users of a tenant, by id instead of by the string of the id. -/
theorem businessUsers_eq (users : List User) (b : ObjectId) :
    businessUsers users b = users.filter (fun u => u.currentBusiness == some b) := by
  unfold businessUsers
  congr 1
  funext u
  cases hu : u.currentBusiness with
  | none => simp
  | some c =>
    simp only [Option.some.injEq, beq_iff_eq]
    by_cases hcb : c = b
    · simp [hcb]
    · have : ¬ c.toString = b.toString := fun h => hcb ((ObjectId.toString_inj c b).mp h)
      simp [hcb, this]

/-- A tenant has an active user exactly when the list of its users among the
active users is not empty. -/
theorem businessUsers_ne_nil (s : Store) (b : ObjectId) :
    businessUsers (activeUsers s) b ≠ [] ↔ tenantHasActiveUser s b = true := by
  rw [businessUsers_eq]
  simp only [activeUsers, tenantHasActiveUser, List.filter_filter, ne_eq, List.filter_eq_nil_iff,
    not_forall, List.any_eq_true, Bool.and_eq_true]
  constructor
  · rintro ⟨u, hu, h⟩
    exact ⟨u, hu, by simpa [and_comm] using h⟩
  · rintro ⟨u, hu, h⟩
    exact ⟨u, hu, by simpa [and_comm] using h⟩

/-! ### C7: the real-time auto-reorder sweep -/

/-- The qualifying products are the low-stock products of tenants with an
active user. -/
theorem qualifyingProducts_eq (s : Store) :
    qualifyingProducts s =
      (lowStockProducts s).filter (fun p => !(businessUsers (activeUsers s) p.business).isEmpty) := by
  simp only [qualifyingProducts, lowStockProducts, List.filter_filter]
  apply List.filter_congr
  intro p _
  have h := businessUsers_ne_nil s p.business
  cases hb : businessUsers (activeUsers s) p.business with
  | nil =>
    have : tenantHasActiveUser s p.business = false := by
      cases ht : tenantHasActiveUser s p.business with
      | false => rfl
      | true => exact absurd hb (h.mpr ht)
    simp [this]
  | cons u us =>
    have : tenantHasActiveUser s p.business = true := h.mp (by simp [hb])
    simp [this, Bool.and_comm]

/-- One step of the real-time sweep when no write fails: products and users are
untouched; nothing is created for a tenant without users, and exactly one
automatic pending order otherwise. -/
theorem autoReorderProduct_spec (env : Env) (users : List User) (s : Store) (product : Product)
    (hw : ∀ k, env.writeFails k = false) (hrq : 1 ≤ product.reorderQuantity) :
    (autoReorderProduct env users s product).products = s.products ∧
    (autoReorderProduct env users s product).users = s.users ∧
    ((businessUsers users product.business).isEmpty = true →
      (autoReorderProduct env users s product).orders = s.orders) ∧
    ((businessUsers users product.business).isEmpty = false →
      ∃ o, (autoReorderProduct env users s product).orders = s.orders ++ [o] ∧
        IsAutoOrderFor product o) := by
  unfold autoReorderProduct
  cases hb : businessUsers users product.business with
  | nil => simp
  | cons owner rest =>
    simp only []
    rw [saveNewOrder_ok env s _ (hw _) (by simp [Order.valid, hrq])]
    simp only [createNotification, saveNotification, hw, Bool.false_eq_true, if_false, insertOrder,
      List.isEmpty_cons, true_and, false_implies, forall_const]
    refine ⟨_, rfl, ?_⟩
    simp only [IsAutoOrderFor, Order.preSave, Order.preSaveTotal, Order.preSaveNumber, reorderLine]
    simp

/-- The loop of the real-time sweep when no write fails: it appends one automatic
pending order per product whose tenant has a user, in the order of the list. -/
theorem foldl_autoReorderProduct (env : Env) (users : List User)
    (hw : ∀ k, env.writeFails k = false) :
    ∀ (l : List Product) (s : Store), (∀ p ∈ l, 1 ≤ p.reorderQuantity) →
      ∃ created,
        (l.foldl (autoReorderProduct env users) s).orders = s.orders ++ created ∧
        List.Forall₂ IsAutoOrderFor
          (l.filter (fun p => !(businessUsers users p.business).isEmpty)) created ∧
        (l.foldl (autoReorderProduct env users) s).products = s.products ∧
        (l.foldl (autoReorderProduct env users) s).users = s.users := by
  intro l
  induction l with
  | nil => intro s _; exact ⟨[], by simp, by simp, rfl, rfl⟩
  | cons p t ih =>
    intro s hrq
    obtain ⟨hp, hu, hnone, hsome⟩ :=
      autoReorderProduct_spec env users s p hw (hrq p (List.mem_cons_self _ _))
    obtain ⟨created, hc1, hc2, hc3, hc4⟩ :=
      ih (autoReorderProduct env users s p) (fun q hq => hrq q (List.mem_cons_of_mem _ hq))
    simp only [List.foldl_cons]
    cases hb : (businessUsers users p.business).isEmpty with
    | true =>
      refine ⟨created, ?_, ?_, hc3.trans hp, hc4.trans hu⟩
      · rw [hc1, hnone hb]
      · simpa [List.filter_cons, hb] using hc2
    | false =>
      obtain ⟨o, ho, hauto⟩ := hsome hb
      refine ⟨o :: created, ?_, ?_, hc3.trans hp, hc4.trans hu⟩
      · rw [hc1, ho]; simp
      · simpa [List.filter_cons, hb] using List.Forall₂.cons hauto hc2

/-- One run of the real-time sweep when no write fails appends one automatic
pending order per qualifying product and leaves products and users as they were. -/
theorem checkAndAutoReorder_spec (env : Env) (s : Store)
    (hw : ∀ k, env.writeFails k = false) (hrq : ∀ p ∈ s.products, 1 ≤ p.reorderQuantity) :
    ∃ created,
      (checkAndAutoReorder env s).orders = s.orders ++ created ∧
      List.Forall₂ IsAutoOrderFor (qualifyingProducts s) created ∧
      (checkAndAutoReorder env s).products = s.products ∧
      (checkAndAutoReorder env s).users = s.users := by
  rw [qualifyingProducts_eq]
  unfold checkAndAutoReorder
  simp only []
  split_ifs with h1 h2
  · have : lowStockProducts s = [] := List.length_eq_zero.mp h1
    exact ⟨[], by simp, by simp [this], rfl, rfl⟩
  · have hu : activeUsers s = [] := List.length_eq_zero.mp h2
    exact ⟨[], by simp, by simp [hu, businessUsers], rfl, rfl⟩
  · exact foldl_autoReorderProduct env (activeUsers s) hw (lowStockProducts s) s
      (fun p hp => hrq p (List.mem_of_mem_filter hp))

/-- C7. Let no write fail and let every stored product have a reorder quantity
of at least 1 (the schema minimum). One run of `checkAndAutoReorder` appends to
the orders, whatever they were, exactly one order per qualifying product, in
order: automatic, pending, payment pending, with the single line `reorderQuantity`
at `costPrice`, total `reorderQuantity * costPrice`; it changes no product. A
second run appends one such order per qualifying product again. -/
theorem autoReorder_one_order_each (env : Env) (s : Store)
    (hw : ∀ k, env.writeFails k = false) (hrq : ∀ p ∈ s.products, 1 ≤ p.reorderQuantity) :
    ∃ first second,
      (checkAndAutoReorder env s).orders = s.orders ++ first ∧
      List.Forall₂ IsAutoOrderFor (qualifyingProducts s) first ∧
      (checkAndAutoReorder env s).products = s.products ∧
      (checkAndAutoReorder env (checkAndAutoReorder env s)).orders =
        s.orders ++ first ++ second ∧
      List.Forall₂ IsAutoOrderFor (qualifyingProducts s) second ∧
      (checkAndAutoReorder env (checkAndAutoReorder env s)).products = s.products := by
  obtain ⟨first, h1, h2, h3, h4⟩ := checkAndAutoReorder_spec env s hw hrq
  obtain ⟨second, k1, k2, k3, _⟩ :=
    checkAndAutoReorder_spec env (checkAndAutoReorder env s) hw (by rw [h3]; exact hrq)
  have hq : qualifyingProducts (checkAndAutoReorder env s) = qualifyingProducts s := by
    simp only [qualifyingProducts, tenantHasActiveUser, h3, h4]
  refine ⟨first, second, h1, h2, h3, ?_, ?_, ?_⟩
  · rw [k1, h1]
  · rw [← hq]; exact k2
  · rw [k3, h3]

/-- The scenario of C7: `beans` (stock 2, minimum 5, reorder quantity 10, cost
price 3) gets one order with the line 10 at 3, total 30, and a second run
creates a second such order. -/
theorem autoReorder_one_order_each_witness :
    (∃ first second,
      (checkAndAutoReorder quietEnv beansStore).orders = beansStore.orders ++ first ∧
      List.Forall₂ IsAutoOrderFor (qualifyingProducts beansStore) first ∧
      (checkAndAutoReorder quietEnv beansStore).products = beansStore.products ∧
      (checkAndAutoReorder quietEnv (checkAndAutoReorder quietEnv beansStore)).orders =
        beansStore.orders ++ first ++ second ∧
      List.Forall₂ IsAutoOrderFor (qualifyingProducts beansStore) second ∧
      (checkAndAutoReorder quietEnv (checkAndAutoReorder quietEnv beansStore)).products =
        beansStore.products) ∧
    qualifyingProducts beansStore = [beans] ∧
    (checkAndAutoReorder quietEnv beansStore).orders.map
        (fun o => (o.orderType, o.status, o.paymentStatus, o.products)) =
      [(.automatic, .pending, .pending,
        [{ product := 2, quantity := 10, unitPrice := 3, totalPrice := 30 }])] ∧
    ((checkAndAutoReorder quietEnv (checkAndAutoReorder quietEnv beansStore)).orders.map
        (fun o => o.products)).length = 2 :=
  ⟨autoReorder_one_order_each quietEnv beansStore (fun _ => rfl) (by decide!),
    by decide!, by decide!, by decide!⟩

/-! ### C8: delivery confirmation -/

/-- The check loop finds nothing exactly when no line would push an existing
product past its maximum. -/
theorem overstockCheck_eq_none (s : Store) (lines : List OrderLine) :
    overstockCheck s lines = none ↔
      ∀ item ∈ lines, ∀ product, findProduct s item.product = some product →
        product.currentStock + item.quantity ≤ product.maxStockLevel := by
  induction lines with
  | nil => simp [overstockCheck]
  | cons item rest ih =>
    simp only [overstockCheck, List.mem_cons, forall_eq_or_imp]
    cases hf : findProduct s item.product with
    | none => simp [ih]
    | some product =>
      simp only [Option.some.injEq, forall_eq']
      by_cases hcap : product.currentStock + item.quantity > product.maxStockLevel
      · simp only [hcap, if_true]
        constructor
        · intro h; cases h
        · intro h; exact absurd h.1 (not_le.mpr hcap)
      · simp only [hcap, if_false, ih]
        constructor
        · intro h; exact ⟨not_lt.mp hcap, h⟩
        · intro h; exact h.2

/-- Saving a stored order does not touch the products. -/
theorem saveOrder_products (env : Env) (s : Store) (o : Order) :
    (saveOrder env s o).2.products = s.products := by
  simp only [saveOrder, replaceOrder]
  split_ifs <;> rfl

/-- The update loop, when no write fails, raises the stock of every product by
the quantities of the lines that reference it and touches nothing else. -/
theorem applyDelivery_spec (env : Env) (hw : ∀ k, env.writeFails k = false) :
    ∀ (lines : List OrderLine) (s : Store),
      (applyDelivery env s lines).1 = true ∧
      (applyDelivery env s lines).2.products = s.products.map (fun p =>
        { p with currentStock := p.currentStock + deliveredQuantity lines p.id }) ∧
      (applyDelivery env s lines).2.orders = s.orders := by
  intro lines
  induction lines with
  | nil =>
    intro s
    refine ⟨rfl, ?_, rfl⟩
    simp [applyDelivery, deliveredQuantity]
  | cons item rest ih =>
    intro s
    obtain ⟨h1, h2, h3⟩ := ih (incStock env s item.product item.quantity).2
    have hinc : incStock env s item.product item.quantity =
        (true, (incStock env s item.product item.quantity).2) := by
      simp [incStock, hw]
    have happ : applyDelivery env s (item :: rest) =
        applyDelivery env (incStock env s item.product item.quantity).2 rest := by
      conv_lhs => rw [applyDelivery, hinc]
    rw [happ]
    refine ⟨h1, ?_, ?_⟩
    · rw [h2]
      simp only [incStock, hw, Bool.false_eq_true, if_false, List.map_map]
      apply List.map_congr_left
      intro p _
      simp only [Function.comp_apply, deliveredQuantity, List.filter_cons]
      by_cases hid : p.id = item.product
      · simp [hid, add_assoc]
      · have hid2 : ¬ item.product = p.id := fun h => hid h.symm
        simp [hid, hid2]
    · rw [h3]
      simp [incStock, hw]

/-- C8. For an existing order set to `delivered`: if some line references an
existing product whose stock plus the line quantity exceeds its maximum, the
request is rejected and the store is left exactly as it was; otherwise, when no
write fails, every product ends with its stock raised by the sum of the
quantities of the lines that reference it. -/
theorem delivery_all_or_nothing (env : Env) (s : Store) (user : ReqUser) (id : ObjectId)
    (order : Order) (hfind : findOrder s id = some order) :
    ((∃ item ∈ order.products, ∃ product, findProduct s item.product = some product ∧
        product.currentStock + item.quantity > product.maxStockLevel) →
      ∃ payload, updateOrderStatus env s user id .delivered = (.cannotDeliver payload, s)) ∧
    ((¬ ∃ item ∈ order.products, ∃ product, findProduct s item.product = some product ∧
        product.currentStock + item.quantity > product.maxStockLevel) →
      (∀ k, env.writeFails k = false) →
      (updateOrderStatus env s user id .delivered).2.products = s.products.map (fun p =>
        { p with currentStock := p.currentStock + deliveredQuantity order.products p.id })) := by
  constructor
  · intro hex
    cases hchk : overstockCheck s order.products with
    | none =>
      exfalso
      obtain ⟨item, hi, product, hp, hcap⟩ := hex
      exact absurd ((overstockCheck_eq_none s order.products).mp hchk item hi product hp)
        (not_le.mpr hcap)
    | some payload =>
      exact ⟨payload, by simp [updateOrderStatus, hfind, hchk]⟩
  · intro hno hw
    have hchk : overstockCheck s order.products = none := by
      rw [overstockCheck_eq_none]
      intro item hi product hp
      by_contra hcon
      exact hno ⟨item, hi, product, hp, not_le.mp hcon⟩
    obtain ⟨h1, h2, -⟩ := applyDelivery_spec env hw order.products s
    have happ : applyDelivery env s order.products =
        (true, (applyDelivery env s order.products).2) := by
      rw [← h1]
    simp only [updateOrderStatus, hfind, if_true, hchk]
    rw [happ]
    simp only [saveNotification, hw, Bool.false_eq_true, if_false]
    split
    · rename_i s3 heq
      have := congrArg (fun x : Option Order × Store => x.2.products) heq
      simp only [saveOrder_products] at this
      rw [← this]
      exact h2
    · rename_i saved s3 heq
      have := congrArg (fun x : Option Order × Store => x.2.products) heq
      simp only [saveOrder_products] at this
      rw [← this]
      exact h2

/-- The examples of C8: delivering `riceOrder`, whose second line would bring
`rice` from 95 to 105 of at most 100, is rejected and changes nothing, also not
the stock of the product of its first line; delivering `beansOrder` raises
`beans` by 10 + 5 and `salt` by 4. -/
theorem delivery_all_or_nothing_witness :
    (∃ payload, updateOrderStatus quietEnv riceOrderStore owner 903 .delivered =
      (.cannotDeliver payload, riceOrderStore)) ∧
    (updateOrderStatus quietEnv beansOrderStore owner 902 .delivered).2.products =
      beansOrderStore.products.map (fun p =>
        { p with currentStock := p.currentStock + deliveredQuantity beansOrder.products p.id }) ∧
    (updateOrderStatus quietEnv beansOrderStore owner 902 .delivered).2.products.map
      (fun p => p.currentStock) = [17, 6] :=
  ⟨(delivery_all_or_nothing quietEnv riceOrderStore owner 903 riceOrder (by decide!)).1
      ⟨{ product := 1, quantity := 10, unitPrice := 3, totalPrice := 30 }, by decide!,
        rice, by decide!, by decide⟩,
    (delivery_all_or_nothing quietEnv beansOrderStore owner 902 beansOrder (by decide!)).2
      (by decide!) (fun _ => rfl),
    by decide!⟩

/-! ### C9: the supplier-grouped renewal sweep -/

/-- The key string determines the pair of e-mail and tenant. -/
theorem pairKey_inj (a b : String × ObjectId) : pairKey a = pairKey b ↔ a = b := by
  constructor
  · intro h
    have hd := congrArg String.data h
    simp only [pairKey, String.data_append, ObjectId.toString] at hd
    have hlen : (hexFixed 24 a.2.val).length = (hexFixed 24 b.2.val).length := by
      simp [hexFixed_length]
    obtain ⟨h1, h2⟩ := List.append_inj' hd hlen
    have he : a.1.data = b.1.data := List.append_cancel_right h1
    have hid : a.2 = b.2 := Fin.ext (hexFixed_inj 24 a.2.val b.2.val a.2.isLt b.2.isLt h2)
    exact Prod.ext (String.ext he) hid
  · intro h; rw [h]

/-- The key of a product is the key of its pair. -/
theorem groupKey_eq_pairKey (p : Product) : groupKey p = pairKey (supplierPair p) := rfl

/-- The line the grouping loop builds is the reorder line. -/
theorem groupLine_eq (p : Product) :
    ({ product := p.id, quantity := p.reorderQuantity, unitPrice := p.costPrice,
       totalPrice := p.costPrice * p.reorderQuantity } : OrderLine) = reorderLine p := by
  simp [reorderLine, mul_comm]

/-- Adding a product to the groups does not change the keys already there and
appends the key of the product when it is new. -/
theorem addToGroup_keys (groups : List (String × SupplierGroup)) (p : Product) :
    (addToGroup groups p).map Prod.fst =
      if groupKey p ∈ groups.map Prod.fst then groups.map Prod.fst
      else groups.map Prod.fst ++ [groupKey p] := by
  have hany : (groups.any (fun e => e.1 == groupKey p) = true) ↔
      groupKey p ∈ groups.map Prod.fst := by
    simp only [List.any_eq_true, beq_iff_eq, List.mem_map]
  simp only [addToGroup, List.map_map]
  by_cases hk : groupKey p ∈ groups.map Prod.fst
  · rw [if_pos (hany.mpr hk), if_pos hk]
    apply List.map_congr_left
    intro e _
    simp only [Function.comp_apply]
    split_ifs <;> rfl
  · rw [if_neg (fun h => hk (hany.mp h)), if_neg hk]
    rw [← List.map_map]
    simp only [List.map_append, List.map_cons, List.map_nil, if_true]
    congr 1
    rw [List.map_map]
    apply List.map_congr_left
    intro e _
    simp only [Function.comp_apply]
    split_ifs <;> rfl

/-- An entry of the groups after adding a product is a new group with the line
of the product alone, or an earlier entry, with the line added when the keys
agree. -/
theorem mem_addToGroup (groups : List (String × SupplierGroup)) (p : Product)
    (e : String × SupplierGroup) (he : e ∈ addToGroup groups p) :
    (groupKey p ∉ groups.map Prod.fst ∧
      e = (groupKey p,
        { supplier := p.supplier, business := p.business, products := [reorderLine p] })) ∨
    (∃ e0 ∈ groups, e0.1 = groupKey p ∧
      e = (e0.1, { e0.2 with products := e0.2.products ++ [reorderLine p] })) ∨
    (e ∈ groups ∧ e.1 ≠ groupKey p) := by
  have hany : (groups.any (fun e => e.1 == groupKey p) = true) ↔
      groupKey p ∈ groups.map Prod.fst := by
    simp only [List.any_eq_true, beq_iff_eq, List.mem_map]
  simp only [addToGroup, groupLine_eq, List.mem_map] at he
  obtain ⟨e0, he0, hfe⟩ := he
  by_cases hk : groupKey p ∈ groups.map Prod.fst
  · rw [if_pos (hany.mpr hk)] at he0
    by_cases hkey : e0.1 = groupKey p
    · rw [if_pos hkey] at hfe
      exact Or.inr (Or.inl ⟨e0, he0, hkey, hfe.symm⟩)
    · rw [if_neg hkey] at hfe
      subst hfe
      exact Or.inr (Or.inr ⟨he0, hkey⟩)
  · rw [if_neg (fun h => hk (hany.mp h))] at he0
    rcases List.mem_append.mp he0 with h | h
    · have hkey : e0.1 ≠ groupKey p := by
        intro h1
        exact hk (h1 ▸ List.mem_map_of_mem Prod.fst h)
      rw [if_neg hkey] at hfe
      subst hfe
      exact Or.inr (Or.inr ⟨h, hkey⟩)
    · simp only [List.mem_singleton] at h
      subst h
      simp only [if_true, List.nil_append] at hfe
      exact Or.inl ⟨hk, hfe.symm⟩

/-- One step of the grouping loop keeps the description of the groups. -/
theorem addToGroup_step (groups : List (String × SupplierGroup)) (processed : List Product)
    (p : Product) (h : GroupedFrom groups processed) :
    GroupedFrom (addToGroup groups p) (processed ++ [p]) := by
  obtain ⟨hnd, hmem, hent⟩ := h
  refine ⟨?_, ?_, ?_⟩
  · rw [addToGroup_keys]
    split_ifs with hk
    · exact hnd
    · exact List.Nodup.append hnd (List.nodup_singleton _) (by simpa using hk)
  · intro k
    rw [addToGroup_keys]
    split_ifs with hk
    · rw [hmem]
      constructor
      · rintro ⟨q, hq, hqk⟩
        exact ⟨q, List.mem_append_left _ hq, hqk⟩
      · rintro ⟨q, hq, hqk⟩
        rcases List.mem_append.mp hq with h1 | h1
        · exact ⟨q, h1, hqk⟩
        · simp only [List.mem_singleton] at h1
          subst h1
          rw [← hqk]
          exact (hmem _).mp hk
    · simp only [List.mem_append, List.mem_singleton, hmem]
      constructor
      · rintro (⟨q, hq, hqk⟩ | h1)
        · exact ⟨q, Or.inl hq, hqk⟩
        · exact ⟨p, Or.inr rfl, h1.symm⟩
      · rintro ⟨q, hq | hq, hqk⟩
        · exact Or.inl ⟨q, hq, hqk⟩
        · subst hq
          exact Or.inr hqk.symm
  · intro e he
    rcases mem_addToGroup groups p e he with ⟨hk, rfl⟩ | ⟨e0, he0, hkey, rfl⟩ | ⟨he0, hkey⟩
    · refine ⟨?_, rfl⟩
      have hnone : processed.filter (fun q => decide (groupKey q = groupKey p)) = [] := by
        rw [List.filter_eq_nil_iff]
        intro q hq
        simp only [decide_eq_true_eq]
        intro hqk
        exact hk ((hmem _).mpr ⟨q, hq, hqk⟩)
      simp [List.filter_append, hnone]
    · obtain ⟨h1, h2⟩ := hent e0 he0
      refine ⟨?_, h2⟩
      simp [List.filter_append, h1, hkey]
    · obtain ⟨h1, h2⟩ := hent e he0
      refine ⟨?_, h2⟩
      have : ¬ groupKey p = e.1 := fun h => hkey h.symm
      simp [List.filter_append, h1, this]

/-- The grouping loop yields the groups of the products it has run over. -/
theorem foldl_addToGroup (l : List Product) :
    ∀ (groups : List (String × SupplierGroup)) (processed : List Product),
      GroupedFrom groups processed → GroupedFrom (l.foldl addToGroup groups) (processed ++ l) := by
  induction l with
  | nil => intro groups processed h; simpa using h
  | cons p t ih =>
    intro groups processed h
    have := ih _ _ (addToGroup_step groups processed p h)
    simpa using this

/-- A pointwise relation between two lists can be weakened using membership in
the first list. -/
theorem forall₂_imp_of_mem {α β : Type} {R S : α → β → Prop} :
    ∀ {l1 : List α} {l2 : List β}, List.Forall₂ R l1 l2 →
      (∀ a ∈ l1, ∀ b, R a b → S a b) → List.Forall₂ S l1 l2 := by
  intro l1 l2 h
  induction h with
  | nil => intro _; exact List.Forall₂.nil
  | cons hab _ ih =>
    intro himp
    exact List.Forall₂.cons (himp _ (List.mem_cons_self _ _) _ hab)
      (ih (fun a ha b hr => himp a (List.mem_cons_of_mem _ ha) b hr))

/-- The order loop of the renewal sweep when no write fails: one automatic
pending order with the lines of the group, and one notification about it, per
group whose tenant has a user, in the order of the groups. -/
theorem renewGroups_spec (env : Env) (users : List User) (hw : ∀ k, env.writeFails k = false) :
    ∀ (groups : List (String × SupplierGroup)) (s : Store),
      (∀ e ∈ groups, ∀ l ∈ e.2.products, 1 ≤ l.quantity) →
      ∃ created notes,
        (renewGroups env users s groups).orders = s.orders ++ created ∧
        (renewGroups env users s groups).notifications = s.notifications ++ notes ∧
        List.Forall₂ (fun (e : String × SupplierGroup) (o : Order) =>
            o.orderType = .automatic ∧ o.status = .pending ∧ o.paymentStatus = .pending ∧
            o.business = e.2.business ∧ o.supplier = some e.2.supplier ∧
            o.products = e.2.products)
          (groups.filter (fun e => !(businessUsers users e.2.business).isEmpty)) created ∧
        List.Forall₂ IsNotificationFor created notes := by
  intro groups
  induction groups with
  | nil => intro s _; exact ⟨[], [], by simp [renewGroups], by simp [renewGroups], by simp, by simp⟩
  | cons e rest ih =>
    intro s hq
    obtain ⟨key, group⟩ := e
    have hrest : ∀ e ∈ rest, ∀ l ∈ e.2.products, 1 ≤ l.quantity :=
      fun e he => hq e (List.mem_cons_of_mem _ he)
    cases hb : businessUsers users group.business with
    | nil =>
      obtain ⟨created, notes, h1, h2, h3, h4⟩ := ih s hrest
      refine ⟨created, notes, ?_, ?_, ?_, h4⟩
      · simpa [renewGroups, hb] using h1
      · simpa [renewGroups, hb] using h2
      · simpa [List.filter_cons, hb] using h3
    | cons owner others =>
      have hvalid : ∀ l ∈ group.products, 1 ≤ l.quantity := hq (key, group) (List.mem_cons_self _ _)
      simp only [renewGroups, hb]
      rw [saveNewOrder_ok env s _ (hw _) (by simpa [Order.valid] using hvalid)]
      simp only [createNotification, saveNotification, hw, Bool.false_eq_true, if_false]
      have hprops : ∀ o1 : Order, Order.preSave (env.clock s.tick) (env.random s.tick)
          { id := env.newId s.tick
            products := group.products
            business := group.business
            totalAmount := some (group.products.foldl (fun sum item => sum + item.totalPrice) 0)
            supplier := some group.supplier
            createdBy := owner.id
            orderType := .automatic
            status := .pending
            paymentStatus := .pending
            expectedDeliveryDate := some (env.clock s.tick + twoDays)
            notes := some "Automatically generated order for low stock items - Payment pending" }
            = o1 →
          o1.orderType = .automatic ∧ o1.status = .pending ∧ o1.paymentStatus = .pending ∧
            o1.business = group.business ∧ o1.supplier = some group.supplier ∧
            o1.products = group.products := by
        intro o1 ho1
        subst ho1
        simp only [Order.preSave, Order.preSaveTotal, Order.preSaveNumber]
        split_ifs <;> simp
      generalize Order.preSave (env.clock s.tick) (env.random s.tick) _ = o1 at hprops ⊢
      obtain ⟨created, notes, h1, h2, h3, h4⟩ := ih
        { products := (insertOrder s o1).products
          orders := (insertOrder s o1).orders
          notifications := (insertOrder s o1).notifications ++
            [{ recipient := owner.id, business := some group.business, type := .payment_pending,
               priority := some .high, title := "Payment Pending - Auto Order",
               data := { orderId := some o1.id, orderNumber := o1.orderNumber,
                         productCount := some group.products.length,
                         amount := some (group.products.foldl
                           (fun sum item => sum + item.totalPrice) 0),
                         requiresPayment := true } }]
          users := (insertOrder s o1).users
          tick := (insertOrder s o1).tick + 1
          payments := (insertOrder s o1).payments } hrest
      refine ⟨o1 :: created,
        { recipient := owner.id, business := some group.business, type := .payment_pending,
          priority := some .high, title := "Payment Pending - Auto Order",
          data := { orderId := some o1.id, orderNumber := o1.orderNumber,
                    productCount := some group.products.length,
                    amount := some (group.products.foldl
                      (fun sum item => sum + item.totalPrice) 0),
                    requiresPayment := true } } :: notes, ?_, ?_, ?_, ?_⟩
      · rw [h1]; simp [insertOrder]
      · rw [h2]; simp [insertOrder]
      · simp only [List.filter_cons, hb, List.isEmpty_cons, Bool.not_false, if_true]
        exact List.Forall₂.cons (hprops o1 rfl) h3
      · refine List.Forall₂.cons ?_ h4
        have := hprops o1 rfl
        simp [IsNotificationFor, this.2.2.2.1]

/-- Whether the user list of a tenant is empty, in terms of the store. -/
theorem businessUsers_isEmpty (s : Store) (b : ObjectId) :
    (!(businessUsers (activeUsers s) b).isEmpty) = tenantHasActiveUser s b := by
  have h := businessUsers_ne_nil s b
  cases hb : businessUsers (activeUsers s) b with
  | nil =>
    cases ht : tenantHasActiveUser s b with
    | false => rfl
    | true => exact absurd hb (h.mpr ht)
  | cons u us =>
    have : tenantHasActiveUser s b = true := h.mp (by simp [hb])
    simp [this]

/-- C9. Let no write fail and let every stored product have a reorder quantity
of at least 1. Two products have the same group key exactly when they have the
same supplier e-mail and the same tenant. One run of `autoRenewStock` appends
one order per pair of supplier e-mail and tenant that occurs among the active
low-stock products and whose tenant has an active user, each pair once; the
order of a pair is automatic and pending and its lines are the reorder lines of
exactly the active low-stock products with this pair; and it appends exactly
one payment-pending notification per created order. -/
theorem autoRenew_one_order_per_pair (env : Env) (s : Store)
    (hw : ∀ k, env.writeFails k = false) (hrq : ∀ p ∈ s.products, 1 ≤ p.reorderQuantity) :
    (∀ p q : Product, groupKey p = groupKey q ↔
      (p.supplier.email = q.supplier.email ∧ p.business = q.business)) ∧
    ∃ pairs created notes,
      (autoRenewStock env s).orders = s.orders ++ created ∧
      (autoRenewStock env s).notifications = s.notifications ++ notes ∧
      pairs.Nodup ∧
      (∀ pair, pair ∈ pairs ↔
        ((∃ p ∈ lowStockProducts s, supplierPair p = pair) ∧
          tenantHasActiveUser s pair.2 = true)) ∧
      List.Forall₂ (IsGroupOrderFor (lowStockProducts s)) pairs created ∧
      List.Forall₂ IsNotificationFor created notes := by
  constructor
  · intro p q
    rw [groupKey_eq_pairKey, groupKey_eq_pairKey, pairKey_inj]
    simp [supplierPair, Prod.ext_iff]
  unfold autoRenewStock
  simp only []
  split_ifs with h1 h2
  · have hl : lowStockProducts s = [] := List.length_eq_zero.mp h1
    exact ⟨[], [], [], by simp, by simp, List.nodup_nil, by simp [hl], List.Forall₂.nil,
      List.Forall₂.nil⟩
  · have hu : activeUsers s = [] := List.length_eq_zero.mp h2
    have hno : ∀ b, tenantHasActiveUser s b = false := by
      intro b
      rw [← businessUsers_isEmpty, hu]
      simp [businessUsers]
    exact ⟨[], [], [], by simp, by simp, List.nodup_nil, by simp [hno], List.Forall₂.nil,
      List.Forall₂.nil⟩
  · have hG : GroupedFrom ((lowStockProducts s).foldl addToGroup []) (lowStockProducts s) := by
      have := foldl_addToGroup (lowStockProducts s) [] []
        ⟨List.nodup_nil, by simp, by simp⟩
      simpa using this
    generalize (lowStockProducts s).foldl addToGroup [] = G at hG ⊢
    obtain ⟨hnd, hmem, hent⟩ := hG
    have hq : ∀ e ∈ G, ∀ l ∈ e.2.products, 1 ≤ l.quantity := by
      intro e he l hl
      rw [(hent e he).1] at hl
      simp only [List.mem_map, List.mem_filter] at hl
      obtain ⟨p, ⟨hp, _⟩, rfl⟩ := hl
      exact hrq p (List.mem_of_mem_filter hp)
    obtain ⟨created, notes, k1, k2, k3, k4⟩ := renewGroups_spec env (activeUsers s) hw G s hq
    have hkey : ∀ e ∈ G, ∀ p : Product,
        groupKey p = e.1 ↔ supplierPair p = (e.2.supplier.email, e.2.business) := by
      intro e he p
      rw [(hent e he).2, groupKey_eq_pairKey, pairKey_inj]
    refine ⟨(G.filter (fun e => !(businessUsers (activeUsers s) e.2.business).isEmpty)).map
      (fun e => (e.2.supplier.email, e.2.business)), created, notes, k1, k2, ?_, ?_, ?_, k4⟩
    · have hkeys : G.map Prod.fst = (G.map (fun e => (e.2.supplier.email, e.2.business))).map
          pairKey := by
        rw [List.map_map]
        apply List.map_congr_left
        intro e he
        exact (hent e he).2
      rw [hkeys] at hnd
      exact (List.Nodup.of_map _ hnd).sublist ((List.filter_sublist _).map _)
    · intro pair
      simp only [List.mem_map, List.mem_filter, businessUsers_isEmpty]
      constructor
      · rintro ⟨e, ⟨he, hu⟩, rfl⟩
        obtain ⟨p, hp, hpk⟩ := (hmem e.1).mp (List.mem_map_of_mem Prod.fst he)
        exact ⟨⟨p, hp, (hkey e he p).mp hpk⟩, hu⟩
      · rintro ⟨⟨p, hp, rfl⟩, hu⟩
        obtain ⟨e, he, hek⟩ := List.mem_map.mp ((hmem (groupKey p)).mpr ⟨p, hp, rfl⟩)
        have hpair := (hkey e he p).mp hek.symm
        refine ⟨e, ⟨he, ?_⟩, hpair.symm⟩
        rw [hpair] at hu
        exact hu
    · rw [List.forall₂_map_left_iff]
      refine forall₂_imp_of_mem k3 ?_
      intro e he o ⟨r1, r2, r3, r4, r5, r6⟩
      have heG : e ∈ G := List.mem_of_mem_filter he
      refine ⟨r1, r2, r3, r4, by simp [r5], ?_⟩
      rw [r6, (hent e heG).1]
      congr 1
      apply List.filter_congr
      intro p _
      simp only [decide_eq_decide]
      exact hkey e heG p

/-- The example of C9: in `groupingStore` the low-stock products are `beans`,
`salt`, `lentils` (tenant 7) and `flour` (tenant 8, without users); the sweep
creates one order for the first supplier with the lines of `beans` and
`lentils`, one for the second supplier with the line of `salt`, none for
tenant 8, and two notifications. -/
theorem autoRenew_one_order_per_pair_witness :
    ((∀ p q : Product, groupKey p = groupKey q ↔
      (p.supplier.email = q.supplier.email ∧ p.business = q.business)) ∧
    ∃ pairs created notes,
      (autoRenewStock quietEnv groupingStore).orders = groupingStore.orders ++ created ∧
      (autoRenewStock quietEnv groupingStore).notifications =
        groupingStore.notifications ++ notes ∧
      pairs.Nodup ∧
      (∀ pair, pair ∈ pairs ↔
        ((∃ p ∈ lowStockProducts groupingStore, supplierPair p = pair) ∧
          tenantHasActiveUser groupingStore pair.2 = true)) ∧
      List.Forall₂ (IsGroupOrderFor (lowStockProducts groupingStore)) pairs created ∧
      List.Forall₂ IsNotificationFor created notes) ∧
    (autoRenewStock quietEnv groupingStore).orders.map (fun o => o.products) =
      [[reorderLine beans, reorderLine lentils], [reorderLine salt]] ∧
    (autoRenewStock quietEnv groupingStore).notifications.length = 2 :=
  ⟨autoRenew_one_order_per_pair quietEnv groupingStore (fun _ => rfl) (by decide!),
    by decide!, by decide!⟩

/-! ### C10: a failure inside the renewal sweep -/

/-- C10, the code at the failing input. In `twoSupplierStore` there are two
groups. When the first write (the save of the order of the first group) fails
and no later write does, `autoRenewStock` creates no order at all, although the
second group would be processed at a tick at which nothing fails; the sibling
sweep `checkAndAutoReorder` on the same input goes on and creates the order of
the second product; and when nothing fails `autoRenewStock` creates both
orders. -/
theorem autoRenew_aborts_after_failure :
    (lowStockProducts twoSupplierStore).map groupKey =
      ["orders@acme.test_000000000000000000000007",
       "sales@bolt.test_000000000000000000000007"] ∧
    (∀ k, 1 ≤ k → firstWriteFailsEnv.writeFails k = false) ∧
    (autoRenewStock firstWriteFailsEnv twoSupplierStore).orders = [] ∧
    (checkAndAutoReorder firstWriteFailsEnv twoSupplierStore).orders.map
      (fun o => o.products) = [[reorderLine salt]] ∧
    (autoRenewStock quietEnv twoSupplierStore).orders.map (fun o => o.products) =
      [[reorderLine beans], [reorderLine salt]] := by
  refine ⟨by decide!, ?_, by decide!, by decide!, by decide!⟩
  intro k hk
  simp only [firstWriteFailsEnv, decide_eq_false_iff_not]
  omega

/-! ### C11: failures inside the real-time sweep -/

/-- The users of a tenant are none exactly when no user of the list has the
tenant. -/
theorem businessUsers_isEmpty_eq (users : List User) (b : ObjectId) :
    (businessUsers users b).isEmpty = !hasUserOf users b := by
  rw [businessUsers_eq]
  cases h : hasUserOf users b with
  | false =>
    simp only [hasUserOf] at h
    have : users.filter (fun u => u.currentBusiness == some b) = [] := by
      rw [List.filter_eq_nil_iff]
      intro u hu hub
      have : users.any (fun u => u.currentBusiness == some b) = true :=
        List.any_eq_true.mpr ⟨u, hu, hub⟩
      rw [h] at this
      cases this
    simp [this]
  | true =>
    simp only [hasUserOf, List.any_eq_true] at h
    obtain ⟨u, hu, hub⟩ := h
    have hmem : u ∈ users.filter (fun u => u.currentBusiness == some b) :=
      List.mem_filter.mpr ⟨hu, hub⟩
    cases hf : users.filter (fun u => u.currentBusiness == some b) with
    | nil => rw [hf] at hmem; cases hmem
    | cons x xs => rfl

/-- One step of the real-time sweep in any environment: nothing happens without
a user of the tenant or with a reorder quantity below 1; a failing order write
costs one attempt and creates nothing; otherwise exactly one automatic pending
order is appended, whether or not the notification that follows is stored. -/
theorem autoReorderProduct_cases (env : Env) (users : List User) (s : Store) (p : Product) :
    ((!hasUserOf users p.business || decide (p.reorderQuantity < 1)) = true →
      autoReorderProduct env users s p = s) ∧
    ((!hasUserOf users p.business || decide (p.reorderQuantity < 1)) = false →
      env.writeFails s.tick = true →
      autoReorderProduct env users s p = { s with tick := s.tick + 1 }) ∧
    ((!hasUserOf users p.business || decide (p.reorderQuantity < 1)) = false →
      env.writeFails s.tick = false →
      ∃ o, IsAutoOrderFor p o ∧
        (autoReorderProduct env users s p).orders = s.orders ++ [o] ∧
        (autoReorderProduct env users s p).products = s.products ∧
        (autoReorderProduct env users s p).users = s.users ∧
        (autoReorderProduct env users s p).payments = s.payments ∧
        (autoReorderProduct env users s p).tick = s.tick + 2) := by
  have hemp := businessUsers_isEmpty_eq users p.business
  unfold autoReorderProduct
  cases hb : businessUsers users p.business with
  | nil =>
    rw [hb] at hemp
    have hno : hasUserOf users p.business = false := by
      cases h : hasUserOf users p.business with
      | false => rfl
      | true => rw [h] at hemp; simp at hemp
    simp [hno]
  | cons owner rest =>
    rw [hb] at hemp
    have hyes : hasUserOf users p.business = true := by
      cases h : hasUserOf users p.business with
      | true => rfl
      | false => rw [h] at hemp; simp at hemp
    simp only [hyes, Bool.not_true, Bool.false_or, decide_eq_true_eq, decide_eq_false_iff_not,
      not_lt]
    refine ⟨?_, ?_, ?_⟩
    · intro hrq
      have hv : ¬ (1 ≤ p.reorderQuantity) := by omega
      simp [saveNewOrder, Order.valid, hv]
    · intro hrq hw
      simp [saveNewOrder, Order.valid, hrq, hw]
    · intro hrq hw
      rw [saveNewOrder_ok env s _ hw (by simp [Order.valid, hrq])]
      simp only [createNotification, saveNotification, insertOrder]
      split_ifs
      · refine ⟨_, ?_, rfl, rfl, rfl, rfl, rfl⟩
        simp only [IsAutoOrderFor, Order.preSave, Order.preSaveTotal, Order.preSaveNumber,
          reorderLine]
        simp
      · refine ⟨_, ?_, rfl, rfl, rfl, rfl, rfl⟩
        simp only [IsAutoOrderFor, Order.preSave, Order.preSaveTotal, Order.preSaveNumber,
          reorderLine]
        simp

/-- The loop of the real-time sweep in any environment: the orders it appends
are, in order, one automatic pending order per product whose order is saved;
products, users and payments are untouched. -/
theorem foldl_autoReorderProduct_any (env : Env) (users : List User) :
    ∀ (l : List Product) (s : Store),
      ∃ created,
        (l.foldl (autoReorderProduct env users) s).orders = s.orders ++ created ∧
        List.Forall₂ IsAutoOrderFor (ordersSavedFor env users s.tick l) created ∧
        (l.foldl (autoReorderProduct env users) s).products = s.products ∧
        (l.foldl (autoReorderProduct env users) s).users = s.users ∧
        (l.foldl (autoReorderProduct env users) s).payments = s.payments := by
  intro l
  induction l with
  | nil => intro s; exact ⟨[], by simp, by simp [ordersSavedFor], rfl, rfl, rfl⟩
  | cons p t ih =>
    intro s
    obtain ⟨hskip, hfail, hsave⟩ := autoReorderProduct_cases env users s p
    simp only [List.foldl_cons]
    cases hc : (!hasUserOf users p.business || decide (p.reorderQuantity < 1)) with
    | true =>
      rw [hskip hc]
      obtain ⟨created, h1, h2, h3, h4, h5⟩ := ih s
      exact ⟨created, h1, by simpa [ordersSavedFor, hc] using h2, h3, h4, h5⟩
    | false =>
      cases hw : env.writeFails s.tick with
      | true =>
        rw [hfail hc hw]
        obtain ⟨created, h1, h2, h3, h4, h5⟩ := ih { s with tick := s.tick + 1 }
        exact ⟨created, h1, by simpa [ordersSavedFor, hc, hw] using h2, h3, h4, h5⟩
      | false =>
        obtain ⟨o, ho, k1, k2, k3, k4, k5⟩ := hsave hc hw
        obtain ⟨created, h1, h2, h3, h4, h5⟩ := ih (autoReorderProduct env users s p)
        refine ⟨o :: created, ?_, ?_, h3.trans k2, h4.trans k3, h5.trans k4⟩
        · rw [h1, k1]; simp
        · rw [k5] at h2
          simpa [ordersSavedFor, hc, hw] using List.Forall₂.cons ho h2

/-- One run of the real-time sweep in any environment. -/
theorem checkAndAutoReorder_any (env : Env) (s : Store) :
    ∃ created,
      (checkAndAutoReorder env s).orders = s.orders ++ created ∧
      List.Forall₂ IsAutoOrderFor
        (ordersSavedFor env (activeUsers s) s.tick (lowStockProducts s)) created ∧
      (checkAndAutoReorder env s).products = s.products ∧
      (checkAndAutoReorder env s).users = s.users ∧
      (checkAndAutoReorder env s).payments = s.payments := by
  unfold checkAndAutoReorder
  simp only []
  split_ifs with h1 h2
  · have : lowStockProducts s = [] := List.length_eq_zero.mp h1
    exact ⟨[], by simp, by simp [this, ordersSavedFor], rfl, rfl, rfl⟩
  · have hu : activeUsers s = [] := List.length_eq_zero.mp h2
    have hnone : ∀ t l, ordersSavedFor env [] t l = [] := by
      intro t l
      induction l generalizing t with
      | nil => rfl
      | cons p r ih => simp [ordersSavedFor, hasUserOf, ih]
    exact ⟨[], by simp, by simp [hu, hnone], rfl, rfl, rfl⟩
  · exact foldl_autoReorderProduct_any env (activeUsers s) (lowStockProducts s) s

/-- C11, as stated, fails: with `beans` alone and an environment in which the
second write, the one of the notification, fails, the processing of `beans`
raises (no notification is stored although two writes were attempted), and yet
the order of `beans` has been created. -/
theorem order_created_despite_failure_counterexample :
    secondWriteFailsEnv.writeFails 1 = true ∧
    (checkAndAutoReorder secondWriteFailsEnv beansStore).tick = 2 ∧
    (checkAndAutoReorder secondWriteFailsEnv beansStore).notifications = [] ∧
    (checkAndAutoReorder secondWriteFailsEnv beansStore).orders.map (fun o => o.products) =
      [[reorderLine beans]] := by
  decide!

/-- C11, amended. In any environment and from any store, the step of the
real-time sweep for a product appends an order for it exactly when its tenant
has a user among the active users, its reorder quantity is at least 1 and the
write of the order does not fail at that moment, whatever the store left by the
earlier products is and whether or not the notification that follows can be
stored. One run of `checkAndAutoReorder` therefore appends, in order, one
automatic pending order for each active low-stock product whose order is
saved, and nothing else; it is a total function, so no error reaches the
caller. -/
theorem autoReorder_failures_isolated (env : Env) (s : Store) :
    (∀ (users : List User) (st : Store) (p : Product),
      (∃ o, (autoReorderProduct env users st p).orders = st.orders ++ [o] ∧
          IsAutoOrderFor p o) ↔
        (hasUserOf users p.business = true ∧ 1 ≤ p.reorderQuantity ∧
          env.writeFails st.tick = false)) ∧
    ∃ created,
      (checkAndAutoReorder env s).orders = s.orders ++ created ∧
      List.Forall₂ IsAutoOrderFor
        (ordersSavedFor env (activeUsers s) s.tick (lowStockProducts s)) created := by
  constructor
  · intro users st p
    obtain ⟨hskip, hfail, hsave⟩ := autoReorderProduct_cases env users st p
    cases hc : (!hasUserOf users p.business || decide (p.reorderQuantity < 1)) with
    | true =>
      rw [hskip hc]
      constructor
      · rintro ⟨o, ho, _⟩
        have := congrArg List.length ho
        simp at this
      · rintro ⟨h1, h2, _⟩
        simp only [h1, Bool.not_true, Bool.false_or, decide_eq_true_eq] at hc
        omega
    | false =>
      have hc2 := hc
      simp only [Bool.or_eq_false_iff, Bool.not_eq_false', decide_eq_false_iff_not, not_lt] at hc2
      cases hw : env.writeFails st.tick with
      | true =>
        rw [hfail hc hw]
        constructor
        · rintro ⟨o, ho, _⟩
          have := congrArg List.length ho
          simp at this
        · rintro ⟨_, _, h3⟩
          cases h3
      | false =>
        obtain ⟨o, ho, k1, _⟩ := hsave hc hw
        constructor
        · intro _
          exact ⟨hc2.1, hc2.2, rfl⟩
        · intro _
          exact ⟨o, k1, ho⟩
  · obtain ⟨created, h1, h2, _⟩ := checkAndAutoReorder_any env s
    exact ⟨created, h1, h2⟩

/-! ### C13: the low-stock notification sweep -/

/-- Storing a notification touches nothing but the notifications and the count
of writes. -/
theorem saveNotification_frame (env : Env) (s : Store) (n : Notification) :
    (saveNotification env s n).2.products = s.products ∧
    (saveNotification env s n).2.orders = s.orders ∧
    (saveNotification env s n).2.users = s.users ∧
    (saveNotification env s n).2.payments = s.payments := by
  simp only [saveNotification]
  split_ifs <;> exact ⟨rfl, rfl, rfl, rfl⟩

/-- The inner loops of the low-stock sweep, when no write fails, append one
notification per recipient. -/
theorem foldl_send_notices (env : Env) (hw : ∀ k, env.writeFails k = false) (p : Product) :
    ∀ (recipients : List User) (s : Store),
      ((recipients.foldl (fun st recipient => sendOutOfStockNotification env st p recipient)
          s).notifications = s.notifications ++ recipients.map (outOfStockNotice p)) ∧
      ((recipients.foldl (fun st recipient => sendLowStockNotification env st p recipient)
          s).notifications = s.notifications ++ recipients.map (lowStockNotice p)) := by
  intro recipients
  induction recipients with
  | nil => intro s; simp
  | cons u rest ih =>
    intro s
    constructor
    · rw [List.foldl_cons, (ih _).1]
      simp [sendOutOfStockNotification, createNotification, saveNotification, hw,
        outOfStockNotice]
    · rw [List.foldl_cons, (ih _).2]
      simp [sendLowStockNotification, createNotification, saveNotification, hw,
        lowStockNotice]

/-- The step of the low-stock sweep for one product, when no write fails,
appends the notifications due to the users of its tenant. -/
theorem notifyLowStockProduct_spec (env : Env) (hw : ∀ k, env.writeFails k = false)
    (users : List User) (s : Store) (p : Product) :
    (notifyLowStockProduct env users s p).notifications =
      s.notifications ++
        (users.filter (fun u => u.currentBusiness == some p.business)).filterMap
          (noticeFor p) := by
  unfold notifyLowStockProduct
  rw [businessUsers_eq]
  split_ifs with h1 h2
  · rw [(foldl_send_notices env hw p _ s).1]
    congr 1
    induction users.filter (fun u => u.currentBusiness == some p.business) with
    | nil => rfl
    | cons u r ih => simp [List.filterMap_cons, noticeFor, h1, ih]
  · rw [(foldl_send_notices env hw p _ s).2]
    congr 1
    induction users.filter (fun u => u.currentBusiness == some p.business) with
    | nil => rfl
    | cons u r ih => simp [List.filterMap_cons, noticeFor, h1, h2, ih]
  · have : (users.filter (fun u => u.currentBusiness == some p.business)).filterMap
        (noticeFor p) = [] := by
      induction users.filter (fun u => u.currentBusiness == some p.business) with
      | nil => rfl
      | cons u r ih => simp [List.filterMap_cons, noticeFor, h1, h2, ih]
    rw [this]; simp

/-- C13. When no write fails, one run of `checkLowStock` appends to the
notifications exactly the list `lowStockNotices`: for every active product and
every active user whose current tenant is the tenant of the product one
notification addressed to this user about this product, of type out_of_stock
when the stock is at most 0 and of type low_stock when it is positive and at
most the minimum, and none when the stock is above the minimum; every
notification it creates is addressed to an active user of the tenant of the
product it is about. -/
theorem checkLowStock_notifies (env : Env) (s : Store) (hw : ∀ k, env.writeFails k = false) :
    (checkLowStock env s).notifications = s.notifications ++ lowStockNotices s ∧
    (∀ p u, noticeFor p u =
      if p.currentStock ≤ 0 then some (outOfStockNotice p u)
      else if p.currentStock ≤ p.minStockLevel then some (lowStockNotice p u)
      else none) ∧
    (∀ n ∈ lowStockNotices s, ∃ p ∈ s.products, ∃ u ∈ s.users,
      p.isActive = true ∧ u.isActive = true ∧ u.currentBusiness = some p.business ∧
      n.recipient = u.id ∧ n.business = some p.business ∧ n.data.productId = some p.id ∧
      ((p.currentStock ≤ 0 ∧ n.type = .out_of_stock) ∨
        (0 < p.currentStock ∧ p.currentStock ≤ p.minStockLevel ∧ n.type = .low_stock))) := by
  refine ⟨?_, fun p u => rfl, ?_⟩
  · have hfold : ∀ (l : List Product) (st : Store),
        (l.foldl (notifyLowStockProduct env (activeUsers s)) st).notifications =
          st.notifications ++ l.flatMap (fun p =>
            ((activeUsers s).filter (fun u => u.currentBusiness == some p.business)).filterMap
              (noticeFor p)) := by
      intro l
      induction l with
      | nil => intro st; simp
      | cons p r ih =>
        intro st
        rw [List.foldl_cons, ih, notifyLowStockProduct_spec env hw, List.flatMap_cons,
          List.append_assoc]
    unfold checkLowStock
    simp only []
    split_ifs with h
    · have hu : activeUsers s = [] := List.length_eq_zero.mp h
      have : lowStockNotices s = [] := by
        simp only [lowStockNotices]
        simp only [activeUsers] at hu
        simp [hu]
      rw [this]; simp
    · rw [hfold]
      rfl
  · intro n hn
    simp only [lowStockNotices, List.mem_flatMap, List.mem_filter, List.mem_filterMap] at hn
    obtain ⟨p, ⟨hp, hact⟩, u, ⟨⟨hu, huact⟩, hub⟩, hnotice⟩ := hn
    refine ⟨p, hp, u, hu, hact, huact, by simpa using hub, ?_⟩
    simp only [noticeFor] at hnotice
    split_ifs at hnotice with h1 h2
    · simp only [Option.some.injEq] at hnotice
      subst hnotice
      exact ⟨rfl, rfl, rfl, Or.inl ⟨h1, rfl⟩⟩
    · simp only [Option.some.injEq] at hnotice
      subst hnotice
      exact ⟨rfl, rfl, rfl, Or.inr ⟨not_le.mp h1, h2, rfl⟩⟩

/-- The scenario of C13: with `sugar` (stock 0, minimum 5), `peas` (stock 3,
minimum 5) and the well stocked `rice` in tenant 7, one user of tenant 7 and one
of tenant 8, the sweep creates one out_of_stock notification about `sugar` and
one low_stock notification about `peas`, both to the user of tenant 7, and
nothing else. -/
theorem checkLowStock_notifies_witness :
    (checkLowStock quietEnv lowStockStore).notifications =
      lowStockStore.notifications ++ lowStockNotices lowStockStore ∧
    lowStockNotices lowStockStore =
      [outOfStockNotice sugar ownerUser, lowStockNotice peas ownerUser] ∧
    (checkLowStock quietEnv lowStockStore).notifications.map
        (fun n => (n.type, n.recipient, n.data.productId)) =
      [(.out_of_stock, 50, some 6), (.low_stock, 50, some 8)] :=
  ⟨(checkLowStock_notifies quietEnv lowStockStore (fun _ => rfl)).1, by decide!, by decide!⟩

/-! ### C15: the sweeps leave products and existing orders alone -/

/-- The inner loops of the low-stock sweep touch neither products nor orders,
in any environment. -/
theorem foldl_send_frame (env : Env) (p : Product) :
    ∀ (recipients : List User) (s : Store),
      ((recipients.foldl (fun st recipient => sendOutOfStockNotification env st p recipient)
          s).products = s.products ∧
        (recipients.foldl (fun st recipient => sendOutOfStockNotification env st p recipient)
          s).orders = s.orders) ∧
      ((recipients.foldl (fun st recipient => sendLowStockNotification env st p recipient)
          s).products = s.products ∧
        (recipients.foldl (fun st recipient => sendLowStockNotification env st p recipient)
          s).orders = s.orders) := by
  intro recipients
  induction recipients with
  | nil => intro s; simp
  | cons u rest ih =>
    intro s
    refine ⟨⟨?_, ?_⟩, ⟨?_, ?_⟩⟩
    · rw [List.foldl_cons, (ih _).1.1]
      exact (saveNotification_frame env s _).1
    · rw [List.foldl_cons, (ih _).1.2]
      exact (saveNotification_frame env s _).2.1
    · rw [List.foldl_cons, (ih _).2.1]
      exact (saveNotification_frame env s _).1
    · rw [List.foldl_cons, (ih _).2.2]
      exact (saveNotification_frame env s _).2.1

/-- The low-stock sweep touches neither products nor orders, in any
environment. -/
theorem checkLowStock_frame (env : Env) (s : Store) :
    (checkLowStock env s).products = s.products ∧ (checkLowStock env s).orders = s.orders := by
  have hstep : ∀ (users : List User) (st : Store) (p : Product),
      (notifyLowStockProduct env users st p).products = st.products ∧
      (notifyLowStockProduct env users st p).orders = st.orders := by
    intro users st p
    unfold notifyLowStockProduct
    split_ifs
    · exact (foldl_send_frame env p _ st).1
    · exact (foldl_send_frame env p _ st).2
    · exact ⟨rfl, rfl⟩
  have hfold : ∀ (l : List Product) (st : Store),
      (l.foldl (notifyLowStockProduct env (activeUsers s)) st).products = st.products ∧
      (l.foldl (notifyLowStockProduct env (activeUsers s)) st).orders = st.orders := by
    intro l
    induction l with
    | nil => intro st; exact ⟨rfl, rfl⟩
    | cons p r ih =>
      intro st
      rw [List.foldl_cons]
      exact ⟨(ih _).1.trans (hstep _ st p).1, (ih _).2.trans (hstep _ st p).2⟩
  unfold checkLowStock
  simp only []
  split_ifs
  · exact ⟨rfl, rfl⟩
  · exact hfold _ s

/-- The order loop of the renewal sweep in any environment: it appends orders,
each automatic and pending with the lines of one of the groups, and touches no
product. -/
theorem renewGroups_any (env : Env) (users : List User) :
    ∀ (groups : List (String × SupplierGroup)) (s : Store),
      ∃ created,
        (renewGroups env users s groups).orders = s.orders ++ created ∧
        (renewGroups env users s groups).products = s.products ∧
        ∀ o ∈ created, o.orderType = .automatic ∧ o.status = .pending ∧
          o.paymentStatus = .pending ∧ ∃ e ∈ groups, o.products = e.2.products := by
  intro groups
  induction groups with
  | nil => intro s; exact ⟨[], by simp [renewGroups], by simp [renewGroups], by simp⟩
  | cons e rest ih =>
    intro s
    obtain ⟨key, group⟩ := e
    cases hb : businessUsers users group.business with
    | nil =>
      obtain ⟨created, h1, h2, h3⟩ := ih s
      refine ⟨created, by simpa [renewGroups, hb] using h1, by simpa [renewGroups, hb] using h2, ?_⟩
      intro o ho
      obtain ⟨a, b, c, e, he, hp⟩ := h3 o ho
      exact ⟨a, b, c, e, List.mem_cons_of_mem _ he, hp⟩
    | cons owner others =>
      simp only [renewGroups, hb, saveNewOrder]
      split_ifs with hv hw
      · exact ⟨[], by simp, rfl, by simp⟩
      · exact ⟨[], by simp, rfl, by simp⟩
      · simp only [createNotification, saveNotification]
        have hprops : ∀ o1 : Order, Order.preSave (env.clock s.tick) (env.random s.tick)
            { id := env.newId s.tick
              products := group.products
              business := group.business
              totalAmount := some (group.products.foldl (fun sum item => sum + item.totalPrice) 0)
              supplier := some group.supplier
              createdBy := owner.id
              orderType := .automatic
              status := .pending
              paymentStatus := .pending
              expectedDeliveryDate := some (env.clock s.tick + twoDays)
              notes := some "Automatically generated order for low stock items - Payment pending" }
              = o1 →
            o1.orderType = .automatic ∧ o1.status = .pending ∧ o1.paymentStatus = .pending ∧
              o1.products = group.products := by
          intro o1 ho1
          subst ho1
          simp only [Order.preSave, Order.preSaveTotal, Order.preSaveNumber]
          split_ifs <;> simp
        generalize Order.preSave (env.clock s.tick) (env.random s.tick) _ = o1 at hprops ⊢
        obtain ⟨p1, p2, p3, p4⟩ := hprops o1 rfl
        split_ifs with hn
        · refine ⟨[o1], by simp [insertOrder], by simp [insertOrder], ?_⟩
          intro o ho
          simp only [List.mem_singleton] at ho
          subst ho
          exact ⟨p1, p2, p3, (key, group), List.mem_cons_self _ _, p4⟩
        · obtain ⟨created, h1, h2, h3⟩ := ih
            { products := (insertOrder s o1).products
              orders := (insertOrder s o1).orders
              notifications := (insertOrder s o1).notifications ++
                [{ recipient := owner.id, business := some group.business,
                   type := .payment_pending, priority := some .high,
                   title := "Payment Pending - Auto Order",
                   data := { orderId := some o1.id, orderNumber := o1.orderNumber,
                             productCount := some group.products.length,
                             amount := some (group.products.foldl
                               (fun sum item => sum + item.totalPrice) 0),
                             requiresPayment := true } }]
              users := (insertOrder s o1).users
              tick := (insertOrder s o1).tick + 1
              payments := (insertOrder s o1).payments }
          refine ⟨o1 :: created, ?_, ?_, ?_⟩
          · rw [h1]; simp [insertOrder]
          · rw [h2]; simp [insertOrder]
          · intro o ho
            rcases List.mem_cons.mp ho with ho | ho
            · subst ho
              exact ⟨p1, p2, p3, (key, group), List.mem_cons_self _ _, p4⟩
            · obtain ⟨a, b, c, e, he, hp⟩ := h3 o ho
              exact ⟨a, b, c, e, List.mem_cons_of_mem _ he, hp⟩

/-- One run of the renewal sweep in any environment: it appends automatic
pending orders, each with the lines of one of the groups of the active
low-stock products, and touches no product. -/
theorem autoRenewStock_any (env : Env) (s : Store) :
    ∃ created,
      (autoRenewStock env s).orders = s.orders ++ created ∧
      (autoRenewStock env s).products = s.products ∧
      ∀ o ∈ created, o.orderType = .automatic ∧ o.status = .pending ∧
        o.paymentStatus = .pending ∧
        ∃ e ∈ (lowStockProducts s).foldl addToGroup [], o.products = e.2.products := by
  unfold autoRenewStock
  simp only []
  split_ifs
  · exact ⟨[], by simp, rfl, by simp⟩
  · exact ⟨[], by simp, rfl, by simp⟩
  · exact renewGroups_any env (activeUsers s) _ s

/-- A pointwise relation between two lists gives every element of the second a
partner in the first. -/
theorem forall₂_mem_right {α β : Type} {R : α → β → Prop} :
    ∀ {l1 : List α} {l2 : List β}, List.Forall₂ R l1 l2 → ∀ b ∈ l2, ∃ a ∈ l1, R a b := by
  intro l1 l2 h
  induction h with
  | nil => intro b hb; cases hb
  | cons hab _ ih =>
    intro b hb
    rcases List.mem_cons.mp hb with hb | hb
    · subst hb
      exact ⟨_, List.mem_cons_self _ _, hab⟩
    · obtain ⟨a, ha, hr⟩ := ih b hb
      exact ⟨a, List.mem_cons_of_mem _ ha, hr⟩

/-- The products whose order is saved are among the products of the run. -/
theorem mem_ordersSavedFor (env : Env) (users : List User) :
    ∀ (l : List Product) (t : Nat) (p : Product), p ∈ ordersSavedFor env users t l → p ∈ l := by
  intro l
  induction l with
  | nil => intro t p hp; simp [ordersSavedFor] at hp
  | cons q r ih =>
    intro t p hp
    simp only [ordersSavedFor] at hp
    split_ifs at hp
    · exact List.mem_cons_of_mem _ (ih _ _ hp)
    · exact List.mem_cons_of_mem _ (ih _ _ hp)
    · rcases List.mem_cons.mp hp with h | h
      · rw [h]; exact List.mem_cons_self _ _
      · exact List.mem_cons_of_mem _ (ih _ _ h)

/-- C15. In every environment, a run of `checkLowStock` leaves the product
records and the orders exactly as they were, and a run of `checkAndAutoReorder`
or of `autoRenewStock` leaves every product record exactly as it was (so
`currentStock` and `lastRestocked` too) and keeps the existing orders, in order
and unchanged, in front of the orders it creates, all of which are automatic,
pending and payment pending. -/
theorem sweeps_change_no_product (env : Env) (s : Store) :
    ((checkLowStock env s).products = s.products ∧ (checkLowStock env s).orders = s.orders) ∧
    ((checkAndAutoReorder env s).products = s.products ∧
      ∃ created, (checkAndAutoReorder env s).orders = s.orders ++ created ∧
        ∀ o ∈ created, o.orderType = .automatic ∧ o.status = .pending ∧
          o.paymentStatus = .pending) ∧
    ((autoRenewStock env s).products = s.products ∧
      ∃ created, (autoRenewStock env s).orders = s.orders ++ created ∧
        ∀ o ∈ created, o.orderType = .automatic ∧ o.status = .pending ∧
          o.paymentStatus = .pending) := by
  refine ⟨checkLowStock_frame env s, ?_, ?_⟩
  · obtain ⟨created, h1, h2, h3, _⟩ := checkAndAutoReorder_any env s
    refine ⟨h3, created, h1, ?_⟩
    intro o ho
    obtain ⟨p, _, hauto⟩ := forall₂_mem_right h2 o ho
    exact ⟨hauto.1, hauto.2.1, hauto.2.2.1⟩
  · obtain ⟨created, h1, h2, h3⟩ := autoRenewStock_any env s
    refine ⟨h2, created, h1, ?_⟩
    intro o ho
    obtain ⟨a, b, c, _⟩ := h3 o ho
    exact ⟨a, b, c⟩

/-! ### C16: the order cap on the automatic paths -/

/-- C16, the code at the failing input. The product `bulky` passes the schema
validators with a reorder quantity of 200 and a maximum order quantity of 100.
Both sweeps create an order line of 200 units for it, above the cap, while the
order-create endpoint rejects a line of 200 units for the same product with
the order size limit error. -/
theorem auto_order_exceeds_cap :
    bulky.preValidate = bulky ∧ bulky.valid = true ∧ bulky.maxOrderQuantity = 100 ∧
    (checkAndAutoReorder quietEnv bulkyStore).orders.map
        (fun o => o.products.map (fun l => (l.product, l.quantity))) = [[(9, 200)]] ∧
    (autoRenewStock quietEnv bulkyStore).orders.map
        (fun o => o.products.map (fun l => (l.product, l.quantity))) = [[(9, 200)]] ∧
    createOrder hasAt quietEnv bulkyStore owner
        { products := [{ product := 9, quantity := .num 200 }] } =
      (.orderSizeLimitExceeded
        { productName := "Bulky", requestedQuantity := .num 200, maxOrderQuantity := 100 },
        bulkyStore) := by
  decide!

/-! ### C12: the bulk manual reorder -/

/-- The validators of the product schema do not read `lastRestocked`. -/
theorem valid_lastRestocked (p : Product) (t : Option Nat) :
    ({ p with lastRestocked := t } : Product).preValidate.valid = p.preValidate.valid := rfl

/-- One step of the bulk reorder in any environment: the id is appended to
exactly one of the two lists, to `errors` exactly when `bulkItemFails` says so;
the notifications are untouched. -/
theorem reorderOne_cases (env : Env) (user : ReqUser) (st : BulkState) (id : ObjectId) :
    (bulkItemFails env st.store id = true →
      (reorderOne env user st id).results = st.results ∧
      ∃ e, (reorderOne env user st id).errors = st.errors ++ [e] ∧ e.productId = id) ∧
    (bulkItemFails env st.store id = false →
      (reorderOne env user st id).errors = st.errors ∧
      ∃ r, (reorderOne env user st id).results = st.results ++ [r] ∧ r.productId = id) ∧
    (reorderOne env user st id).store.notifications = st.store.notifications := by
  simp only [reorderOne, bulkItemFails]
  cases hf : findProduct st.store id with
  | none => simp
  | some p =>
    have hid : p.id = id := by
      have := List.find?_some hf
      simpa using this
    have hA : ∀ (a : Bool) (t : Option Nat),
        ({ p with currentStock := p.currentStock + p.reorderQuantity, isActive := a,
                  lastRestocked := t } : Product).preValidate.valid =
          ({ p with currentStock := p.currentStock + p.reorderQuantity } :
            Product).preValidate.valid := fun _ _ => rfl
    simp only []
    cases hact : p.isActive with
    | false => simp
    | true =>
      by_cases hcap : p.currentStock + p.reorderQuantity > p.maxStockLevel
      · simp [hcap]
      by_cases hrq : p.reorderQuantity < 1
      · have hv : ¬ (1 ≤ p.reorderQuantity) := by omega
        simp [hcap, hrq, saveNewOrder, Order.valid, hv]
      by_cases hw : env.writeFails st.store.tick = true
      · have hv : 1 ≤ p.reorderQuantity := by omega
        simp [hcap, hrq, hw, saveNewOrder, Order.valid, hv]
      have hw0 : env.writeFails st.store.tick = false := by simpa using hw
      have hv : 1 ≤ p.reorderQuantity := by omega
      simp only [hcap, hrq, hw0, Bool.not_true, Bool.false_or, decide_False, if_false,
        Bool.false_eq_true]
      rw [saveNewOrder_ok env st.store _ hw0 (by simp [Order.valid, hv])]
      simp only [saveProduct, insertOrder, hA]
      by_cases hpv : ({ p with currentStock := p.currentStock + p.reorderQuantity } :
          Product).preValidate.valid = true
      swap
      · simp [hpv]
      by_cases hw1 : env.writeFails (st.store.tick + 1) = true
      · simp [hpv, hw1]
      have hw1f : env.writeFails (st.store.tick + 1) = false := by simpa using hw1
      simp only [hpv, hw1f, Bool.not_true, Bool.or_self, Bool.false_eq_true, if_false,
        false_implies, true_and, forall_const, true_implies]
      simp [replaceProduct, Product.preValidate, hid]

/-- The loop of the bulk reorder in any environment: every id adds one entry to
one of the two lists, and the notifications are untouched. -/
theorem foldl_reorderOne (env : Env) (user : ReqUser) :
    ∀ (ids : List ObjectId) (st : BulkState),
      (ids.foldl (reorderOne env user) st).results.length +
          (ids.foldl (reorderOne env user) st).errors.length =
        st.results.length + st.errors.length + ids.length ∧
      (ids.foldl (reorderOne env user) st).store.notifications = st.store.notifications := by
  intro ids
  induction ids with
  | nil => intro st; simp
  | cons id rest ih =>
    intro st
    obtain ⟨hfail, hok, hn⟩ := reorderOne_cases env user st id
    rw [List.foldl_cons]
    refine ⟨?_, (ih _).2.trans hn⟩
    rw [(ih _).1]
    cases hb : bulkItemFails env st.store id with
    | true =>
      obtain ⟨h1, e, h2, _⟩ := hfail hb
      rw [h1, h2]; simp; omega
    | false =>
      obtain ⟨h1, r, h2, _⟩ := hok hb
      rw [h1, h2]; simp; omega

/-- C12. For a non-empty list of product ids, in any environment: the bulk
reorder adds for every id, whatever happened to the ids before it, exactly one
entry naming it either to `results` or to `errors`, to `errors` exactly when the
product is missing or inactive, when its stock plus its reorder quantity
exceeds its maximum in the store as it is at that moment, or when processing
it raises; so the two lists have as many entries together as there are ids. If
`results` is empty no notification is created; if it is not empty and the write
of the summary notification does not fail, exactly one notification is created
and the response carries the two lists. -/
theorem bulk_reorder_partitions (env : Env) (s : Store) (user : ReqUser)
    (ids : List ObjectId) (hne : ids ≠ []) :
    (∀ (st : BulkState) (id : ObjectId),
      (bulkItemFails env st.store id = true →
        (reorderOne env user st id).results = st.results ∧
        ∃ e, (reorderOne env user st id).errors = st.errors ++ [e] ∧ e.productId = id) ∧
      (bulkItemFails env st.store id = false →
        (reorderOne env user st id).errors = st.errors ∧
        ∃ r, (reorderOne env user st id).results = st.results ++ [r] ∧ r.productId = id)) ∧
    (ids.foldl (reorderOne env user) { store := s }).results.length +
        (ids.foldl (reorderOne env user) { store := s }).errors.length = ids.length ∧
    ((ids.foldl (reorderOne env user) { store := s }).results = [] →
      reorderMultiple env s user ids =
        (.completed [] (ids.foldl (reorderOne env user) { store := s }).errors,
          (ids.foldl (reorderOne env user) { store := s }).store) ∧
      (reorderMultiple env s user ids).2.notifications = s.notifications) ∧
    ((ids.foldl (reorderOne env user) { store := s }).results ≠ [] →
      env.writeFails (ids.foldl (reorderOne env user) { store := s }).store.tick = false →
      (reorderMultiple env s user ids).1 =
        .completed (ids.foldl (reorderOne env user) { store := s }).results
          (ids.foldl (reorderOne env user) { store := s }).errors ∧
      ∃ n, (reorderMultiple env s user ids).2.notifications = s.notifications ++ [n] ∧
        n.recipient = user.id ∧
        n.data.totalProducts =
          some (ids.foldl (reorderOne env user) { store := s }).results.length) := by
  have hlen : ids.length ≠ 0 := fun h => hne (List.length_eq_zero.mp h)
  obtain ⟨hsum, hnot⟩ := foldl_reorderOne env user ids { store := s }
  refine ⟨?_, ?_, ?_, ?_⟩
  · intro st id
    exact ⟨(reorderOne_cases env user st id).1, (reorderOne_cases env user st id).2.1⟩
  · simpa using hsum
  · intro hres
    have hr : ¬ (ids.foldl (reorderOne env user) { store := s }).results.length > 0 := by
      rw [hres]; simp
    simp only [reorderMultiple, hlen, if_false, hr]
    exact ⟨by rw [hres], hnot⟩
  · intro hres hw
    have hr : (ids.foldl (reorderOne env user) { store := s }).results.length > 0 :=
      List.length_pos.mpr hres
    simp only [reorderMultiple, hlen, if_false, hr, if_true, saveNotification, hw,
      Bool.false_eq_true]
    exact ⟨trivial, _, by rw [hnot], rfl, rfl⟩

/-- The scenario of C12: three ids of which the second is the inactive
`retired` give two results (for `beans` and `salt`), one error naming the
second id, and one notification. -/
theorem bulk_reorder_partitions_witness :
    (([2, 10, 3] : List ObjectId).foldl (reorderOne quietEnv owner)
          { store := bulkStore }).results.length +
        (([2, 10, 3] : List ObjectId).foldl (reorderOne quietEnv owner)
          { store := bulkStore }).errors.length =
      ([2, 10, 3] : List ObjectId).length ∧
    (reorderMultiple quietEnv bulkStore owner [2, 10, 3]).1 =
      .completed (reorderMultiple quietEnv bulkStore owner [2, 10, 3]).1.results
        [{ productId := 10, error := .notFoundOrInactive }] ∧
    (reorderMultiple quietEnv bulkStore owner [2, 10, 3]).1.results.map
      (fun r => (r.productId, r.quantity)) = [(2, 10), (3, 10)] ∧
    (reorderMultiple quietEnv bulkStore owner [2, 10, 3]).2.notifications.length = 1 ∧
    (reorderMultiple quietEnv bulkStore owner [2, 10, 3]).2.products.map
      (fun p => p.currentStock) = [12, 2, 12] :=
  ⟨(bulk_reorder_partitions quietEnv bulkStore owner [2, 10, 3] (by simp)).2.1,
    by decide!, by decide!, by decide!, by decide!⟩

/-! ### C17: the two effects of the manual reorder -/

/-- The outcomes of the manual reorder in any environment: nothing is created
and no product changes; or a confirmed manual order with the reorder line of
the product is appended and either the stored product has the stock raised by
the reorder quantity, or the save of the restocked product failed (the product
schema rejected it or its write failed), the request answers with a server
error and no product has changed. -/
theorem reorder_cases (env : Env) (s : Store) (user : ReqUser) (id : ObjectId) :
    ((reorder env s user id).2.orders = s.orders ∧
      (reorder env s user id).2.products = s.products) ∨
    (∃ p o, findProduct s id = some p ∧
      (reorder env s user id).2.orders = s.orders ++ [o] ∧
      o.status = .confirmed ∧ o.orderType = .manual ∧ o.products = [reorderLine p] ∧
      ((∃ saved, findProduct (reorder env s user id).2 id = some saved ∧
          saved.currentStock = p.currentStock + p.reorderQuantity) ∨
        ((reorder env s user id).2.products = s.products ∧
          (reorder env s user id).1 = .serverError ∧
          (({ p with currentStock := p.currentStock + p.reorderQuantity } :
              Product).preValidate.valid = false ∨
            env.writeFails (s.tick + 1) = true)))) := by
  simp only [reorder]
  cases hf : findProduct s id with
  | none => exact Or.inl ⟨rfl, rfl⟩
  | some p =>
    have hid : p.id = id := by
      have := List.find?_some hf
      simpa using this
    have hA : ∀ (a : Bool) (t : Option Nat),
        ({ p with currentStock := p.currentStock + p.reorderQuantity, isActive := a,
                  lastRestocked := t } : Product).preValidate.valid =
          ({ p with currentStock := p.currentStock + p.reorderQuantity } :
            Product).preValidate.valid := fun _ _ => rfl
    simp only []
    cases hact : p.isActive with
    | false => exact Or.inl ⟨rfl, rfl⟩
    | true =>
      simp only [Bool.not_true, Bool.false_eq_true, if_false]
      by_cases hcap : p.currentStock + p.reorderQuantity > p.maxStockLevel
      · simp [hcap]
      simp only [hcap, if_false]
      by_cases hrq : p.reorderQuantity < 1
      · have hv : ¬ (1 ≤ p.reorderQuantity) := by omega
        left
        simp [saveNewOrder, Order.valid, hv]
      have hv : 1 ≤ p.reorderQuantity := by omega
      by_cases hw : env.writeFails s.tick = true
      · left
        simp [saveNewOrder, Order.valid, hv, hw]
      have hw0 : env.writeFails s.tick = false := by simpa using hw
      rw [saveNewOrder_ok env s _ hw0 (by simp [Order.valid, hv])]
      have hprops : ∀ o1 : Order, Order.preSave (env.clock s.tick) (env.random s.tick)
          { id := env.newId s.tick
            products := [{
              product := p.id
              quantity := p.reorderQuantity
              unitPrice := p.costPrice
              totalPrice := p.reorderQuantity * p.costPrice }]
            business := p.business
            status := .confirmed
            orderType := .manual
            supplier := some p.supplier
            expectedDeliveryDate := some (env.clock s.tick + twoDays)
            createdBy := user.id
            notes := some ("Auto-reorder for " ++ p.name ++ " - Low stock alert triggered") }
            = o1 →
          o1.status = .confirmed ∧ o1.orderType = .manual ∧ o1.products = [reorderLine p] := by
        intro o1 ho1
        subst ho1
        simp only [Order.preSave, Order.preSaveTotal, Order.preSaveNumber, reorderLine]
        simp
      generalize Order.preSave (env.clock s.tick) (env.random s.tick) _ = o1 at hprops ⊢
      obtain ⟨q1, q2, q3⟩ := hprops o1 rfl
      right
      refine ⟨p, o1, rfl, ?_⟩
      simp only [saveProduct, insertOrder, hA]
      by_cases hpv : ({ p with currentStock := p.currentStock + p.reorderQuantity } :
          Product).preValidate.valid = true
      swap
      · have hpvf : ({ p with currentStock := p.currentStock + p.reorderQuantity } :
            Product).preValidate.valid = false := by simpa using hpv
        simp only [hpvf, Bool.not_false, if_true]
        exact ⟨(by first | rfl | trivial), q1, q2, q3, Or.inr ⟨(by first | rfl | trivial), (by first | rfl | trivial), Or.inl (by first | rfl | trivial)⟩⟩
      simp only [hpv, Bool.not_true, Bool.false_eq_true, if_false]
      by_cases hw1 : env.writeFails (s.tick + 1) = true
      · simp only [hw1, if_true]
        exact ⟨(by first | rfl | trivial), q1, q2, q3, Or.inr ⟨(by first | rfl | trivial), (by first | rfl | trivial), Or.inr (by first | rfl | trivial)⟩⟩
      have hw1f : env.writeFails (s.tick + 1) = false := by simpa using hw1
      simp only [hw1f, Bool.false_eq_true, if_false, saveNotification, replaceProduct]
      have hfound : (s.products.map (fun q =>
          if q.id = ({ p with currentStock := p.currentStock + p.reorderQuantity,
                              isActive := true,
                              lastRestocked := some (env.clock (s.tick + 1)) } :
                Product).preValidate.id
          then ({ p with currentStock := p.currentStock + p.reorderQuantity,
                         isActive := true,
                         lastRestocked := some (env.clock (s.tick + 1)) } :
                Product).preValidate
          else q)).find? (fun q => q.id == id) =
          some ({ p with currentStock := p.currentStock + p.reorderQuantity,
                         isActive := true,
                         lastRestocked := some (env.clock (s.tick + 1)) } :
                Product).preValidate :=
        find?_map_replace _ _ p _ hf (by simp [Product.preValidate])
          (by simp [Product.preValidate, hid])
      split_ifs
      · exact ⟨rfl, q1, q2, q3, Or.inl ⟨_, hfound, by simp [Product.preValidate]⟩⟩
      · exact ⟨rfl, q1, q2, q3, Or.inl ⟨_, hfound, by simp [Product.preValidate]⟩⟩

/-- C17, as stated, fails: for `beans` in an environment in which the second
write, the one of the product, fails, the request answers with a server error,
the confirmed manual order with the line of 10 units has been created, and the
stock of `beans` is still 2. -/
theorem order_without_restock_counterexample :
    secondWriteFailsEnv.writeFails 1 = true ∧
    (reorder secondWriteFailsEnv beansStore owner 2).1 = .serverError ∧
    (reorder secondWriteFailsEnv beansStore owner 2).2.orders.map
        (fun o => (o.status, o.orderType, o.products)) =
      [(.confirmed, .manual, [reorderLine beans])] ∧
    (reorder secondWriteFailsEnv beansStore owner 2).2.products.map
        (fun p => p.currentStock) = [2] := by
  decide!

/-- C17, amended. In every outcome of a manual reorder request, in any
environment, either no order has been created and no product has changed; or
a confirmed manual order with the single line of `reorderQuantity` units has
been created and the stored product has its stock raised by `reorderQuantity`;
or that order has been created and the save of the restocked product failed
(the product schema rejected it or its write failed): then the request answers
with a server error, the order remains and no product has changed. So when
the save of the product cannot fail, the two effects come together or not at
all. -/
theorem reorder_atomic_unless_product_save_fails (env : Env) (s : Store) (user : ReqUser)
    (id : ObjectId) :
    (((reorder env s user id).2.orders = s.orders ∧
        (reorder env s user id).2.products = s.products) ∨
      (∃ p o, findProduct s id = some p ∧
        (reorder env s user id).2.orders = s.orders ++ [o] ∧
        o.status = .confirmed ∧ o.orderType = .manual ∧ o.products = [reorderLine p] ∧
        ((∃ saved, findProduct (reorder env s user id).2 id = some saved ∧
            saved.currentStock = p.currentStock + p.reorderQuantity) ∨
          ((reorder env s user id).2.products = s.products ∧
            (reorder env s user id).1 = .serverError ∧
            (({ p with currentStock := p.currentStock + p.reorderQuantity } :
                Product).preValidate.valid = false ∨
              env.writeFails (s.tick + 1) = true))))) ∧
    (∀ p, findProduct s id = some p →
      ({ p with currentStock := p.currentStock + p.reorderQuantity } :
        Product).preValidate.valid = true →
      env.writeFails (s.tick + 1) = false →
      (((reorder env s user id).2.orders = s.orders ∧
          (reorder env s user id).2.products = s.products) ∨
        (∃ o saved, (reorder env s user id).2.orders = s.orders ++ [o] ∧
          o.status = .confirmed ∧ o.orderType = .manual ∧ o.products = [reorderLine p] ∧
          findProduct (reorder env s user id).2 id = some saved ∧
          saved.currentStock = p.currentStock + p.reorderQuantity))) := by
  refine ⟨reorder_cases env s user id, ?_⟩
  intro p hp hv hw
  rcases reorder_cases env s user id with h | ⟨p1, o, hp1, ho, q1, q2, q3, h⟩
  · exact Or.inl h
  · have hpp : p1 = p := by
      rw [hp] at hp1
      exact (Option.some.inj hp1).symm
    subst hpp
    rcases h with ⟨saved, hs1, hs2⟩ | ⟨_, _, hbad⟩
    · exact Or.inr ⟨o, saved, ho, q1, q2, q3, hs1, hs2⟩
    · rcases hbad with hbad | hbad
      · rw [hv] at hbad; cases hbad
      · rw [hw] at hbad; cases hbad

/-- The example of C17: in `quietEnv`, where no write fails, the reorder of
`beans` creates the confirmed order and raises the stock from 2 to 12. -/
theorem reorder_atomic_unless_product_save_fails_witness :
    (((reorder quietEnv beansStore owner 2).2.orders = beansStore.orders ∧
        (reorder quietEnv beansStore owner 2).2.products = beansStore.products) ∨
      (∃ o saved, (reorder quietEnv beansStore owner 2).2.orders = beansStore.orders ++ [o] ∧
        o.status = .confirmed ∧ o.orderType = .manual ∧ o.products = [reorderLine beans] ∧
        findProduct (reorder quietEnv beansStore owner 2).2 2 = some saved ∧
        saved.currentStock = beans.currentStock + beans.reorderQuantity)) ∧
    (reorder quietEnv beansStore owner 2).2.orders.length = 1 ∧
    (reorder quietEnv beansStore owner 2).2.products.map (fun p => p.currentStock) = [12] :=
  ⟨(reorder_atomic_unless_product_save_fails quietEnv beansStore owner 2).2 beans
      (by decide!) (by decide!) rfl,
    by decide!, by decide!⟩

/-! ### Lemmas on the lines of manual orders -/

/-- A product found by id is a product of the store with this id. -/
theorem findProduct_some (s : Store) (id : ObjectId) (p : Product)
    (h : findProduct s id = some p) : p ∈ s.products ∧ p.id = id := by
  refine ⟨List.mem_of_find?_eq_some h, ?_⟩
  have := List.find?_some h
  simpa using this

/-- A line priced at the cost price of the product found by its id is priced
from the products of the store. -/
theorem linePriced_of_find (s : Store) (l : OrderLine) (p : Product)
    (hf : findProduct s l.product = some p) (hu : l.unitPrice = p.costPrice)
    (ht : l.totalPrice = l.quantity * l.unitPrice) : LinePricedFrom s.products l :=
  ⟨p, (findProduct_some s _ p hf).1, (findProduct_some s _ p hf).2, hu, ht⟩

/-- The reorder line of a product of a list is priced from the list. -/
theorem reorderLine_priced (products : List Product) (p : Product) (hp : p ∈ products) :
    LinePricedFrom products (reorderLine p) :=
  ⟨p, hp, rfl, rfl, rfl⟩

/-- When the loop over the requested lines goes through, every requested line
references an existing product and does not exceed its maximum order quantity,
and every line that is stored references a product of the store, is within
its maximum order quantity and is priced at its cost price. -/
theorem buildLines_ok (s : Store) :
    ∀ (items : List OrderItemBody) (drafts : List (Option OrderLine)),
      buildLines s items = .ok drafts →
      (∀ item ∈ items, ∃ p, findProduct s item.product = some p ∧
        jsGt item.quantity p.maxOrderQuantity = false) ∧
      (∀ lines, castLines drafts = some lines → ∀ l ∈ lines,
        ∃ p, findProduct s l.product = some p ∧ l.quantity ≤ p.maxOrderQuantity ∧
          l.unitPrice = p.costPrice ∧ l.totalPrice = l.quantity * l.unitPrice) := by
  intro items
  induction items with
  | nil =>
    intro drafts h
    simp only [buildLines, Except.ok.injEq] at h
    subst h
    refine ⟨by simp, ?_⟩
    intro lines hl
    simp only [castLines, Option.some.injEq] at hl
    subst hl
    simp
  | cons item rest ih =>
    intro drafts h
    simp only [buildLines] at h
    cases hf : findProduct s item.product with
    | none => simp [hf] at h
    | some p =>
      simp only [hf] at h
      cases hgt : jsGt item.quantity p.maxOrderQuantity with
      | true => simp [hgt] at h
      | false =>
        simp only [hgt, Bool.false_eq_true, if_false] at h
        cases hr : buildLines s rest with
        | error e => simp [hr] at h
        | ok ds =>
          simp only [hr, Except.ok.injEq] at h
          subst h
          obtain ⟨ih1, ih2⟩ := ih ds hr
          refine ⟨?_, ?_⟩
          · intro i hi
            rcases List.mem_cons.mp hi with hi | hi
            · subst hi; exact ⟨p, hf, hgt⟩
            · exact ih1 i hi
          · intro lines hl
            simp only [priceLine] at hl
            cases hq : item.quantity.toNumber with
            | none => simp [hq, castLines] at hl
            | some n =>
              simp only [hq, castLines] at hl
              cases hc : castLines ds with
              | none => simp [hc] at hl
              | some ls =>
                simp only [hc, Option.map_some', Option.some.injEq] at hl
                subst hl
                intro l hlmem
                rcases List.mem_cons.mp hlmem with hl1 | hl1
                · subst hl1
                  obtain ⟨_, hpid⟩ := findProduct_some s _ p hf
                  have hle : n ≤ p.maxOrderQuantity := by
                    simp only [jsGt, hq, decide_eq_false_iff_not, not_lt] at hgt
                    exact hgt
                  refine ⟨p, ?_, hle, rfl, by simp [mul_comm]⟩
                  simp only [hpid]
                  exact hf
                · exact ih2 ls hc l hl1

/-- The loop over the requested lines ends with the order size limit error of
the first line that exceeds its product's maximum order quantity, when every
line before it references an existing product and stays within the limit. -/
theorem buildLines_first_offender (s : Store) (item : OrderItemBody) (post : List OrderItemBody)
    (p : Product) (hp : findProduct s item.product = some p)
    (hgt : jsGt item.quantity p.maxOrderQuantity = true) :
    ∀ (pre : List OrderItemBody),
      (∀ i ∈ pre, ∃ q, findProduct s i.product = some q ∧
        jsGt i.quantity q.maxOrderQuantity = false) →
      buildLines s (pre ++ item :: post) =
        .error (.orderSizeLimitExceeded {
          productName := p.name
          requestedQuantity := item.quantity
          maxOrderQuantity := p.maxOrderQuantity }) := by
  intro pre
  induction pre with
  | nil =>
    intro _
    simp [buildLines, hp, hgt]
  | cons i rest ih =>
    intro hpre
    obtain ⟨q, hq, hle⟩ := hpre i (List.mem_cons_self _ _)
    have := ih (fun j hj => hpre j (List.mem_cons_of_mem _ hj))
    simp [buildLines, hq, hle, this]

/-- The loop over the requested lines ends with a rejection as soon as some
line exceeds the maximum order quantity of its product. -/
theorem buildLines_rejects (s : Store) (items : List OrderItemBody)
    (h : ∃ item ∈ items, ∃ p, findProduct s item.product = some p ∧
      jsGt item.quantity p.maxOrderQuantity = true) :
    ∃ e, buildLines s items = .error e := by
  cases hb : buildLines s items with
  | error e => exact ⟨e, rfl⟩
  | ok drafts =>
    exfalso
    obtain ⟨item, hi, p, hp, hgt⟩ := h
    obtain ⟨q, hq, hle⟩ := (buildLines_ok s items drafts hb).1 item hi
    rw [hp] at hq
    cases hq
    rw [hgt] at hle
    cases hle

/-- The pre-save hooks of the order schema keep the lines, the id, the status
and the type of an order. -/
theorem preSave_fields (now : Nat) (r : ℚ) (o : Order) :
    (o.preSave now r).products = o.products ∧ (o.preSave now r).id = o.id ∧
    (o.preSave now r).status = o.status ∧ (o.preSave now r).orderType = o.orderType := by
  simp only [Order.preSave, Order.preSaveNumber, Order.preSaveTotal]
  split_ifs <;> exact ⟨rfl, rfl, rfl, rfl⟩

/-- The save of a new order touches no product and no payment; it either throws and
leaves the orders alone, or appends the order it returns, which has the lines,
the status and the type of the order given. -/
theorem saveNewOrder_cases (env : Env) (s : Store) (o : Order) :
    (saveNewOrder env s o).2.products = s.products ∧
    (((saveNewOrder env s o).1 = none ∧ (saveNewOrder env s o).2.orders = s.orders) ∨
      ∃ o1, (saveNewOrder env s o).1 = some o1 ∧ o1.products = o.products ∧
        o1.status = o.status ∧ o1.orderType = o.orderType ∧ o.valid = true ∧
        (saveNewOrder env s o).2.orders = s.orders ++ [o1]) := by
  obtain ⟨h1, _, h3, h4⟩ := preSave_fields (env.clock s.tick) (env.random s.tick) o
  simp only [saveNewOrder, insertOrder]
  split_ifs with hv hw
  · exact ⟨rfl, Or.inl ⟨rfl, rfl⟩⟩
  · exact ⟨rfl, Or.inl ⟨rfl, rfl⟩⟩
  · exact ⟨rfl, Or.inr ⟨_, rfl, h1, h3, h4, by simpa using hv, rfl⟩⟩

/-- The save of a stored order touches no product; it either throws and leaves
the orders alone, or replaces, by id, the stored order with the order it
returns, which has the lines, the id and the status of the order given. -/
theorem saveOrder_cases (env : Env) (s : Store) (o : Order) :
    (saveOrder env s o).2.products = s.products ∧
    (((saveOrder env s o).1 = none ∧ (saveOrder env s o).2.orders = s.orders) ∨
      ∃ o1, (saveOrder env s o).1 = some o1 ∧ o1.products = o.products ∧ o1.id = o.id ∧
        o1.status = o.status ∧ o.valid = true ∧ env.writeFails s.tick = false ∧
        (saveOrder env s o).2.orders = s.orders.map (fun q => if q.id = o.id then o1 else q)) := by
  obtain ⟨h1, h2, h3, _⟩ := preSave_fields (env.clock s.tick) (env.random s.tick) o
  simp only [saveOrder, replaceOrder]
  split_ifs with hv hw
  · exact ⟨rfl, Or.inl ⟨rfl, rfl⟩⟩
  · exact ⟨rfl, Or.inl ⟨rfl, rfl⟩⟩
  · exact ⟨rfl, Or.inr ⟨_, rfl, h1, h2, h3, by simpa using hv, by simpa using hw, by rw [h2]⟩⟩

/-- The loop over the requested lines ends early only with the missing product
or with the order size limit response. -/
theorem buildLines_error (s : Store) :
    ∀ (items : List OrderItemBody) (e : OrderResponse), buildLines s items = .error e →
      (∃ id, e = .productNotFound id) ∨ (∃ payload, e = .orderSizeLimitExceeded payload) := by
  intro items
  induction items with
  | nil => intro e h; simp [buildLines] at h
  | cons item rest ih =>
    intro e h
    simp only [buildLines] at h
    cases hf : findProduct s item.product with
    | none =>
      simp only [hf, Except.error.injEq] at h
      exact Or.inl ⟨_, h.symm⟩
    | some p =>
      simp only [hf] at h
      split_ifs at h with hgt
      · simp only [Except.error.injEq] at h
        exact Or.inr ⟨_, h.symm⟩
      · cases hr : buildLines s rest with
        | error e1 =>
          simp only [hr, Except.error.injEq] at h
          subst h
          exact ih _ hr
        | ok ds => simp [hr] at h

/-- The order create endpoint in any environment: no product changes; either
no order is stored and the answer is not the success, or the loop over the
requested lines went through and one manual order with the lines it priced is
appended. -/
theorem createOrder_cases (isEmail : String → Bool) (env : Env) (s : Store) (user : ReqUser)
    (b : OrderBody) :
    (createOrder isEmail env s user b).2.products = s.products ∧
    (((createOrder isEmail env s user b).2.orders = s.orders ∧
        ∀ o, (createOrder isEmail env s user b).1 ≠ .created o) ∨
      ∃ drafts o, buildLines s b.products = .ok drafts ∧ castLines drafts = some o.products ∧
        o.orderType = .manual ∧
        (createOrder isEmail env s user b).2.orders = s.orders ++ [o] ∧
        ((createOrder isEmail env s user b).1 = .created o ∨
          (createOrder isEmail env s user b).1 = .serverError)) := by
  simp only [createOrder]
  split_ifs with hvalid
  · exact ⟨rfl, Or.inl ⟨rfl, by simp⟩⟩
  cases hb : buildLines s b.products with
  | error e =>
    refine ⟨rfl, Or.inl ⟨rfl, ?_⟩⟩
    intro o ho
    simp only [] at ho
    subst ho
    rcases buildLines_error s _ _ hb with ⟨_, h⟩ | ⟨_, h⟩ <;> cases h
  | ok drafts =>
    simp only []
    cases hc : castLines drafts with
    | none => exact ⟨rfl, Or.inl ⟨rfl, by simp⟩⟩
    | some lines =>
      simp only []
      generalize hord : ({
          id := env.newId s.tick
          products := lines
          totalAmount := some (lines.foldl (fun total item => total + item.totalPrice) 0)
          supplier := b.supplier.map (fun x => { x with name := trimString x.name })
          expectedDeliveryDate := b.expectedDeliveryDate
          notes := b.notes
          createdBy := user.id
          business := user.currentBusiness
          orderType := .manual } : Order) = order
      have hp : order.products = lines := by rw [← hord]
      have ht : order.orderType = .manual := by rw [← hord]
      obtain ⟨hprod, hcase⟩ := saveNewOrder_cases env s order
      cases hsv : saveNewOrder env s order with
      | mk res s1 =>
        rw [hsv] at hprod hcase
        simp only [] at hprod hcase
        cases res with
        | none =>
          rcases hcase with ⟨_, ho⟩ | ⟨o1, h, _⟩
          · exact ⟨hprod, Or.inl ⟨ho, by simp⟩⟩
          · cases h
        | some saved =>
          rcases hcase with ⟨h, _⟩ | ⟨o1, h, hp1, _, ht1, _, ho⟩
          · cases h
          · cases h
            simp only []
            generalize hnote : ({
                business := some user.currentBusiness
                title := "New Order Created"
                type := .order_placed
                priority := some .medium
                recipient := user.id
                data := { orderId := some saved.id, orderNumber := saved.orderNumber } } :
                  Notification) = note
            obtain ⟨f1, f2, _⟩ := saveNotification_frame env s1 note
            cases hsn : saveNotification env s1 note with
            | mk res2 s2 =>
              rw [hsn] at f1 f2
              simp only [] at f1 f2
              cases res2 with
              | none =>
                exact ⟨f1.trans hprod, Or.inr ⟨drafts, saved, rfl, by rw [hp1, hp]; exact hc,
                  by rw [ht1, ht], f2.trans ho, Or.inr rfl⟩⟩
              | some _ =>
                exact ⟨f1.trans hprod, Or.inr ⟨drafts, saved, rfl, by rw [hp1, hp]; exact hc,
                  by rw [ht1, ht], f2.trans ho, Or.inl rfl⟩⟩

/-- The order edit endpoint in any environment: no product changes; when the
answer is the success, the stored order with the id is replaced by the order of
the answer, whose lines, when lines were submitted, are those the loop over the
submitted lines priced; with any other answer no order changes. -/
theorem editOrder_cases (env : Env) (s : Store) (id : ObjectId) (b : OrderBody) :
    (editOrder env s id b).2.products = s.products ∧
    (∀ saved, (editOrder env s id b).1 = .updated saved →
      saved.id = id ∧
      (editOrder env s id b).2.orders =
        s.orders.map (fun q => if q.id = id then saved else q) ∧
      (b.products ≠ [] → ∃ drafts, buildLines s b.products = .ok drafts ∧
        castLines drafts = some saved.products)) ∧
    ((∀ saved, (editOrder env s id b).1 ≠ .updated saved) →
      (editOrder env s id b).2.orders = s.orders) := by
  simp only [editOrder]
  cases hf : findOrder s id with
  | none => exact ⟨rfl, by simp, fun _ => rfl⟩
  | some order =>
    have hid : order.id = id := by
      have := List.find?_some hf
      simpa using this
    simp only []
    by_cases hst : order.status = .delivered ∨ order.status = .cancelled
    · simp only [hst, if_true]
      exact ⟨trivial, by simp, fun _ => trivial⟩
    simp only [hst, if_false]
    have hsave : ∀ (order1 : Order), order1.id = id →
        (b.products ≠ [] → ∃ drafts, buildLines s b.products = .ok drafts ∧
          castLines drafts = some order1.products) →
        (match saveOrder env s order1 with
          | (none, s1) => (OrderResponse.serverError, s1)
          | (some saved, s1) => (OrderResponse.updated saved, s1)).2.products = s.products ∧
        (∀ saved, (match saveOrder env s order1 with
            | (none, s1) => (OrderResponse.serverError, s1)
            | (some saved, s1) => (OrderResponse.updated saved, s1)).1 = .updated saved →
          saved.id = id ∧
          (match saveOrder env s order1 with
            | (none, s1) => (OrderResponse.serverError, s1)
            | (some saved, s1) => (OrderResponse.updated saved, s1)).2.orders =
            s.orders.map (fun q => if q.id = id then saved else q) ∧
          (b.products ≠ [] → ∃ drafts, buildLines s b.products = .ok drafts ∧
            castLines drafts = some saved.products)) ∧
        ((∀ saved, (match saveOrder env s order1 with
            | (none, s1) => (OrderResponse.serverError, s1)
            | (some saved, s1) => (OrderResponse.updated saved, s1)).1 ≠ .updated saved) →
          (match saveOrder env s order1 with
            | (none, s1) => (OrderResponse.serverError, s1)
            | (some saved, s1) => (OrderResponse.updated saved, s1)).2.orders = s.orders) := by
      intro order1 hid1 hlines
      obtain ⟨hprod, hcase⟩ := saveOrder_cases env s order1
      cases hsv : saveOrder env s order1 with
      | mk res s1 =>
        rw [hsv] at hprod hcase
        simp only [] at hprod hcase
        cases res with
        | none =>
          rcases hcase with ⟨_, ho⟩ | ⟨o1, h, _⟩
          · exact ⟨hprod, by simp, fun _ => ho⟩
          · cases h
        | some saved =>
          rcases hcase with ⟨h, _⟩ | ⟨o1, h, hp1, hi1, _, _, _, ho⟩
          · cases h
          · cases h
            refine ⟨hprod, ?_, ?_⟩
            · intro saved1 h1
              simp only [OrderResponse.updated.injEq] at h1
              subst h1
              refine ⟨hi1.trans hid1, ?_, ?_⟩
              · simp only []
                rw [ho, hid1]
              · intro hne
                rw [hp1]
                exact hlines hne
            · intro h
              exact absurd rfl (h saved)
    by_cases hlen : b.products.length > 0
    · have hne : b.products ≠ [] := by
        intro h; rw [h] at hlen; simp at hlen
      simp only [hlen, if_true]
      cases hb : buildLines s b.products with
      | error e =>
        simp only []
        refine ⟨trivial, ?_, fun _ => trivial⟩
        intro saved h
        subst h
        rcases buildLines_error s _ _ hb with ⟨_, h⟩ | ⟨_, h⟩ <;> cases h
      | ok drafts =>
        simp only []
        cases hc : castLines drafts with
        | none => exact ⟨rfl, by simp, fun _ => rfl⟩
        | some lines =>
          simp only []
          rw [hb] at hsave
          refine hsave _ ?_ ?_
          · exact hid
          · exact fun _ => ⟨drafts, rfl, hc⟩
    · have he : b.products = [] := by
        cases hbp : b.products with
        | nil => rfl
        | cons a t => rw [hbp] at hlen; simp at hlen
      simp only [hlen, if_false]
      exact hsave _ (by exact hid) (fun h => absurd he h)

/-! ### Lemmas on the order edit under any reading of the quantities -/

/-- When the loop over the requested lines goes through, every requested line
references an existing product and does not exceed its maximum order quantity,
and every line that is stored references a product of the store, is within
its maximum order quantity and is priced at its cost price. -/
theorem buildLinesBy_ok (read : JsVal → Option Int) (s : Store) :
    ∀ (items : List OrderItemBody) (drafts : List (Option OrderLine)),
      buildLinesBy read s items = .ok drafts →
      (∀ item ∈ items, ∃ p, findProduct s item.product = some p ∧
        gtBy read item.quantity p.maxOrderQuantity = false) ∧
      (∀ lines, castLines drafts = some lines → ∀ l ∈ lines,
        ∃ p, findProduct s l.product = some p ∧ l.quantity ≤ p.maxOrderQuantity ∧
          l.unitPrice = p.costPrice ∧ l.totalPrice = l.quantity * l.unitPrice) := by
  intro items
  induction items with
  | nil =>
    intro drafts h
    simp only [buildLinesBy, Except.ok.injEq] at h
    subst h
    refine ⟨by simp, ?_⟩
    intro lines hl
    simp only [castLines, Option.some.injEq] at hl
    subst hl
    simp
  | cons item rest ih =>
    intro drafts h
    simp only [buildLinesBy] at h
    cases hf : findProduct s item.product with
    | none => simp [hf] at h
    | some p =>
      simp only [hf] at h
      cases hgt : gtBy read item.quantity p.maxOrderQuantity with
      | true => simp [hgt] at h
      | false =>
        simp only [hgt, Bool.false_eq_true, if_false] at h
        cases hr : buildLinesBy read s rest with
        | error e => simp [hr] at h
        | ok ds =>
          simp only [hr, Except.ok.injEq] at h
          subst h
          obtain ⟨ih1, ih2⟩ := ih ds hr
          refine ⟨?_, ?_⟩
          · intro i hi
            rcases List.mem_cons.mp hi with hi | hi
            · subst hi; exact ⟨p, hf, hgt⟩
            · exact ih1 i hi
          · intro lines hl
            simp only [priceLineBy] at hl
            cases hq : read item.quantity with
            | none => simp [hq, castLines] at hl
            | some n =>
              simp only [hq, castLines] at hl
              cases hc : castLines ds with
              | none => simp [hc] at hl
              | some ls =>
                simp only [hc, Option.map_some', Option.some.injEq] at hl
                subst hl
                intro l hlmem
                rcases List.mem_cons.mp hlmem with hl1 | hl1
                · subst hl1
                  obtain ⟨_, hpid⟩ := findProduct_some s _ p hf
                  have hle : n ≤ p.maxOrderQuantity := by
                    simp only [gtBy, hq, decide_eq_false_iff_not, not_lt] at hgt
                    exact hgt
                  refine ⟨p, ?_, hle, rfl, by simp [mul_comm]⟩
                  simp only [hpid]
                  exact hf
                · exact ih2 ls hc l hl1

/-- The loop over the requested lines ends with the order size limit error of
the first line that exceeds its product's maximum order quantity, when every
line before it references an existing product and stays within the limit. -/
theorem buildLinesBy_first_offender (read : JsVal → Option Int) (s : Store) (item : OrderItemBody) (post : List OrderItemBody)
    (p : Product) (hp : findProduct s item.product = some p)
    (hgt : gtBy read item.quantity p.maxOrderQuantity = true) :
    ∀ (pre : List OrderItemBody),
      (∀ i ∈ pre, ∃ q, findProduct s i.product = some q ∧
        gtBy read i.quantity q.maxOrderQuantity = false) →
      buildLinesBy read s (pre ++ item :: post) =
        .error (.orderSizeLimitExceeded {
          productName := p.name
          requestedQuantity := item.quantity
          maxOrderQuantity := p.maxOrderQuantity }) := by
  intro pre
  induction pre with
  | nil =>
    intro _
    simp [buildLinesBy, hp, hgt]
  | cons i rest ih =>
    intro hpre
    obtain ⟨q, hq, hle⟩ := hpre i (List.mem_cons_self _ _)
    have := ih (fun j hj => hpre j (List.mem_cons_of_mem _ hj))
    simp [buildLinesBy, hq, hle, this]

/-- The loop over the requested lines ends with a rejection as soon as some
line exceeds the maximum order quantity of its product. -/
theorem buildLinesBy_rejects (read : JsVal → Option Int) (s : Store) (items : List OrderItemBody)
    (h : ∃ item ∈ items, ∃ p, findProduct s item.product = some p ∧
      gtBy read item.quantity p.maxOrderQuantity = true) :
    ∃ e, buildLinesBy read s items = .error e := by
  cases hb : buildLinesBy read s items with
  | error e => exact ⟨e, rfl⟩
  | ok drafts =>
    exfalso
    obtain ⟨item, hi, p, hp, hgt⟩ := h
    obtain ⟨q, hq, hle⟩ := (buildLinesBy_ok read s items drafts hb).1 item hi
    rw [hp] at hq
    cases hq
    rw [hgt] at hle
    cases hle

/-- The loop over the requested lines ends early only with the missing product
or with the order size limit response. -/
theorem buildLinesBy_error (read : JsVal → Option Int) (s : Store) :
    ∀ (items : List OrderItemBody) (e : OrderResponse), buildLinesBy read s items = .error e →
      (∃ id, e = .productNotFound id) ∨ (∃ payload, e = .orderSizeLimitExceeded payload) := by
  intro items
  induction items with
  | nil => intro e h; simp [buildLinesBy] at h
  | cons item rest ih =>
    intro e h
    simp only [buildLinesBy] at h
    cases hf : findProduct s item.product with
    | none =>
      simp only [hf, Except.error.injEq] at h
      exact Or.inl ⟨_, h.symm⟩
    | some p =>
      simp only [hf] at h
      split_ifs at h with hgt
      · simp only [Except.error.injEq] at h
        exact Or.inr ⟨_, h.symm⟩
      · cases hr : buildLinesBy read s rest with
        | error e1 =>
          simp only [hr, Except.error.injEq] at h
          subst h
          exact ih _ hr
        | ok ds => simp [hr] at h

/-- The order edit endpoint in any environment: no product changes; when the
answer is the success, the stored order with the id is replaced by the order of
the answer, whose lines, when lines were submitted, are those the loop over the
submitted lines priced; with any other answer no order changes. -/
theorem editOrderBy_cases (read : JsVal → Option Int) (env : Env) (s : Store) (id : ObjectId) (b : OrderBody) :
    (editOrderBy read env s id b).2.products = s.products ∧
    (∀ saved, (editOrderBy read env s id b).1 = .updated saved →
      saved.id = id ∧
      (editOrderBy read env s id b).2.orders =
        s.orders.map (fun q => if q.id = id then saved else q) ∧
      (b.products ≠ [] → ∃ drafts, buildLinesBy read s b.products = .ok drafts ∧
        castLines drafts = some saved.products)) ∧
    ((∀ saved, (editOrderBy read env s id b).1 ≠ .updated saved) →
      (editOrderBy read env s id b).2.orders = s.orders) := by
  simp only [editOrderBy]
  cases hf : findOrder s id with
  | none => exact ⟨rfl, by simp, fun _ => rfl⟩
  | some order =>
    have hid : order.id = id := by
      have := List.find?_some hf
      simpa using this
    simp only []
    by_cases hst : order.status = .delivered ∨ order.status = .cancelled
    · simp only [hst, if_true]
      exact ⟨trivial, by simp, fun _ => trivial⟩
    simp only [hst, if_false]
    have hsave : ∀ (order1 : Order), order1.id = id →
        (b.products ≠ [] → ∃ drafts, buildLinesBy read s b.products = .ok drafts ∧
          castLines drafts = some order1.products) →
        (match saveOrder env s order1 with
          | (none, s1) => (OrderResponse.serverError, s1)
          | (some saved, s1) => (OrderResponse.updated saved, s1)).2.products = s.products ∧
        (∀ saved, (match saveOrder env s order1 with
            | (none, s1) => (OrderResponse.serverError, s1)
            | (some saved, s1) => (OrderResponse.updated saved, s1)).1 = .updated saved →
          saved.id = id ∧
          (match saveOrder env s order1 with
            | (none, s1) => (OrderResponse.serverError, s1)
            | (some saved, s1) => (OrderResponse.updated saved, s1)).2.orders =
            s.orders.map (fun q => if q.id = id then saved else q) ∧
          (b.products ≠ [] → ∃ drafts, buildLinesBy read s b.products = .ok drafts ∧
            castLines drafts = some saved.products)) ∧
        ((∀ saved, (match saveOrder env s order1 with
            | (none, s1) => (OrderResponse.serverError, s1)
            | (some saved, s1) => (OrderResponse.updated saved, s1)).1 ≠ .updated saved) →
          (match saveOrder env s order1 with
            | (none, s1) => (OrderResponse.serverError, s1)
            | (some saved, s1) => (OrderResponse.updated saved, s1)).2.orders = s.orders) := by
      intro order1 hid1 hlines
      obtain ⟨hprod, hcase⟩ := saveOrder_cases env s order1
      cases hsv : saveOrder env s order1 with
      | mk res s1 =>
        rw [hsv] at hprod hcase
        simp only [] at hprod hcase
        cases res with
        | none =>
          rcases hcase with ⟨_, ho⟩ | ⟨o1, h, _⟩
          · exact ⟨hprod, by simp, fun _ => ho⟩
          · cases h
        | some saved =>
          rcases hcase with ⟨h, _⟩ | ⟨o1, h, hp1, hi1, _, _, _, ho⟩
          · cases h
          · cases h
            refine ⟨hprod, ?_, ?_⟩
            · intro saved1 h1
              simp only [OrderResponse.updated.injEq] at h1
              subst h1
              refine ⟨hi1.trans hid1, ?_, ?_⟩
              · simp only []
                rw [ho, hid1]
              · intro hne
                rw [hp1]
                exact hlines hne
            · intro h
              exact absurd rfl (h saved)
    by_cases hlen : b.products.length > 0
    · have hne : b.products ≠ [] := by
        intro h; rw [h] at hlen; simp at hlen
      simp only [hlen, if_true]
      cases hb : buildLinesBy read s b.products with
      | error e =>
        simp only []
        refine ⟨trivial, ?_, fun _ => trivial⟩
        intro saved h
        subst h
        rcases buildLinesBy_error read s _ _ hb with ⟨_, h⟩ | ⟨_, h⟩ <;> cases h
      | ok drafts =>
        simp only []
        cases hc : castLines drafts with
        | none => exact ⟨rfl, by simp, fun _ => rfl⟩
        | some lines =>
          simp only []
          rw [hb] at hsave
          refine hsave _ ?_ ?_
          · exact hid
          · exact fun _ => ⟨drafts, rfl, hc⟩
    · have he : b.products = [] := by
        cases hbp : b.products with
        | nil => rfl
        | cons a t => rw [hbp] at hlen; simp at hlen
      simp only [hlen, if_false]
      exact hsave _ (by exact hid) (fun h => absurd he h)

/-- The reading `JsVal.toNumber` gives the loop `buildLines`. -/
theorem buildLinesBy_toNumber (s : Store) (items : List OrderItemBody) :
    buildLinesBy JsVal.toNumber s items = buildLines s items := by
  induction items with
  | nil => rfl
  | cons item rest ih =>
    simp only [buildLinesBy, buildLines, ih]
    rfl

/-- The reading `JsVal.toNumber` gives `editOrder`. -/
theorem editOrderBy_toNumber (env : Env) (s : Store) (id : ObjectId) (b : OrderBody) :
    editOrderBy JsVal.toNumber env s id b = editOrder env s id b := by
  simp only [editOrderBy, editOrder, buildLinesBy_toNumber]

/-! ### C19: the order cap on manual order lines -/

/-- C19, as stated, fails: the request passes the validators and its second
line asks for 150 units of `beans`, above the maximum order quantity of 100,
but its first line references a product that does not exist; the create and
the edit endpoint answer with the missing product, not with the order size
limit. Nothing is stored. -/
theorem missing_product_before_cap_counterexample :
    createOrderValid hasAt missingFirstBody = true ∧
    findProduct beansOrderStore 2 = some beans ∧
    jsGt (.num 150) beans.maxOrderQuantity = true ∧
    createOrder hasAt quietEnv beansOrderStore owner missingFirstBody =
      (.productNotFound 77, beansOrderStore) ∧
    editOrder quietEnv beansOrderStore 902 missingFirstBody =
      (.productNotFound 77, beansOrderStore) := by
  decide!

/-- C19, amended. In any environment. The create endpoint stores an order only
if every submitted line references an existing product and is not above its
maximum order quantity, and every stored line is then within the maximum order
quantity of its product; if some submitted line exceeds the maximum order
quantity of its product, the store is left exactly as it was and the answer is
not the success; and when the request passes the validators and every line
before the first exceeding one references an existing product, the answer is
the order size limit error with the name and the maximum order quantity of
that line's product and the quantity as it was requested. The same three
statements hold of the edit endpoint, which has no validators, under every
reading `read` of the submitted quantities as integers, with "exceeds" taken
under this reading, for an order that is neither delivered nor cancelled in
the third. -/
theorem order_cap_on_manual_lines (isEmail : String → Bool) (read : JsVal → Option Int)
    (env : Env) (s : Store) (user : ReqUser) (id : ObjectId) (b : OrderBody) :
    (∀ o, (createOrder isEmail env s user b).2.orders = s.orders ++ [o] →
      (∀ item ∈ b.products, ∃ p, findProduct s item.product = some p ∧
        jsGt item.quantity p.maxOrderQuantity = false) ∧
      ∀ l ∈ o.products, ∃ p, findProduct s l.product = some p ∧
        l.quantity ≤ p.maxOrderQuantity) ∧
    (∀ saved, (editOrderBy read env s id b).1 = .updated saved → b.products ≠ [] →
      (∀ item ∈ b.products, ∃ p, findProduct s item.product = some p ∧
        gtBy read item.quantity p.maxOrderQuantity = false) ∧
      ∀ l ∈ saved.products, ∃ p, findProduct s l.product = some p ∧
        l.quantity ≤ p.maxOrderQuantity) ∧
    ((∃ item ∈ b.products, ∃ p, findProduct s item.product = some p ∧
        jsGt item.quantity p.maxOrderQuantity = true) →
      (createOrder isEmail env s user b).2 = s ∧
      (∀ o, (createOrder isEmail env s user b).1 ≠ .created o)) ∧
    ((∃ item ∈ b.products, ∃ p, findProduct s item.product = some p ∧
        gtBy read item.quantity p.maxOrderQuantity = true) →
      (editOrderBy read env s id b).2 = s ∧
      (∀ o, (editOrderBy read env s id b).1 ≠ .updated o)) ∧
    (∀ (pre post : List OrderItemBody) (item : OrderItemBody) (p : Product),
      b.products = pre ++ item :: post →
      (∀ i ∈ pre, ∃ q, findProduct s i.product = some q ∧
        jsGt i.quantity q.maxOrderQuantity = false) →
      findProduct s item.product = some p →
      jsGt item.quantity p.maxOrderQuantity = true →
      createOrderValid isEmail b = true →
      createOrder isEmail env s user b =
        (.orderSizeLimitExceeded {
          productName := p.name
          requestedQuantity := item.quantity
          maxOrderQuantity := p.maxOrderQuantity }, s)) ∧
    (∀ (pre post : List OrderItemBody) (item : OrderItemBody) (p : Product) (order : Order),
      b.products = pre ++ item :: post →
      (∀ i ∈ pre, ∃ q, findProduct s i.product = some q ∧
        gtBy read i.quantity q.maxOrderQuantity = false) →
      findProduct s item.product = some p →
      gtBy read item.quantity p.maxOrderQuantity = true →
      findOrder s id = some order → order.status ≠ .delivered → order.status ≠ .cancelled →
      editOrderBy read env s id b =
        (.orderSizeLimitExceeded {
          productName := p.name
          requestedQuantity := item.quantity
          maxOrderQuantity := p.maxOrderQuantity }, s)) := by
  have hcreate : ∀ e, buildLines s b.products = .error e →
      (createOrder isEmail env s user b).2 = s ∧
      (createOrderValid isEmail b = true → createOrder isEmail env s user b = (e, s)) := by
    intro e he
    simp only [createOrder, he]
    split_ifs with hv
    · refine ⟨rfl, ?_⟩
      intro h
      rw [h] at hv
      cases hv
    · exact ⟨rfl, fun _ => rfl⟩
  have hedit : ∀ e, buildLinesBy read s b.products = .error e → b.products ≠ [] →
      (editOrderBy read env s id b).2 = s ∧
      (∀ order, findOrder s id = some order → order.status ≠ .delivered →
        order.status ≠ .cancelled → editOrderBy read env s id b = (e, s)) := by
    intro e he hne
    have hlen : b.products.length > 0 := List.length_pos.mpr hne
    simp only [editOrderBy, he, hlen, if_true]
    cases hf : findOrder s id with
    | none => exact ⟨rfl, by simp⟩
    | some order =>
      simp only []
      split_ifs with hst
      · refine ⟨rfl, ?_⟩
        intro order1 h1 h2 h3
        cases h1
        rcases hst with h | h
        · exact absurd h h2
        · exact absurd h h3
      · exact ⟨rfl, fun _ _ _ _ => rfl⟩
  refine ⟨?_, ?_, ?_, ?_, ?_, ?_⟩
  · intro o ho
    rcases (createOrder_cases isEmail env s user b).2 with ⟨h, _⟩ | ⟨drafts, o1, hb, hc, _, h, _⟩
    · rw [h] at ho
      have := congrArg List.length ho
      simp at this
    · rw [h] at ho
      have ho1 : o1 = o := by simpa using ho
      subst ho1
      obtain ⟨k1, k2⟩ := buildLines_ok s _ _ hb
      refine ⟨k1, ?_⟩
      intro l hl
      obtain ⟨p, hp, hle, _⟩ := k2 _ hc l hl
      exact ⟨p, hp, hle⟩
  · intro saved hs hne
    obtain ⟨drafts, hb, hc⟩ := ((editOrderBy_cases read env s id b).2.1 saved hs).2.2 hne
    obtain ⟨k1, k2⟩ := buildLinesBy_ok read s _ _ hb
    refine ⟨k1, ?_⟩
    intro l hl
    obtain ⟨p, hp, hle, _⟩ := k2 _ hc l hl
    exact ⟨p, hp, hle⟩
  · intro hex
    obtain ⟨e, he⟩ := buildLines_rejects s b.products hex
    refine ⟨(hcreate e he).1, ?_⟩
    intro o ho
    rcases (createOrder_cases isEmail env s user b).2 with ⟨_, h⟩ | ⟨drafts, _, hb, _⟩
    · exact h o ho
    · rw [he] at hb
      cases hb
  · intro hex
    have hne : b.products ≠ [] := by
      obtain ⟨item, hi, _⟩ := hex
      exact List.ne_nil_of_mem hi
    obtain ⟨e, he⟩ := buildLinesBy_rejects read s b.products hex
    refine ⟨(hedit e he hne).1, ?_⟩
    intro o ho
    obtain ⟨drafts, hb, _⟩ := ((editOrderBy_cases read env s id b).2.1 o ho).2.2 hne
    rw [he] at hb
    cases hb
  · intro pre post item p hitems hpre hp hgt hv
    have he := buildLines_first_offender s item post p hp hgt pre hpre
    rw [← hitems] at he
    exact (hcreate _ he).2 hv
  · intro pre post item p order hitems hpre hp hgt hf h1 h2
    have he := buildLinesBy_first_offender read s item post p hp hgt pre hpre
    rw [← hitems] at he
    have hne : b.products ≠ [] := by
      rw [hitems]
      simp
    exact (hedit _ he hne).2 order hf h1 h2

/-- The examples of C19. The request `overCapBody` passes the validators, its
first line is within the limit and its second line asks for 150 units of
`beans`: the create endpoint answers with the order size limit error for
`Beans`, 150 and 100, and the store is as it was. The edit of the confirmed
order 902 with the lines `" 150 "` and 150, read with blanks ignored, answers
with the order size limit error of the first line, the quantity as it was
requested. -/
theorem order_cap_on_manual_lines_witness :
    createOrder hasAt quietEnv beansOrderStore owner overCapBody =
      (.orderSizeLimitExceeded {
        productName := "Beans"
        requestedQuantity := .num 150
        maxOrderQuantity := 100 }, beansOrderStore) ∧
    editOrderBy readPadded quietEnv beansOrderStore 902 paddedCapBody =
      (.orderSizeLimitExceeded {
        productName := "Beans"
        requestedQuantity := .str " 150 ".toList
        maxOrderQuantity := 100 }, beansOrderStore) :=
  ⟨(order_cap_on_manual_lines hasAt readPadded quietEnv beansOrderStore owner 902
      overCapBody).2.2.2.2.1
      [{ product := 3, quantity := .num 4 }] [{ product := 3, quantity := .str "500".toList }]
      { product := 2, quantity := .num 150 } beans rfl (by decide!) (by decide!) (by decide!)
      (by decide!),
    (order_cap_on_manual_lines hasAt readPadded quietEnv beansOrderStore owner 902
      paddedCapBody).2.2.2.2.2
      [] [{ product := 2, quantity := .num 150 }]
      { product := 2, quantity := .str " 150 ".toList } beans beansOrder rfl (by simp)
      (by decide!) (by decide!) (by decide!) (by decide!) (by decide!)⟩

/-! ### C18: the pricing of order lines -/

/-- The save of a stored product touches no order; it either leaves the
products alone or replaces, by id, the stored product with the product after
the hook. -/
theorem saveProduct_cases (env : Env) (s : Store) (p : Product) :
    (saveProduct env s p).2.orders = s.orders ∧
    ((saveProduct env s p).2.products = s.products ∨
      (saveProduct env s p).2.products =
        s.products.map (fun q => if q.id = p.id then p.preValidate else q)) := by
  simp only [saveProduct, replaceProduct]
  split_ifs
  · exact ⟨rfl, Or.inl rfl⟩
  · exact ⟨rfl, Or.inl rfl⟩
  · exact ⟨rfl, Or.inr rfl⟩

/-- One step of the bulk reorder in any environment: it appends at most one
order, whose only line is the reorder line of the product found by the id, and
every product keeps its id and its cost price. -/
theorem reorderOne_orders (env : Env) (user : ReqUser) (st : BulkState) (id : ObjectId) :
    ∃ created,
      (reorderOne env user st id).store.orders = st.store.orders ++ created ∧
      (∀ o ∈ created, ∃ p, findProduct st.store id = some p ∧ o.products = [reorderLine p]) ∧
      (∀ q ∈ (reorderOne env user st id).store.products,
        ∃ q0 ∈ st.store.products, q0.id = q.id ∧ q0.costPrice = q.costPrice) := by
  have hsame : ∀ q ∈ st.store.products,
      ∃ q0 ∈ st.store.products, q0.id = q.id ∧ q0.costPrice = q.costPrice :=
    fun q hq => ⟨q, hq, rfl, rfl⟩
  simp only [reorderOne]
  cases hf : findProduct st.store id with
  | none => exact ⟨[], by simp, by simp, hsame⟩
  | some p =>
    simp only []
    split_ifs with hact hcap
    · exact ⟨[], by simp, by simp, hsame⟩
    · exact ⟨[], by simp, by simp, hsame⟩
    · generalize hord : ({
          id := env.newId st.store.tick
          products := [{
            product := p.id
            quantity := p.reorderQuantity
            unitPrice := p.costPrice
            totalPrice := p.reorderQuantity * p.costPrice }]
          business := p.business
          status := .confirmed
          orderType := .manual
          supplier := some p.supplier
          expectedDeliveryDate := some (env.clock st.store.tick + twoDays)
          createdBy := user.id
          notes := some ("Bulk reorder for " ++ p.name ++ " - Low stock alert triggered") } :
            Order) = order
      have hp : order.products = [reorderLine p] := by rw [← hord]; rfl
      obtain ⟨hprod, hcase⟩ := saveNewOrder_cases env st.store order
      cases hsv : saveNewOrder env st.store order with
      | mk res s1 =>
        rw [hsv] at hprod hcase
        simp only [] at hprod hcase
        cases res with
        | none =>
          rcases hcase with ⟨_, ho⟩ | ⟨o1, h, _⟩
          · refine ⟨[], by simp [ho], by simp, ?_⟩
            simp only []
            rw [hprod]
            exact hsame
          · cases h
        | some saved =>
          rcases hcase with ⟨h, _⟩ | ⟨o1, h, hp1, _, _, _, ho⟩
          · cases h
          · cases h
            simp only []
            generalize hprd : ({ p with
                currentStock := p.currentStock + p.reorderQuantity
                lastRestocked := some (env.clock s1.tick) } : Product) = p1
            have hp1id : p1.id = p.id := by rw [← hprd]
            have hp1c : p1.costPrice = p.costPrice := by rw [← hprd]
            obtain ⟨hso, hsp⟩ := saveProduct_cases env s1 p1
            have hprods : ∀ q ∈ (saveProduct env s1 p1).2.products,
                ∃ q0 ∈ st.store.products, q0.id = q.id ∧ q0.costPrice = q.costPrice := by
              intro q hq
              rcases hsp with hsp | hsp
              · rw [hsp, hprod] at hq
                exact hsame q hq
              · rw [hsp, hprod] at hq
                obtain ⟨q1, hq1, hq1e⟩ := List.mem_map.mp hq
                by_cases hc : q1.id = p1.id
                · rw [if_pos hc] at hq1e
                  subst hq1e
                  exact ⟨p, (findProduct_some _ _ _ hf).1, hp1id.symm, hp1c.symm⟩
                · rw [if_neg hc] at hq1e
                  subst hq1e
                  exact ⟨q1, hq1, rfl, rfl⟩
            cases hsvp : saveProduct env s1 p1 with
            | mk res2 s2 =>
              rw [hsvp] at hso hprods
              simp only [] at hso hprods
              cases res2 with
              | none =>
                refine ⟨[saved], ?_, ?_, hprods⟩
                · simp only []
                  rw [hso, ho]
                · intro o hmem
                  rw [List.mem_singleton] at hmem
                  subst hmem
                  exact ⟨p, rfl, hp1.trans hp⟩
              | some _ =>
                refine ⟨[saved], ?_, ?_, hprods⟩
                · simp only []
                  rw [hso, ho]
                · intro o hmem
                  rw [List.mem_singleton] at hmem
                  subst hmem
                  exact ⟨p, rfl, hp1.trans hp⟩

/-- The loop of the bulk reorder in any environment: the lines of the orders it
appends are priced from the products of the store it started with. -/
theorem foldl_reorderOne_priced (env : Env) (user : ReqUser) :
    ∀ (ids : List ObjectId) (st : BulkState),
      ∃ created,
        (ids.foldl (reorderOne env user) st).store.orders = st.store.orders ++ created ∧
        (∀ o ∈ created, ∀ l ∈ o.products, LinePricedFrom st.store.products l) := by
  intro ids
  induction ids with
  | nil => intro st; exact ⟨[], by simp, by simp⟩
  | cons id rest ih =>
    intro st
    obtain ⟨c1, h1, h2, h3⟩ := reorderOne_orders env user st id
    obtain ⟨c2, k1, k2⟩ := ih (reorderOne env user st id)
    refine ⟨c1 ++ c2, ?_, ?_⟩
    · rw [List.foldl_cons, k1, h1, List.append_assoc]
    · intro o ho l hl
      rcases List.mem_append.mp ho with ho | ho
      · obtain ⟨p, hp, hlines⟩ := h2 o ho
        rw [hlines, List.mem_singleton] at hl
        subst hl
        exact reorderLine_priced _ p (findProduct_some _ _ _ hp).1
      · obtain ⟨q, hq, hid, hu, ht⟩ := k2 o ho l hl
        obtain ⟨q0, hq0, hid0, hc0⟩ := h3 q hq
        exact ⟨q0, hq0, hid0.trans hid, hu.trans hc0.symm, ht⟩

/-- C18. In any environment, every line of every order that is stored by the
order create endpoint, by the manual reorder of one product, by the bulk
reorder, by the real-time sweep and by the renewal sweep, and every line of an
order that the order edit endpoint stores for a request with lines, references
a product of the store as it was before the operation, has the cost price of
that product as its unit price, and has its quantity times its unit price as
its total price. Each operation keeps the existing orders in front of those it
creates; the edit replaces the order with the id by the order of its answer.
The edit endpoint has no validators: its part holds under every reading `read`
of the submitted quantities as integers, so also for the quantities `" 4 "`
and `"1e1"` that `Number` reads as 4 and as 10. -/
theorem order_lines_priced_at_cost (isEmail : String → Bool) (read : JsVal → Option Int)
    (env : Env) (s : Store)
    (user : ReqUser) (id : ObjectId) (ids : List ObjectId) (b : OrderBody) :
    (∃ created, (createOrder isEmail env s user b).2.orders = s.orders ++ created ∧
      ∀ o ∈ created, ∀ l ∈ o.products, LinePricedFrom s.products l) ∧
    (∀ saved, (editOrderBy read env s id b).1 = .updated saved → b.products ≠ [] →
      (editOrderBy read env s id b).2.orders =
        s.orders.map (fun q => if q.id = id then saved else q) ∧
      ∀ l ∈ saved.products, LinePricedFrom s.products l) ∧
    (∃ created, (reorder env s user id).2.orders = s.orders ++ created ∧
      ∀ o ∈ created, ∀ l ∈ o.products, LinePricedFrom s.products l) ∧
    (∃ created, (reorderMultiple env s user ids).2.orders = s.orders ++ created ∧
      ∀ o ∈ created, ∀ l ∈ o.products, LinePricedFrom s.products l) ∧
    (∃ created, (checkAndAutoReorder env s).orders = s.orders ++ created ∧
      ∀ o ∈ created, ∀ l ∈ o.products, LinePricedFrom s.products l) ∧
    (∃ created, (autoRenewStock env s).orders = s.orders ++ created ∧
      ∀ o ∈ created, ∀ l ∈ o.products, LinePricedFrom s.products l) := by
  have hlow : ∀ p ∈ lowStockProducts s, p ∈ s.products := fun p hp => (List.mem_filter.mp hp).1
  refine ⟨?_, ?_, ?_, ?_, ?_, ?_⟩
  · rcases (createOrder_cases isEmail env s user b).2 with ⟨h, _⟩ | ⟨drafts, o, hb, hc, _, h, _⟩
    · exact ⟨[], by simp [h], by simp⟩
    · refine ⟨[o], h, ?_⟩
      intro o1 ho1 l hl
      rw [List.mem_singleton] at ho1
      subst ho1
      obtain ⟨p, hp, _, hu, ht⟩ := (buildLines_ok s _ _ hb).2 _ hc l hl
      exact linePriced_of_find s l p hp hu ht
  · intro saved hs hne
    obtain ⟨_, ho, hlines⟩ := (editOrderBy_cases read env s id b).2.1 saved hs
    obtain ⟨drafts, hb, hc⟩ := hlines hne
    refine ⟨ho, ?_⟩
    intro l hl
    obtain ⟨p, hp, _, hu, ht⟩ := (buildLinesBy_ok read s _ _ hb).2 _ hc l hl
    exact linePriced_of_find s l p hp hu ht
  · rcases reorder_cases env s user id with ⟨h, _⟩ | ⟨p, o, hp, h, _, _, hlines, _⟩
    · exact ⟨[], by simp [h], by simp⟩
    · refine ⟨[o], h, ?_⟩
      intro o1 ho1 l hl
      rw [List.mem_singleton] at ho1
      subst ho1
      rw [hlines, List.mem_singleton] at hl
      subst hl
      exact reorderLine_priced _ p (findProduct_some _ _ _ hp).1
  · simp only [reorderMultiple]
    split_ifs with h0 hres
    · exact ⟨[], by simp, by simp⟩
    · obtain ⟨created, h1, h2⟩ := foldl_reorderOne_priced env user ids { store := s }
      refine ⟨created, ?_, h2⟩
      obtain ⟨_, f2, _⟩ := saveNotification_frame env
        (ids.foldl (reorderOne env user) { store := s }).store
        { recipient := user.id
          business := some user.currentBusiness
          type := .system_alert
          title := "Bulk Reorder Completed"
          data := {
            reorderedProducts :=
              (ids.foldl (reorderOne env user) { store := s }).results.map (fun r => r.productId)
            totalProducts :=
              some (ids.foldl (reorderOne env user) { store := s }).results.length } }
      rw [← h1, ← f2]
      cases saveNotification env _ _ with
      | mk res s1 => cases res <;> rfl
    · exact foldl_reorderOne_priced env user ids { store := s }
  · obtain ⟨created, h1, h2, _⟩ := checkAndAutoReorder_any env s
    refine ⟨created, h1, ?_⟩
    intro o ho l hl
    obtain ⟨p, hp, hauto⟩ := forall₂_mem_right h2 o ho
    rw [hauto.2.2.2.2, List.mem_singleton] at hl
    subst hl
    exact reorderLine_priced _ p (hlow p (mem_ordersSavedFor env _ _ _ p hp))
  · obtain ⟨created, h1, _, h3⟩ := autoRenewStock_any env s
    refine ⟨created, h1, ?_⟩
    intro o ho l hl
    obtain ⟨_, _, _, e, he, hlines⟩ := h3 o ho
    have hg := foldl_addToGroup (lowStockProducts s) [] []
      ⟨by simp, by simp, by simp⟩
    rw [hlines, (hg.2.2 e he).1] at hl
    obtain ⟨p, hp, hpl⟩ := List.mem_map.mp hl
    subst hpl
    exact reorderLine_priced _ p (hlow p (by simpa using (List.mem_filter.mp hp).1))

/-- The examples of C18. The create request for 4 units of `salt`, whose cost
price is 1, appends to the order of `beansOrderStore` an order with the line of
quantity 4, unit price 1 and total price 4. The edit of the order 902 with the
quantity `" 4 "` of `salt`, read with blanks ignored, stores in its place an
order with the same line. -/
theorem order_lines_priced_at_cost_witness :
    ((createOrder hasAt quietEnv beansOrderStore owner saltBody).2.orders.map
        (fun o => o.products) =
      [beansOrder.products, [{ product := 3, quantity := 4, unitPrice := 1, totalPrice := 4 }]] ∧
    ∃ created,
      (createOrder hasAt quietEnv beansOrderStore owner saltBody).2.orders =
        beansOrderStore.orders ++ created ∧
      ∀ o ∈ created, ∀ l ∈ o.products, LinePricedFrom beansOrderStore.products l) ∧
    ((editOrderBy readPadded quietEnv beansOrderStore 902 paddedSaltBody).2.orders.map
        (fun o => o.products) =
      [[{ product := 3, quantity := 4, unitPrice := 1, totalPrice := 4 }]] ∧
    ∀ saved, (editOrderBy readPadded quietEnv beansOrderStore 902 paddedSaltBody).1 =
        .updated saved → paddedSaltBody.products ≠ [] →
      (editOrderBy readPadded quietEnv beansOrderStore 902 paddedSaltBody).2.orders =
        beansOrderStore.orders.map (fun q => if q.id = 902 then saved else q) ∧
      ∀ l ∈ saved.products, LinePricedFrom beansOrderStore.products l) :=
  ⟨⟨by decide!,
    (order_lines_priced_at_cost hasAt readPadded quietEnv beansOrderStore owner 902 [2]
      saltBody).1⟩,
   ⟨by decide!,
    (order_lines_priced_at_cost hasAt readPadded quietEnv beansOrderStore owner 902 [2]
      paddedSaltBody).2.1⟩⟩

/-! ### C20: the status endpoint enforces no transition order -/

/-- After the stored order with an id is replaced, the lookup by this id finds
the replacement. -/
theorem findOrder_replace (l : List Order) (id : ObjectId) (o o1 : Order)
    (hfind : l.find? (fun q => q.id == id) = some o) (hid : o1.id = id) :
    (l.map (fun q => if q.id = id then o1 else q)).find? (fun q => q.id == id) = some o1 := by
  induction l with
  | nil => simp at hfind
  | cons a t ih =>
    simp only [List.map_cons, List.find?_cons] at hfind ⊢
    by_cases ha : a.id = id
    · simp [ha, hid]
    · have hb : (a.id == id) = false := by simpa using ha
      simp only [ha, if_false, hb] at hfind ⊢
      exact ih hfind

/-- A valid stored order is saved when the write does not fail. -/
theorem saveOrder_ok (env : Env) (s : Store) (o : Order)
    (hw : env.writeFails s.tick = false) (hv : o.valid = true) :
    saveOrder env s o =
      (some (o.preSave (env.clock s.tick) (env.random s.tick)),
        replaceOrder s (o.preSave (env.clock s.tick) (env.random s.tick))) := by
  simp [saveOrder, hv, hw]

/-- The status update of an existing order whose lines pass the order schema,
when no write fails and, for the target `delivered`, no line would push an
existing product past its maximum: whatever the current status of the order,
the answer is the success with the order in the target status, this order is
the one stored under the id, with the lines it had, and the products are
untouched unless the target is `delivered`, in which case every product has its
stock raised by the quantities of the lines that reference it. -/
theorem updateOrderStatus_spec (env : Env) (s : Store) (user : ReqUser) (id : ObjectId)
    (order : Order) (target : OrderStatus)
    (hfind : findOrder s id = some order) (hvalid : order.valid = true)
    (hw : ∀ k, env.writeFails k = false)
    (hcap : target = .delivered → overstockCheck s order.products = none) :
    ∃ saved, (updateOrderStatus env s user id target).1 = .updated saved ∧
      saved.status = target ∧ saved.products = order.products ∧
      findOrder (updateOrderStatus env s user id target).2 id = some saved ∧
      (target ≠ .delivered → (updateOrderStatus env s user id target).2.products = s.products) ∧
      (target = .delivered →
        (updateOrderStatus env s user id target).2.products = s.products.map (fun p =>
          { p with currentStock := p.currentStock + deliveredQuantity order.products p.id })) := by
  have hid : order.id = id := by
    have := List.find?_some hfind
    simpa using this
  subst hid
  by_cases ht : target = .delivered
  · subst ht
    obtain ⟨h1, h2, h3⟩ := applyDelivery_spec env hw order.products s
    have happ : applyDelivery env s order.products =
        (true, (applyDelivery env s order.products).2) := by
      rw [← h1]
    simp only [updateOrderStatus, hfind, if_true, hcap rfl]
    rw [happ]
    simp only [saveNotification, hw, Bool.false_eq_true, if_false]
    rw [saveOrder_ok env _ _ (hw _) (by exact hvalid)]
    simp only []
    obtain ⟨f1, f2, f3, _⟩ := preSave_fields
      (env.clock ((applyDelivery env s order.products).2.tick + 1))
      (env.random ((applyDelivery env s order.products).2.tick + 1))
      { order with
        status := .delivered
        actualDeliveryDate := some (env.clock s.tick) }
    refine ⟨_, rfl, f3, f1, ?_, by simp, ?_⟩
    · simp only [findOrder, replaceOrder, h3]
      rw [f2]
      exact findOrder_replace s.orders order.id order _ hfind f2
    · intro _
      simp only [replaceOrder]
      exact h2
  · simp only [updateOrderStatus, hfind, ht, if_false]
    rw [saveOrder_ok env _ _ (hw _) (by exact hvalid)]
    simp only []
    obtain ⟨f1, f2, f3, _⟩ := preSave_fields (env.clock s.tick) (env.random s.tick)
      { order with status := target }
    refine ⟨_, rfl, f3, f1, ?_, fun _ => rfl, fun h => h.elim⟩
    simp only [findOrder, replaceOrder]
    rw [f2]
    exact findOrder_replace s.orders order.id order _ hfind f2

/-- C20. For every existing order whose lines pass the order schema, whatever
its current status, and every target status, when no write fails and, for the
target `delivered`, no line would push an existing product past its maximum:
the request succeeds, the order stored under the id afterwards has the target
status, and the products are untouched unless the target is `delivered`. For
the target `delivered` every product has its stock raised by the quantities of
the lines that reference it, and a second request with target `delivered`, if
the capacity check passes again, succeeds again and raises the stock of every
product by these quantities a second time. -/
theorem status_update_any_transition (env : Env) (s : Store) (user : ReqUser) (id : ObjectId)
    (order : Order) (target : OrderStatus)
    (hfind : findOrder s id = some order) (hvalid : order.valid = true)
    (hw : ∀ k, env.writeFails k = false)
    (hcap : target = .delivered → ∀ item ∈ order.products, ∀ product,
      findProduct s item.product = some product →
      product.currentStock + item.quantity ≤ product.maxStockLevel) :
    ∃ saved, (updateOrderStatus env s user id target).1 = .updated saved ∧
      saved.status = target ∧
      findOrder (updateOrderStatus env s user id target).2 id = some saved ∧
      (target ≠ .delivered → (updateOrderStatus env s user id target).2.products = s.products) ∧
      (target = .delivered →
        (updateOrderStatus env s user id target).2.products = s.products.map (fun p =>
          { p with currentStock := p.currentStock + deliveredQuantity order.products p.id }) ∧
        ((∀ item ∈ order.products, ∀ product,
            findProduct (updateOrderStatus env s user id target).2 item.product = some product →
            product.currentStock + item.quantity ≤ product.maxStockLevel) →
          ∃ again,
            (updateOrderStatus env (updateOrderStatus env s user id target).2 user id
              .delivered).1 = .updated again ∧
            again.status = .delivered ∧
            (updateOrderStatus env (updateOrderStatus env s user id target).2 user id
              .delivered).2.products = s.products.map (fun p =>
                { p with currentStock := p.currentStock +
                    deliveredQuantity order.products p.id +
                    deliveredQuantity order.products p.id }))) := by
  obtain ⟨saved, h1, h2, h3, h4, h5, h6⟩ := updateOrderStatus_spec env s user id order target
    hfind hvalid hw (fun ht => (overstockCheck_eq_none s order.products).mpr (hcap ht))
  refine ⟨saved, h1, h2, h4, h5, ?_⟩
  intro ht
  refine ⟨h6 ht, ?_⟩
  intro hcap2
  have hv2 : saved.valid = true := by
    simp only [Order.valid, h3]
    exact hvalid
  obtain ⟨again, k1, k2, _, _, _, k6⟩ := updateOrderStatus_spec env
    (updateOrderStatus env s user id target).2 user id saved .delivered h4 hv2 hw
    (fun _ => by
      rw [h3]
      exact (overstockCheck_eq_none _ order.products).mpr hcap2)
  refine ⟨again, k1, k2, ?_⟩
  rw [k6 rfl, h6 ht, h3, List.map_map]
  apply List.map_congr_left
  intro p _
  rfl

/-- The example of C20: the order 902 of `deliveredStore` is already delivered;
setting it to `delivered` raises `beans` from 2 to 17 and `salt` from 2 to 6,
setting it to `delivered` once more raises them to 32 and 10, and setting it to
`pending` instead is accepted as well. -/
theorem status_update_any_transition_witness :
    deliveredBeansOrder.status = .delivered ∧
    (updateOrderStatus quietEnv deliveredStore owner 902 .delivered).2.products.map
      (fun p => p.currentStock) = [17, 6] ∧
    (updateOrderStatus quietEnv
      (updateOrderStatus quietEnv deliveredStore owner 902 .delivered).2 owner 902
        .delivered).2.products.map (fun p => p.currentStock) = [32, 10] ∧
    (updateOrderStatus quietEnv deliveredStore owner 902 .pending).2.orders.map
      (fun o => o.status) = [.pending] ∧
    ∃ saved, (updateOrderStatus quietEnv deliveredStore owner 902 .delivered).1 =
        .updated saved ∧
      saved.status = .delivered ∧
      findOrder (updateOrderStatus quietEnv deliveredStore owner 902 .delivered).2 902 =
        some saved :=
  ⟨rfl, by decide!, by decide!, by decide!,
    (status_update_any_transition quietEnv deliveredStore owner 902 deliveredBeansOrder
      .delivered (by decide!) (by decide!) (fun _ => rfl) (by decide!)).imp
      (fun _ h => ⟨h.1, h.2.1, h.2.2.1⟩)⟩

/-! ### C14: the operations that leave `currentStock` alone -/

/-- The save of a new payment touches no product. -/
theorem saveNewPayment_products (env : Env) (s : Store) (p : Payment) :
    (saveNewPayment env s p).2.products = s.products := by
  simp only [saveNewPayment]
  split_ifs <;> rfl

/-- The save of a stored payment touches no product. -/
theorem savePayment_products (env : Env) (s : Store) (p : Payment) :
    (savePayment env s p).2.products = s.products := by
  simp only [savePayment]
  split_ifs <;> rfl

/-- Cancelling an order touches no product. -/
theorem cancelOrder_products (env : Env) (s : Store) (id : ObjectId) :
    (cancelOrder env s id).2.products = s.products := by
  simp only [cancelOrder]
  cases findOrder s id with
  | none => rfl
  | some order =>
    simp only []
    split_ifs
    · rfl
    · have h := saveOrder_products env s { order with status := .cancelled }
      cases hsv : saveOrder env s { order with status := .cancelled } with
      | mk res s1 =>
        rw [hsv] at h
        cases res <;> exact h

/-- Creating a payment touches no product. -/
theorem createPayment_products (env : Env) (s : Store) (user : ReqUser) (orderId : ObjectId)
    (paymentMethod : String) :
    (createPayment env s user orderId paymentMethod).2.products = s.products := by
  simp only [createPayment]
  split_ifs
  · rfl
  cases findOrder s orderId with
  | none => rfl
  | some order =>
    simp only []
    split_ifs
    · rfl
    cases order.totalAmount with
    | none => rfl
    | some amount =>
      simp only []
      generalize hpay : ({
          id := env.newId s.tick
          business := user.currentBusiness
          order := order.id
          amount := amount
          paymentMethod := paymentMethod
          createdBy := user.id } : Payment) = payment
      have h1 := saveNewPayment_products env s payment
      cases hsv : saveNewPayment env s payment with
      | mk res s1 =>
        rw [hsv] at h1
        cases res with
        | none => exact h1
        | some saved =>
          simp only []
          have h2 : ∀ o, (match saveOrder env s1 o with
              | (none, s2) => (PaymentResponse.serverError, s2)
              | (some _, s2) => (PaymentResponse.paymentCreated saved, s2)).2.products =
                s1.products := by
            intro o
            have h := saveOrder_products env s1 o
            cases hso : saveOrder env s1 o with
            | mk res2 s2 =>
              rw [hso] at h
              cases res2 <;> exact h
          exact (h2 _).trans h1

/-- Verifying a payment touches no product. -/
theorem verifyPayment_products (env : Env) (s : Store) (user : ReqUser) (b : VerifyBody) :
    (verifyPayment env s user b).2.products = s.products := by
  simp only [verifyPayment, verifyPaymentSignature, if_true]
  split_ifs
  · rfl
  cases s.payments.find? (fun p => p.id == b.transactionId) with
  | none => rfl
  | some payment =>
    simp only []
    generalize hpay : ({ payment with
        status := .completed
        gatewayPaymentId := some b.paymentId
        paymentDate := some (env.clock s.tick) } : Payment) = payment1
    have h1 := savePayment_products env s payment1
    cases hsv : savePayment env s payment1 with
    | mk res s1 =>
      rw [hsv] at h1
      cases res with
      | none => exact h1
      | some saved =>
        simp only []
        cases findOrder s1 saved.order with
        | none => exact h1
        | some order =>
          simp only []
          generalize hord : ({ order with
              paymentStatus := .completed
              paymentId := some b.paymentId
              paymentDate := some (env.clock s1.tick)
              status := .confirmed } : Order) = order1
          have h2 := saveOrder_products env s1 order1
          cases hso : saveOrder env s1 order1 with
          | mk res2 s2 =>
            rw [hso] at h2
            cases res2 with
            | none => exact h2.trans h1
            | some savedOrder =>
              simp only []
              generalize hnote : ({
                  business := some user.currentBusiness
                  title := "Payment Successful"
                  type := .payment_success
                  priority := some .high
                  recipient := user.id
                  data := {
                    orderId := some savedOrder.id
                    orderNumber := savedOrder.orderNumber
                    paymentId := some saved.id
                    transactionId := saved.transactionId } } : Notification) = note
              have h3 := (saveNotification_frame env s2 note).1
              cases hsn : saveNotification env s2 note with
              | mk res3 s3 =>
                rw [hsn] at h3
                cases res3 <;> exact (h3.trans h2).trans h1

/-- The product update endpoint, for a request without the field `currentStock`
and a store whose product ids are distinct, leaves the stock of every product
as it was. -/
theorem updateProduct_stock (env : Env) (s : Store) (user : ReqUser) (id : ObjectId)
    (b : UpdateBody) (hb : b.currentStock = none)
    (hnd : (s.products.map (fun p => p.id)).Nodup) :
    (updateProduct env s user id b).2.products.map (fun p => (p.id, p.currentStock)) =
      s.products.map (fun p => (p.id, p.currentStock)) := by
  simp only [updateProduct, hb]
  split
  · rfl
  split
  · rfl
  split
  · rename_i cs mn mx rq moq hcs _ _ _ _
    have hcs0 : cs = none := by
      simp only [castOptional, Option.some.injEq] at hcs
      exact hcs.symm
    subst hcs0
    split
    · rfl
    split
    · rfl
    · rename_i product hfind
      split
      · rfl
      · simp only [replaceProduct, List.map_map, Option.getD_none]
        apply List.map_congr_left
        intro q hq
        simp only [Function.comp_apply]
        by_cases hid : q.id = product.id
        · have hqp : q = product :=
            List.inj_on_of_nodup_map hnd hq (List.mem_of_find?_eq_some hfind) hid
          simp [hqp]
        · simp [hid]
  · rfl

/-- C14, as stated, fails: the product update endpoint with the request body
`currentStock: 50` sets the stock of `rice` from 95 to 50. -/
theorem update_sets_stock_counterexample :
    riceStore.products.map (fun p => p.currentStock) = [95] ∧
    (updateProduct quietEnv riceStore owner 1
      { currentStock := some (.num 50) }).2.products.map (fun p => p.currentStock) = [50] := by
  decide!

/-- C14, amended. In any environment, the order create endpoint, the order edit
endpoint under every reading `read` of the submitted quantities as integers,
the order cancel endpoint and the payment create and payment verify endpoints
leave every product record exactly as it was. The product update endpoint
leaves the stock of every product as it was when the request body is an object
of product fields without the field `currentStock` whose numeric fields are
JSON integers or strings of an optional sign and decimal digits (the product
ids of the store being distinct). Request bodies of MongoDB update operators
are not among the values of `UpdateBody`. -/
theorem stock_untouched_by_other_operations (isEmail : String → Bool)
    (read : JsVal → Option Int) (env : Env) (s : Store)
    (user : ReqUser) (id orderId : ObjectId) (paymentMethod : String) (order : OrderBody)
    (verify : VerifyBody) (update : UpdateBody) :
    (createOrder isEmail env s user order).2.products = s.products ∧
    (editOrderBy read env s orderId order).2.products = s.products ∧
    (cancelOrder env s orderId).2.products = s.products ∧
    (createPayment env s user orderId paymentMethod).2.products = s.products ∧
    (verifyPayment env s user verify).2.products = s.products ∧
    (update.currentStock = none → update.integerFields = true →
      (s.products.map (fun p => p.id)).Nodup →
      (updateProduct env s user id update).2.products.map (fun p => (p.id, p.currentStock)) =
        s.products.map (fun p => (p.id, p.currentStock))) :=
  ⟨(createOrder_cases isEmail env s user order).1,
    (editOrderBy_cases read env s orderId order).1,
    cancelOrder_products env s orderId,
    createPayment_products env s user orderId paymentMethod,
    verifyPayment_products env s user verify,
    fun hb _ hnd => updateProduct_stock env s user id update hb hnd⟩

/-- The examples of C14: the update of `rice` with the request body
`minStockLevel: 7` sets the minimum to 7 and leaves the stock at 95, and the
edit of the order 902 with the quantity `" 4 "` of `salt`, read with blanks
ignored, is stored and leaves the products as they were. -/
theorem stock_untouched_by_other_operations_witness :
    ((updateProduct quietEnv riceStore owner 1
      { minStockLevel := some (.num 7) }).2.products.map (fun p => p.minStockLevel) = [7] ∧
    (updateProduct quietEnv riceStore owner 1
      { minStockLevel := some (.num 7) }).2.products.map (fun p => (p.id, p.currentStock)) =
      riceStore.products.map (fun p => (p.id, p.currentStock))) ∧
    ((editOrderBy readPadded quietEnv beansOrderStore 902 paddedSaltBody).2.orders ≠
      beansOrderStore.orders ∧
    (editOrderBy readPadded quietEnv beansOrderStore 902 paddedSaltBody).2.products =
      beansOrderStore.products) :=
  ⟨⟨by decide!,
    (stock_untouched_by_other_operations hasAt readPadded quietEnv riceStore owner 1 902 "upi"
      saltBody
      { paymentId := "pay", orderId := "ord", signature := "sig", transactionId := 0 }
      { minStockLevel := some (.num 7) }).2.2.2.2.2 rfl (by decide!) (by decide!)⟩,
   ⟨by decide!,
    (stock_untouched_by_other_operations hasAt readPadded quietEnv beansOrderStore owner 1 902
      "upi" paddedSaltBody
      { paymentId := "pay", orderId := "ord", signature := "sig", transactionId := 0 }
      { minStockLevel := some (.num 7) }).2.1⟩⟩

/-! ### C21: the edit of delivered and cancelled orders -/

/-- The save of an edited order answers with a server error or with the
success. -/
theorem editSave_ne_notEditable (env : Env) (s : Store) (o : Order) :
    (match saveOrder env s o with
      | (none, s1) => (OrderResponse.serverError, s1)
      | (some saved, s1) => (OrderResponse.updated saved, s1)).1 ≠ .notEditable := by
  cases saveOrder env s o with
  | mk res s1 => cases res <;> simp

/-- C21. For an existing order and any request body, in any environment: the
order edit endpoint answers `Cannot edit delivered or cancelled orders` if and
only if the status of the order is `delivered` or `cancelled`, and in that
case the store is left exactly as it was, so the order found under the id is the
order as it was, with its lines, total amount, supplier, expected delivery
date and notes. -/
theorem edit_rejects_terminal_orders (env : Env) (s : Store) (id : ObjectId) (b : OrderBody)
    (order : Order) (hfind : findOrder s id = some order) :
    ((editOrder env s id b).1 = .notEditable ↔
      (order.status = .delivered ∨ order.status = .cancelled)) ∧
    ((order.status = .delivered ∨ order.status = .cancelled) →
      (editOrder env s id b).2 = s ∧
      findOrder (editOrder env s id b).2 id = some order) := by
  by_cases hst : order.status = .delivered ∨ order.status = .cancelled
  · have h : editOrder env s id b = (.notEditable, s) := by
      simp only [editOrder, hfind, hst, if_true]
    rw [h]
    exact ⟨⟨fun _ => hst, fun _ => rfl⟩, fun _ => ⟨rfl, hfind⟩⟩
  · refine ⟨⟨?_, fun h => absurd h hst⟩, fun h => absurd h hst⟩
    intro h
    exfalso
    simp only [editOrder, hfind, hst, if_false] at h
    by_cases hlen : b.products.length > 0
    · simp only [hlen, if_true] at h
      cases hb : buildLines s b.products with
      | error e =>
        simp only [hb] at h
        rcases buildLines_error s _ _ hb with ⟨_, he⟩ | ⟨_, he⟩ <;> rw [he] at h <;> cases h
      | ok drafts =>
        simp only [hb] at h
        cases hc : castLines drafts with
        | none => simp [hc] at h
        | some lines =>
          simp only [hc] at h
          exact editSave_ne_notEditable env s _ h
    · simp only [hlen, if_false] at h
      exact editSave_ne_notEditable env s _ h

/-- The example of C21: the edit of the cancelled order 902 with new lines,
supplier, delivery date and notes is rejected and the store is as it was, and
the same request on the confirmed order 902 of `beansOrderStore` is not
rejected in this way. -/
theorem edit_rejects_terminal_orders_witness :
    (editOrder quietEnv cancelledStore 902 fullEditBody).1 = .notEditable ∧
    (editOrder quietEnv cancelledStore 902 fullEditBody).2 = cancelledStore ∧
    (editOrder quietEnv beansOrderStore 902 fullEditBody).1 ≠ .notEditable :=
  ⟨(edit_rejects_terminal_orders quietEnv cancelledStore 902 fullEditBody cancelledBeansOrder
      (by decide!)).1.mpr (Or.inr rfl),
    ((edit_rejects_terminal_orders quietEnv cancelledStore 902 fullEditBody cancelledBeansOrder
      (by decide!)).2 (Or.inr rfl)).1,
    by decide!⟩

/-! ### C22: tenants without active users -/

/-- A tenant has a user among the active users exactly when it has an active user. -/
theorem hasUserOf_active (s : Store) (b : ObjectId) :
    hasUserOf (activeUsers s) b = tenantHasActiveUser s b := by
  have h1 := businessUsers_isEmpty_eq (activeUsers s) b
  have h2 := businessUsers_isEmpty s b
  rw [h1] at h2
  simpa using h2

/-- A list of users that has a user of a tenant is not empty for it. -/
theorem hasUserOf_of_cons (users : List User) (b : ObjectId) (u : User) (us : List User)
    (h : businessUsers users b = u :: us) : hasUserOf users b = true := by
  have h1 := businessUsers_isEmpty_eq users b
  rw [h] at h1
  cases hu : hasUserOf users b with
  | true => rfl
  | false => rw [hu] at h1; simp at h1

/-- The products whose order is saved have a user of their tenant. -/
theorem ordersSavedFor_user (env : Env) (users : List User) :
    ∀ (l : List Product) (t : Nat) (p : Product), p ∈ ordersSavedFor env users t l →
      hasUserOf users p.business = true := by
  intro l
  induction l with
  | nil => intro t p hp; simp [ordersSavedFor] at hp
  | cons q r ih =>
    intro t p hp
    simp only [ordersSavedFor] at hp
    split_ifs at hp with h1 h2
    · exact ih _ _ hp
    · exact ih _ _ hp
    · rcases List.mem_cons.mp hp with h | h
      · rw [h]
        simp only [Bool.or_eq_true, Bool.not_eq_true', decide_eq_true_eq, not_or,
          Bool.not_eq_false] at h1
        exact h1.1
      · exact ih _ _ h

/-- The pre-save hooks of the order schema keep the tenant of an order. -/
theorem preSave_business (now : Nat) (r : ℚ) (o : Order) :
    (o.preSave now r).business = o.business := by
  simp only [Order.preSave, Order.preSaveNumber, Order.preSaveTotal]
  split_ifs <;> rfl

/-- The save of a new order touches no notification; an order it appends has
the tenant and the lines of the order given. -/
theorem saveNewOrder_tenant (env : Env) (s : Store) (o : Order) :
    (saveNewOrder env s o).2.notifications = s.notifications ∧
    (((saveNewOrder env s o).1 = none ∧ (saveNewOrder env s o).2.orders = s.orders) ∨
      ∃ o1, (saveNewOrder env s o).1 = some o1 ∧ o1.business = o.business ∧
        o1.products = o.products ∧ (saveNewOrder env s o).2.orders = s.orders ++ [o1]) := by
  have h1 := preSave_business (env.clock s.tick) (env.random s.tick) o
  have h2 := (preSave_fields (env.clock s.tick) (env.random s.tick) o).1
  simp only [saveNewOrder, insertOrder]
  split_ifs
  · exact ⟨rfl, Or.inl ⟨rfl, rfl⟩⟩
  · exact ⟨rfl, Or.inl ⟨rfl, rfl⟩⟩
  · exact ⟨rfl, Or.inr ⟨_, rfl, h1, h2, rfl⟩⟩

/-- The save of a notification touches no order and appends the notification or
nothing. -/
theorem saveNotification_notes (env : Env) (s : Store) (n : Notification) :
    (saveNotification env s n).2.orders = s.orders ∧
    (((saveNotification env s n).1 = none ∧
        (saveNotification env s n).2.notifications = s.notifications) ∨
      ((saveNotification env s n).1 = some n ∧
        (saveNotification env s n).2.notifications = s.notifications ++ [n])) := by
  simp only [saveNotification]
  split_ifs
  · exact ⟨rfl, Or.inl ⟨rfl, rfl⟩⟩
  · exact ⟨rfl, Or.inr ⟨rfl, rfl⟩⟩

/-- One step of the real-time sweep in any environment appends at most one
notification, for the tenant of the product, and only when the tenant has a
user. -/
theorem autoReorderProduct_notes (env : Env) (users : List User) (s : Store) (p : Product) :
    ∃ notes, (autoReorderProduct env users s p).notifications = s.notifications ++ notes ∧
      ∀ n ∈ notes, n.business = some p.business ∧ hasUserOf users p.business = true := by
  simp only [autoReorderProduct]
  cases hb : businessUsers users p.business with
  | nil => exact ⟨[], by simp, by simp⟩
  | cons owner rest =>
    have hu := hasUserOf_of_cons users p.business owner rest hb
    simp only []
    have hstep : ∀ (o : Order) (data : Order → NotificationData),
        ∃ notes, (match saveNewOrder env s o with
          | (none, s1) => s1
          | (some saved, s1) =>
            (createNotification env s1 "Payment Pending - Auto Order" .payment_pending .high
              owner.id (data saved) p.business).2).notifications = s.notifications ++ notes ∧
          ∀ n ∈ notes, n.business = some p.business ∧ hasUserOf users p.business = true := by
      intro o data
      have h1 := (saveNewOrder_tenant env s o).1
      cases hsv : saveNewOrder env s o with
      | mk res s1 =>
        rw [hsv] at h1
        simp only [] at h1
        cases res with
        | none => exact ⟨[], by simp [h1], by simp⟩
        | some saved =>
          simp only [createNotification]
          rcases (saveNotification_notes env s1 _).2 with ⟨_, h⟩ | ⟨_, h⟩
          · exact ⟨[], by rw [h, h1]; simp, by simp⟩
          · refine ⟨[_], by rw [h, h1], ?_⟩
            intro n hn
            rw [List.mem_singleton] at hn
            subst hn
            exact ⟨rfl, hu⟩
    exact hstep _ (fun saved =>
      { productId := some p.id
        orderId := some saved.id
        orderNumber := saved.orderNumber
        quantity := some p.reorderQuantity
        amount := saved.totalAmount
        requiresPayment := true })

/-- The loop of the real-time sweep in any environment: every notification it
appends is for the tenant of one of the products, a tenant that has a user. -/
theorem foldl_autoReorderProduct_notes (env : Env) (users : List User) :
    ∀ (l : List Product) (s : Store),
      ∃ notes, (l.foldl (autoReorderProduct env users) s).notifications =
          s.notifications ++ notes ∧
        ∀ n ∈ notes, ∃ p ∈ l, n.business = some p.business ∧
          hasUserOf users p.business = true := by
  intro l
  induction l with
  | nil => intro s; exact ⟨[], by simp, by simp⟩
  | cons p t ih =>
    intro s
    obtain ⟨n1, h1, h2⟩ := autoReorderProduct_notes env users s p
    obtain ⟨n2, k1, k2⟩ := ih (autoReorderProduct env users s p)
    refine ⟨n1 ++ n2, by rw [List.foldl_cons, k1, h1, List.append_assoc], ?_⟩
    intro n hn
    rcases List.mem_append.mp hn with hn | hn
    · exact ⟨p, List.mem_cons_self _ _, h2 n hn⟩
    · obtain ⟨q, hq, hh⟩ := k2 n hn
      exact ⟨q, List.mem_cons_of_mem _ hq, hh⟩

/-- The order loop of the renewal sweep in any environment: every order and
every notification it appends is for the tenant of one of the groups, a tenant
that has a user, and the order has the lines of this group. -/
theorem renewGroups_tenants (env : Env) (users : List User) :
    ∀ (groups : List (String × SupplierGroup)) (s : Store),
      ∃ created notes,
        (renewGroups env users s groups).orders = s.orders ++ created ∧
        (renewGroups env users s groups).notifications = s.notifications ++ notes ∧
        (∀ o ∈ created, ∃ e ∈ groups, o.products = e.2.products ∧
          o.business = e.2.business ∧ hasUserOf users e.2.business = true) ∧
        (∀ n ∈ notes, ∃ e ∈ groups, n.business = some e.2.business ∧
          hasUserOf users e.2.business = true) := by
  intro groups
  induction groups with
  | nil => intro s; exact ⟨[], [], by simp [renewGroups], by simp [renewGroups], by simp, by simp⟩
  | cons e rest ih =>
    intro s
    obtain ⟨key, group⟩ := e
    simp only [renewGroups]
    cases hb : businessUsers users group.business with
    | nil =>
      obtain ⟨c, n, h1, h2, h3, h4⟩ := ih s
      refine ⟨c, n, h1, h2, ?_, ?_⟩
      · intro o ho
        obtain ⟨e, he, hh⟩ := h3 o ho
        exact ⟨e, List.mem_cons_of_mem _ he, hh⟩
      · intro m hm
        obtain ⟨e, he, hh⟩ := h4 m hm
        exact ⟨e, List.mem_cons_of_mem _ he, hh⟩
    | cons owner others =>
      have hu := hasUserOf_of_cons users group.business owner others hb
      simp only []
      generalize hord : ({
          id := env.newId s.tick
          products := group.products
          business := group.business
          totalAmount := some (group.products.foldl (fun sum item => sum + item.totalPrice) 0)
          supplier := some group.supplier
          createdBy := owner.id
          orderType := .automatic
          status := .pending
          paymentStatus := .pending
          expectedDeliveryDate := some (env.clock s.tick + twoDays)
          notes := some "Automatically generated order for low stock items - Payment pending" } :
            Order) = order
      have hob : order.business = group.business := by rw [← hord]
      have hop : order.products = group.products := by rw [← hord]
      obtain ⟨hn1, hcase⟩ := saveNewOrder_tenant env s order
      cases hsv : saveNewOrder env s order with
      | mk res s1 =>
        rw [hsv] at hn1 hcase
        simp only [] at hn1 hcase
        cases res with
        | none =>
          rcases hcase with ⟨_, ho⟩ | ⟨o1, h, _⟩
          · exact ⟨[], [], by simp [ho], by simp [hn1], by simp, by simp⟩
          · cases h
        | some saved =>
          rcases hcase with ⟨h, _⟩ | ⟨o1, h, hb1, hp1, ho⟩
          · cases h
          · cases h
            simp only [createNotification]
            have hsaved : ∃ e ∈ (key, group) :: rest, saved.products = e.2.products ∧
                saved.business = e.2.business ∧ hasUserOf users e.2.business = true :=
              ⟨(key, group), List.mem_cons_self _ _, hp1.trans hop, hb1.trans hob, hu⟩
            generalize hnote : ({
                title := "Payment Pending - Auto Order"
                type := .payment_pending
                priority := some .high
                recipient := owner.id
                business := some group.business
                data := {
                  orderId := some saved.id
                  orderNumber := saved.orderNumber
                  productCount := some group.products.length
                  amount := some (group.products.foldl (fun sum item => sum + item.totalPrice) 0)
                  requiresPayment := true } } : Notification) = note
            have hnb : note.business = some group.business := by rw [← hnote]
            obtain ⟨f1, f2⟩ := saveNotification_notes env s1 note
            cases hsn : saveNotification env s1 note with
            | mk res2 s2 =>
              rw [hsn] at f1 f2
              simp only [] at f1 f2
              cases res2 with
              | none =>
                rcases f2 with ⟨_, f2⟩ | ⟨h, _⟩
                · refine ⟨[saved], [], by rw [f1, ho], by rw [f2, hn1]; simp, ?_, by simp⟩
                  intro o hmem
                  rw [List.mem_singleton] at hmem
                  subst hmem
                  exact hsaved
                · cases h
              | some m =>
                rcases f2 with ⟨h, _⟩ | ⟨_, f2⟩
                · cases h
                · obtain ⟨c, n, h1, h2, h3, h4⟩ := ih s2
                  refine ⟨saved :: c, note :: n, ?_, ?_, ?_, ?_⟩
                  · rw [h1, f1, ho]; simp
                  · rw [h2, f2, hn1]; simp
                  · intro o hmem
                    rcases List.mem_cons.mp hmem with hmem | hmem
                    · subst hmem
                      exact hsaved
                    · obtain ⟨e, he, hh⟩ := h3 o hmem
                      exact ⟨e, List.mem_cons_of_mem _ he, hh⟩
                  · intro x hmem
                    rcases List.mem_cons.mp hmem with hmem | hmem
                    · subst hmem
                      exact ⟨(key, group), List.mem_cons_self _ _, hnb, hu⟩
                    · obtain ⟨e, he, hh⟩ := h4 x hmem
                      exact ⟨e, List.mem_cons_of_mem _ he, hh⟩

/-- A pointwise relation between two lists gives every element of the first a
partner in the second. -/
theorem forall₂_mem_left {α β : Type} {R : α → β → Prop} :
    ∀ {l1 : List α} {l2 : List β}, List.Forall₂ R l1 l2 → ∀ a ∈ l1, ∃ b ∈ l2, R a b := by
  intro l1 l2 h
  induction h with
  | nil => intro a ha; cases ha
  | cons hab _ ih =>
    intro a ha
    rcases List.mem_cons.mp ha with ha | ha
    · subst ha
      exact ⟨_, List.mem_cons_self _ _, hab⟩
    · obtain ⟨b, hb, hr⟩ := ih a ha
      exact ⟨b, List.mem_cons_of_mem _ hb, hr⟩

/-- The groups of the low-stock products of a store. -/
theorem grouped_lowStock (s : Store) :
    GroupedFrom ((lowStockProducts s).foldl addToGroup []) (lowStockProducts s) := by
  have := foldl_addToGroup (lowStockProducts s) [] [] ⟨List.nodup_nil, by simp, by simp⟩
  simpa using this

/-- Without active users no tenant has an active user. -/
theorem no_active_user (s : Store) (hu : activeUsers s = []) (b : ObjectId) :
    tenantHasActiveUser s b = false := by
  rw [← hasUserOf_active, hu]
  rfl

/-- C22. In any environment, every order and every notification that
`checkAndAutoReorder` or `autoRenewStock` appends is for a tenant that has an
active user; the order of the real-time sweep is the automatic order of an
active low-stock product of this tenant, and every line of an order of the
renewal sweep is the reorder line of an active low-stock product of this
tenant. When no write fails and the reorder quantities are at least 1, every
active low-stock product whose tenant has an active user gets its order from
each of the two sweeps, whatever the other products are. When there is no
active user at all, each of the three sweeps returns the store exactly as it
was. All three are total functions. -/
theorem sweeps_skip_tenants_without_users (env : Env) (s : Store) :
    (∃ created notes,
      (checkAndAutoReorder env s).orders = s.orders ++ created ∧
      (checkAndAutoReorder env s).notifications = s.notifications ++ notes ∧
      (∀ o ∈ created, ∃ p ∈ lowStockProducts s, IsAutoOrderFor p o ∧
        tenantHasActiveUser s p.business = true) ∧
      (∀ n ∈ notes, ∃ b, n.business = some b ∧ tenantHasActiveUser s b = true)) ∧
    (∃ created notes,
      (autoRenewStock env s).orders = s.orders ++ created ∧
      (autoRenewStock env s).notifications = s.notifications ++ notes ∧
      (∀ o ∈ created, tenantHasActiveUser s o.business = true ∧
        ∀ l ∈ o.products, ∃ p ∈ lowStockProducts s, l = reorderLine p ∧
          p.business = o.business) ∧
      (∀ n ∈ notes, ∃ b, n.business = some b ∧ tenantHasActiveUser s b = true)) ∧
    ((∀ k, env.writeFails k = false) → (∀ p ∈ s.products, 1 ≤ p.reorderQuantity) →
      ∀ p ∈ lowStockProducts s, tenantHasActiveUser s p.business = true →
        (∃ o ∈ (checkAndAutoReorder env s).orders, IsAutoOrderFor p o) ∧
        (∃ o ∈ (autoRenewStock env s).orders, o.business = p.business ∧
          reorderLine p ∈ o.products)) ∧
    (activeUsers s = [] →
      checkLowStock env s = s ∧ checkAndAutoReorder env s = s ∧ autoRenewStock env s = s) := by
  refine ⟨?_, ?_, ?_, ?_⟩
  · obtain ⟨created, h1, h2, _⟩ := checkAndAutoReorder_any env s
    have hnotes : ∃ notes, (checkAndAutoReorder env s).notifications = s.notifications ++ notes ∧
        ∀ n ∈ notes, ∃ p ∈ lowStockProducts s, n.business = some p.business ∧
          hasUserOf (activeUsers s) p.business = true := by
      simp only [checkAndAutoReorder]
      split_ifs
      · exact ⟨[], by simp, by simp⟩
      · exact ⟨[], by simp, by simp⟩
      · exact foldl_autoReorderProduct_notes env (activeUsers s) (lowStockProducts s) s
    obtain ⟨notes, k1, k2⟩ := hnotes
    refine ⟨created, notes, h1, k1, ?_, ?_⟩
    · intro o ho
      obtain ⟨p, hp, hauto⟩ := forall₂_mem_right h2 o ho
      refine ⟨p, mem_ordersSavedFor env _ _ _ p hp, hauto, ?_⟩
      rw [← hasUserOf_active]
      exact ordersSavedFor_user env _ _ _ p hp
    · intro n hn
      obtain ⟨p, _, hb, hu⟩ := k2 n hn
      exact ⟨p.business, hb, by rw [← hasUserOf_active]; exact hu⟩
  · have hG := grouped_lowStock s
    have hall : ∃ created notes,
        (autoRenewStock env s).orders = s.orders ++ created ∧
        (autoRenewStock env s).notifications = s.notifications ++ notes ∧
        (∀ o ∈ created, ∃ e ∈ (lowStockProducts s).foldl addToGroup [],
          o.products = e.2.products ∧ o.business = e.2.business ∧
          hasUserOf (activeUsers s) e.2.business = true) ∧
        (∀ n ∈ notes, ∃ e ∈ (lowStockProducts s).foldl addToGroup [],
          n.business = some e.2.business ∧
          hasUserOf (activeUsers s) e.2.business = true) := by
      simp only [autoRenewStock]
      split_ifs
      · exact ⟨[], [], by simp, by simp, by simp, by simp⟩
      · exact ⟨[], [], by simp, by simp, by simp, by simp⟩
      · exact renewGroups_tenants env (activeUsers s) _ s
    obtain ⟨created, notes, h1, h2, h3, h4⟩ := hall
    refine ⟨created, notes, h1, h2, ?_, ?_⟩
    · intro o ho
      obtain ⟨e, he, hp, hb, hu⟩ := h3 o ho
      refine ⟨by rw [hb, ← hasUserOf_active]; exact hu, ?_⟩
      intro l hl
      rw [hp, (hG.2.2 e he).1] at hl
      simp only [List.mem_map, List.mem_filter, decide_eq_true_eq] at hl
      obtain ⟨p, ⟨hpl, hkey⟩, rfl⟩ := hl
      refine ⟨p, hpl, rfl, ?_⟩
      rw [(hG.2.2 e he).2, groupKey_eq_pairKey, pairKey_inj] at hkey
      rw [hb]
      exact congrArg Prod.snd hkey
    · intro n hn
      obtain ⟨e, _, hb, hu⟩ := h4 n hn
      exact ⟨e.2.business, hb, by rw [← hasUserOf_active]; exact hu⟩
  · intro hw hrq p hp htenant
    constructor
    · obtain ⟨created, h1, h2, _⟩ := checkAndAutoReorder_spec env s hw hrq
      have hq : p ∈ qualifyingProducts s := by
        obtain ⟨hps, hlow⟩ := List.mem_filter.mp hp
        simp only [Bool.and_eq_true] at hlow
        simp only [qualifyingProducts, List.mem_filter, Bool.and_eq_true]
        exact ⟨hps, ⟨hlow.2, hlow.1⟩, htenant⟩
      obtain ⟨o, ho, hauto⟩ := forall₂_mem_left h2 p hq
      exact ⟨o, by rw [h1]; exact List.mem_append_right _ ho, hauto⟩
    · obtain ⟨_, hmem, hent⟩ := grouped_lowStock s
      have hne : ¬ (lowStockProducts s).length = 0 := by
        intro h
        rw [List.length_eq_zero.mp h] at hp
        cases hp
      have hnu : ¬ (activeUsers s).length = 0 := by
        intro h
        rw [no_active_user s (List.length_eq_zero.mp h)] at htenant
        cases htenant
      have hq : ∀ e ∈ (lowStockProducts s).foldl addToGroup [],
          ∀ l ∈ e.2.products, 1 ≤ l.quantity := by
        intro e he l hl
        rw [(hent e he).1] at hl
        simp only [List.mem_map, List.mem_filter] at hl
        obtain ⟨q, ⟨hq, _⟩, rfl⟩ := hl
        exact hrq q (List.mem_of_mem_filter hq)
      obtain ⟨created, notes, k1, _, k3, _⟩ := renewGroups_spec env (activeUsers s) hw _ s hq
      obtain ⟨e, he, hek⟩ := List.mem_map.mp ((hmem (groupKey p)).mpr ⟨p, hp, rfl⟩)
      have hpair : p.business = e.2.business := by
        have hk := hek
        rw [(hent e he).2, groupKey_eq_pairKey, pairKey_inj] at hk
        exact (congrArg Prod.snd hk).symm
      have hef : e ∈ ((lowStockProducts s).foldl addToGroup []).filter
          (fun e => !(businessUsers (activeUsers s) e.2.business).isEmpty) := by
        refine List.mem_filter.mpr ⟨he, ?_⟩
        rw [businessUsers_isEmpty, ← hpair]
        exact htenant
      obtain ⟨o, ho, _, _, _, r4, _, r6⟩ := forall₂_mem_left k3 e hef
      refine ⟨o, ?_, r4.trans hpair.symm, ?_⟩
      · simp only [autoRenewStock, hne, hnu, if_false]
        rw [k1]
        exact List.mem_append_right _ ho
      · rw [r6, (hent e he).1]
        exact List.mem_map_of_mem _ (List.mem_filter.mpr ⟨hp, by simpa using hek.symm⟩)
  · intro hu
    refine ⟨?_, ?_, ?_⟩
    · simp [checkLowStock, hu]
    · simp only [checkAndAutoReorder, hu]
      split_ifs <;> first | rfl | simp at *
    · simp only [autoRenewStock, hu]
      split_ifs <;> first | rfl | simp at *

/-- The example of C22: in `groupingStore`, where tenant 8 has no user, the
real-time sweep creates orders for the three low-stock products of tenant 7
and none for `flour` of tenant 8; in the same store without users nothing
happens. -/
theorem sweeps_skip_tenants_without_users_witness :
    (checkAndAutoReorder quietEnv groupingStore).orders.map (fun o => o.business) = [7, 7, 7] ∧
    (autoRenewStock quietEnv groupingStore).orders.map (fun o => o.business) = [7, 7] ∧
    checkAndAutoReorder quietEnv { groupingStore with users := [] } =
      { groupingStore with users := [] } ∧
    ∃ o ∈ (checkAndAutoReorder quietEnv groupingStore).orders, IsAutoOrderFor lentils o :=
  ⟨by decide!, by decide!,
    ((sweeps_skip_tenants_without_users quietEnv { groupingStore with users := [] }).2.2.2
      rfl).2.1,
    ((sweeps_skip_tenants_without_users quietEnv groupingStore).2.2.1 (fun _ => rfl)
      (by decide!) lentils (by decide!) (by decide!)).1⟩

/-! ### C23: what the payment workflow does to an order -/

/-- The pre-save hooks of the order schema keep the payment fields of an order. -/
theorem preSave_payment (now : Nat) (r : ℚ) (o : Order) :
    (o.preSave now r).paymentStatus = o.paymentStatus ∧
    (o.preSave now r).paymentAmount = o.paymentAmount ∧
    (o.preSave now r).paymentId = o.paymentId ∧
    (o.preSave now r).paymentDate = o.paymentDate := by
  simp only [Order.preSave, Order.preSaveNumber, Order.preSaveTotal]
  split_ifs <;> exact ⟨rfl, rfl, rfl, rfl⟩

/-- The save of an order that was loaded by its id: it either throws and leaves
the orders alone, or the order it returns is the one found under the id
afterwards, with the status, the lines and the payment fields of the order
given. -/
theorem saveOrder_found (env : Env) (s : Store) (id : ObjectId) (order o : Order)
    (hfind : findOrder s id = some order) (hid : o.id = order.id) :
    ((saveOrder env s o).1 = none ∧ (saveOrder env s o).2.orders = s.orders) ∨
    ∃ o1, (saveOrder env s o).1 = some o1 ∧
      findOrder (saveOrder env s o).2 id = some o1 ∧
      o1.status = o.status ∧ o1.products = o.products ∧
      o1.paymentStatus = o.paymentStatus ∧ o1.paymentAmount = o.paymentAmount ∧
      o1.paymentId = o.paymentId ∧ o1.paymentDate = o.paymentDate := by
  have hoid : order.id = id := by
    have := List.find?_some hfind
    simpa using this
  obtain ⟨f1, f2, f3, _⟩ := preSave_fields (env.clock s.tick) (env.random s.tick) o
  obtain ⟨g1, g2, g3, g4⟩ := preSave_payment (env.clock s.tick) (env.random s.tick) o
  simp only [saveOrder, replaceOrder]
  split_ifs
  · exact Or.inl ⟨rfl, rfl⟩
  · exact Or.inl ⟨rfl, rfl⟩
  · refine Or.inr ⟨_, rfl, ?_, f3, f1, g1, g2, g3, g4⟩
    simp only [findOrder]
    rw [f2, hid, hoid]
    exact findOrder_replace s.orders id order _ hfind (f2.trans (hid.trans hoid))

/-- The save of a new payment touches no order. -/
theorem saveNewPayment_orders (env : Env) (s : Store) (p : Payment) :
    (saveNewPayment env s p).2.orders = s.orders := by
  simp only [saveNewPayment]
  split_ifs <;> rfl

/-- The save of a stored payment touches no order; the payment it returns is
for the order of the payment given. -/
theorem savePayment_orders (env : Env) (s : Store) (p : Payment) :
    (savePayment env s p).2.orders = s.orders ∧
    ∀ saved, (savePayment env s p).1 = some saved → saved.order = p.order := by
  simp only [savePayment, Payment.preSave]
  split_ifs <;> simp

/-- The payment create endpoint in any environment, for an existing order: the
order found under the id afterwards has the status and the lines it had; when
the answer is the success its payment status is `processing` and its payment
amount is the amount of the payment. -/
theorem createPayment_order (env : Env) (s : Store) (user : ReqUser) (orderId : ObjectId)
    (paymentMethod : String) (order : Order) (hfind : findOrder s orderId = some order) :
    ∃ o1, findOrder (createPayment env s user orderId paymentMethod).2 orderId = some o1 ∧
      o1.status = order.status ∧ o1.products = order.products ∧
      ∀ p, (createPayment env s user orderId paymentMethod).1 = .paymentCreated p →
        o1.paymentStatus = .processing ∧ o1.paymentAmount = p.amount := by
  have hkeep : ∀ (r : PaymentResponse) (s1 : Store), s1.orders = s.orders →
      (∀ p, r ≠ .paymentCreated p) →
      ∃ o1, findOrder (r, s1).2 orderId = some o1 ∧
        o1.status = order.status ∧ o1.products = order.products ∧
        ∀ p, (r, s1).1 = .paymentCreated p →
          o1.paymentStatus = .processing ∧ o1.paymentAmount = p.amount := by
    intro r s1 ho hr
    refine ⟨order, ?_, rfl, rfl, fun p hp => absurd hp (hr p)⟩
    simp only [findOrder, ho]
    exact hfind
  simp only [createPayment, hfind]
  split_ifs
  · simpa using hkeep .validationErrors s rfl (by simp)
  · simpa using hkeep .alreadyCompleted s rfl (by simp)
  cases hta : order.totalAmount with
  | none => simpa using hkeep .serverError s rfl (by simp)
  | some amount =>
    simp only []
    generalize hpay : ({
        id := env.newId s.tick
        business := user.currentBusiness
        order := order.id
        amount := amount
        paymentMethod := paymentMethod
        createdBy := user.id } : Payment) = payment
    have h1 := saveNewPayment_orders env s payment
    have hamt : ∀ saved, (saveNewPayment env s payment).1 = some saved →
        saved.amount = amount := by
      intro saved
      simp only [saveNewPayment, Payment.preSave, ← hpay]
      split_ifs <;> simp <;> intro h <;> rw [← h]
    cases hsv : saveNewPayment env s payment with
    | mk res s1 =>
      rw [hsv] at h1 hamt
      simp only [] at h1 hamt
      cases res with
      | none => exact hkeep .serverError s1 h1 (by simp)
      | some saved =>
        simp only []
        have hfind1 : findOrder s1 orderId = some order := by
          simp only [findOrder, h1]
          exact hfind
        have h2 : ∀ o : Order, o.id = order.id → o.status = order.status →
            o.products = order.products → o.paymentStatus = .processing →
            o.paymentAmount = amount →
            ∃ o1, findOrder (match saveOrder env s1 o with
                | (none, s2) => (PaymentResponse.serverError, s2)
                | (some _, s2) => (PaymentResponse.paymentCreated saved, s2)).2 orderId =
                  some o1 ∧
              o1.status = order.status ∧ o1.products = order.products ∧
              ∀ p, (match saveOrder env s1 o with
                | (none, s2) => (PaymentResponse.serverError, s2)
                | (some _, s2) => (PaymentResponse.paymentCreated saved, s2)).1 =
                  .paymentCreated p →
                o1.paymentStatus = .processing ∧ o1.paymentAmount = p.amount := by
          intro o hid hst hpr hps hpa
          have hc := saveOrder_found env s1 orderId order o hfind1 hid
          cases hso : saveOrder env s1 o with
          | mk res2 s2 =>
            rw [hso] at hc
            simp only [] at hc
            cases res2 with
            | none =>
              rcases hc with ⟨_, ho⟩ | ⟨o1, h, _⟩
              · exact hkeep .serverError s2 (ho.trans h1) (by simp)
              · cases h
            | some o2 =>
              rcases hc with ⟨h, _⟩ | ⟨o1, h, k1, k2, k3, k4, k5, _⟩
              · cases h
              · cases h
                refine ⟨o2, k1, k2.trans hst, k3.trans hpr, ?_⟩
                intro p hp
                simp only [PaymentResponse.paymentCreated.injEq] at hp
                subst hp
                exact ⟨k4.trans hps, (k5.trans hpa).trans (hamt _ rfl).symm⟩
        exact h2 _ rfl rfl rfl rfl rfl

/-- The payment verify endpoint in any environment, for a payment record whose
order exists: when the answer is the success, the order of the answer is the
one found under the id afterwards, its status is `confirmed` whatever it was,
its payment status is `completed`, its payment id is the one of the request,
and its lines are those it had. -/
theorem verifyPayment_order (env : Env) (s : Store) (user : ReqUser) (b : VerifyBody)
    (payment : Payment) (order : Order)
    (hpay : s.payments.find? (fun p => p.id == b.transactionId) = some payment)
    (hfind : findOrder s payment.order = some order) :
    ∀ saved, (verifyPayment env s user b).1 = .verified saved →
      saved.status = .confirmed ∧ saved.paymentStatus = .completed ∧
      saved.paymentId = some b.paymentId ∧ saved.products = order.products ∧
      findOrder (verifyPayment env s user b).2 payment.order = some saved := by
  intro saved
  simp only [verifyPayment, verifyPaymentSignature, if_true, hpay]
  split_ifs
  · intro h; cases h
  generalize hp1 : ({ payment with
      status := .completed
      gatewayPaymentId := some b.paymentId
      paymentDate := some (env.clock s.tick) } : Payment) = payment1
  have hpo : payment1.order = payment.order := by rw [← hp1]
  obtain ⟨h1, h2⟩ := savePayment_orders env s payment1
  cases hsv : savePayment env s payment1 with
  | mk res s1 =>
    rw [hsv] at h1 h2
    simp only [] at h1 h2
    cases res with
    | none => intro h; cases h
    | some savedPayment =>
      have hso : savedPayment.order = payment.order := (h2 _ rfl).trans hpo
      have hfind1 : findOrder s1 savedPayment.order = some order := by
        simp only [findOrder, h1, hso]
        exact hfind
      simp only [hfind1]
      generalize ho1 : ({ order with
          paymentStatus := .completed
          paymentId := some b.paymentId
          paymentDate := some (env.clock s1.tick)
          status := .confirmed } : Order) = order1
      have hc := saveOrder_found env s1 savedPayment.order order order1 hfind1 (by rw [← ho1])
      cases hsvo : saveOrder env s1 order1 with
      | mk res2 s2 =>
        rw [hsvo] at hc
        simp only [] at hc
        cases res2 with
        | none => intro h; cases h
        | some savedOrder =>
          rcases hc with ⟨h, _⟩ | ⟨o1, h, k1, k2, k3, k4, _, k6, _⟩
          · cases h
          · cases h
            simp only []
            generalize hnote : ({
                business := some user.currentBusiness
                title := "Payment Successful"
                type := .payment_success
                priority := some .high
                recipient := user.id
                data := {
                  orderId := some savedOrder.id
                  orderNumber := savedOrder.orderNumber
                  paymentId := some savedPayment.id
                  transactionId := savedPayment.transactionId } } : Notification) = note
            have f2 := (saveNotification_frame env s2 note).2.1
            cases hsn : saveNotification env s2 note with
            | mk res3 s3 =>
              rw [hsn] at f2
              simp only [] at f2
              cases res3 with
              | none => intro h; cases h
              | some _ =>
                intro h
                simp only [PaymentResponse.verified.injEq] at h
                subst h
                refine ⟨k2.trans (by rw [← ho1]), k4.trans (by rw [← ho1]),
                  k6.trans (by rw [← ho1]), k3.trans (by rw [← ho1]), ?_⟩
                simp only [findOrder, f2]
                rw [← hso]
                exact k1

/-- The payment verify endpoint when no write fails, for a valid payment record
whose order exists and passes the order schema, and a request with the three
strings: the answer is the success. -/
theorem verifyPayment_succeeds (env : Env) (s : Store) (user : ReqUser) (b : VerifyBody)
    (payment : Payment) (order : Order)
    (hpay : s.payments.find? (fun p => p.id == b.transactionId) = some payment)
    (hfind : findOrder s payment.order = some order)
    (hw : ∀ k, env.writeFails k = false) (hpv : payment.valid = true)
    (hov : order.valid = true)
    (hb : b.paymentId ≠ "" ∧ b.orderId ≠ "" ∧ b.signature ≠ "") :
    ∃ saved, (verifyPayment env s user b).1 = .verified saved := by
  have hpv1 : ∀ (st : PaymentRecordStatus) (g : Option String) (d : Option Nat),
      ({ payment with status := st, gatewayPaymentId := g, paymentDate := d } : Payment).valid =
        true := fun _ _ _ => hpv
  simp only [verifyPayment, verifyPaymentSignature, if_true, hpay, hb.1, hb.2.1, hb.2.2,
    or_self, if_false, savePayment, hpv1, hw, Bool.not_true, Bool.false_eq_true]
  have hfind1 : ∀ (t : Nat) (pays : List Payment) (p : Payment), p.order = payment.order →
      findOrder { s with payments := pays, tick := t } p.order = some order := by
    intro t pays p hp
    rw [hp]
    exact hfind
  rw [hfind1 _ _ _ (by simp only [Payment.preSave]; split_ifs <;> rfl)]
  simp only []
  rw [saveOrder_ok env _ _ (hw _) (by exact hov)]
  simp only [saveNotification, hw, Bool.false_eq_true, if_false]
  exact ⟨_, rfl⟩

/-- C23, as stated, fails: the verification of the payment for the pending
order 902 leaves the order with status `confirmed` and payment status
`completed`, and the same request for the delivered order 902 sets its status
back from `delivered` to `confirmed`. -/
theorem verify_confirms_order_counterexample :
    (findOrder paymentStore 902).map (fun o => o.status) = some .pending ∧
    (findOrder (verifyPayment quietEnv paymentStore owner verifyBeans).2 902).map
      (fun o => (o.status, o.paymentStatus)) = some (.confirmed, .completed) ∧
    (findOrder deliveredPaymentStore 902).map (fun o => o.status) = some .delivered ∧
    (findOrder (verifyPayment quietEnv deliveredPaymentStore owner verifyBeans).2 902).map
      (fun o => (o.status, o.paymentStatus)) = some (.confirmed, .completed) := by
  decide!

/-- C23, amended. For every existing order, whatever its status: after the
payment create endpoint, in any environment, the order found under the id has
the status and the lines it had, and when the request succeeded its payment
status is `processing` and its payment amount is the amount of the payment.
The payment verify endpoint for a payment record of this order, when it
succeeds, sets the status of the order to `confirmed`, its payment status to
`completed` and its payment id to the one of the request, and keeps its lines;
and it succeeds when no write fails, the payment record and the order pass
their schemas and the request carries its three strings. -/
theorem payment_workflow_order_status (env : Env) (s : Store) (user : ReqUser)
    (orderId : ObjectId) (paymentMethod : String) (b : VerifyBody) (order : Order)
    (hfind : findOrder s orderId = some order) :
    (∃ o1, findOrder (createPayment env s user orderId paymentMethod).2 orderId = some o1 ∧
      o1.status = order.status ∧ o1.products = order.products ∧
      ∀ p, (createPayment env s user orderId paymentMethod).1 = .paymentCreated p →
        o1.paymentStatus = .processing ∧ o1.paymentAmount = p.amount) ∧
    (∀ payment, s.payments.find? (fun p => p.id == b.transactionId) = some payment →
      payment.order = orderId →
      (∀ saved, (verifyPayment env s user b).1 = .verified saved →
        saved.status = .confirmed ∧ saved.paymentStatus = .completed ∧
        saved.paymentId = some b.paymentId ∧ saved.products = order.products ∧
        findOrder (verifyPayment env s user b).2 orderId = some saved) ∧
      ((∀ k, env.writeFails k = false) → payment.valid = true → order.valid = true →
        b.paymentId ≠ "" ∧ b.orderId ≠ "" ∧ b.signature ≠ "" →
        ∃ saved, (verifyPayment env s user b).1 = .verified saved)) := by
  refine ⟨createPayment_order env s user orderId paymentMethod order hfind, ?_⟩
  intro payment hpay hpo
  subst hpo
  exact ⟨verifyPayment_order env s user b payment order hpay hfind,
    verifyPayment_succeeds env s user b payment order hpay hfind⟩

/-- The example of C23: for the pending order 902 of `paymentStore` the payment
create request succeeds and leaves the status `pending` with payment status
`processing`; the verification of its payment record succeeds. -/
theorem payment_workflow_order_status_witness :
    (findOrder (createPayment quietEnv paymentStore owner 902 "upi").2 902).map
      (fun o => (o.status, o.paymentStatus, o.paymentAmount)) =
        some (.pending, .processing, 49) ∧
    (∃ o1, findOrder (createPayment quietEnv paymentStore owner 902 "upi").2 902 = some o1 ∧
      o1.status = pendingBeansOrder.status ∧ o1.products = pendingBeansOrder.products ∧
      ∀ p, (createPayment quietEnv paymentStore owner 902 "upi").1 = .paymentCreated p →
        o1.paymentStatus = .processing ∧ o1.paymentAmount = p.amount) ∧
    ∃ saved, (verifyPayment quietEnv paymentStore owner verifyBeans).1 = .verified saved :=
  ⟨by decide!,
    (payment_workflow_order_status quietEnv paymentStore owner 902 "upi" verifyBeans
      pendingBeansOrder (by decide!)).1,
    ((payment_workflow_order_status quietEnv paymentStore owner 902 "upi" verifyBeans
      pendingBeansOrder (by decide!)).2 beansPayment (by decide!) rfl).2 (fun _ => rfl)
      (by decide!) (by decide!) (by decide!)⟩

/-! ### Lemmas on decimal numerals -/

/-- The digit loop with enough fuel: the numeral of the quotient, if it is not
zero, then the last digit, in front of the digits collected so far. -/
theorem toDigitsCore_eq :
    ∀ (fuel n : Nat) (acc : List Char), n < fuel →
      Nat.toDigitsCore 10 fuel n acc =
        (if n / 10 = 0 then [] else Nat.toDigits 10 (n / 10)) ++
          Nat.digitChar (n % 10) :: acc := by
  intro fuel
  induction fuel using Nat.strong_induction_on with
  | _ fuel ih =>
    intro n acc hn
    cases fuel with
    | zero => omega
    | succ f =>
      simp only [Nat.toDigitsCore]
      by_cases h0 : n / 10 = 0
      · simp [h0]
      · simp only [h0, if_false]
        have hlt : n / 10 < f := by omega
        rw [ih f (Nat.lt_succ_self f) (n / 10) _ hlt]
        have h2 : Nat.toDigits 10 (n / 10) =
            (if n / 10 / 10 = 0 then [] else Nat.toDigits 10 (n / 10 / 10)) ++
              [Nat.digitChar (n / 10 % 10)] := by
          unfold Nat.toDigits
          exact ih (n / 10 + 1) (by omega) (n / 10) [] (Nat.lt_succ_self _)
        rw [h2]
        simp

/-- The decimal numeral of a number: the numeral of its tenth part, unless
that is zero, followed by its last digit. -/
theorem toDigits_eq (n : Nat) :
    Nat.toDigits 10 n =
      (if n / 10 = 0 then [] else Nat.toDigits 10 (n / 10)) ++ [Nat.digitChar (n % 10)] := by
  unfold Nat.toDigits
  exact toDigitsCore_eq (n + 1) n [] (Nat.lt_succ_self n)

/-- The last six characters of the decimal numeral of a number of at least six
digits are the six digits of its remainder modulo 1000000. -/
theorem lastN_six (n : Nat) (hn : 100000 ≤ n) :
    lastN 6 (Nat.toDigits 10 n) = sixDigits n := by
  have e0 := toDigits_eq n
  have e1 := toDigits_eq (n / 10)
  have e2 := toDigits_eq (n / 10 / 10)
  have e3 := toDigits_eq (n / 10 / 10 / 10)
  have e4 := toDigits_eq (n / 10 / 10 / 10 / 10)
  have e5 := toDigits_eq (n / 10 / 10 / 10 / 10 / 10)
  have h1 : ¬ n / 10 = 0 := by omega
  have h2 : ¬ n / 10 / 10 = 0 := by omega
  have h3 : ¬ n / 10 / 10 / 10 = 0 := by omega
  have h4 : ¬ n / 10 / 10 / 10 / 10 = 0 := by omega
  have h5 : ¬ n / 10 / 10 / 10 / 10 / 10 = 0 := by omega
  simp only [h1, h2, h3, h4, h5, if_false] at e0 e1 e2 e3 e4
  rw [e0, e1, e2, e3, e4, e5]
  have d5 : n / 10 / 10 / 10 / 10 / 10 % 10 = n / 100000 % 10 := by omega
  have d4 : n / 10 / 10 / 10 / 10 % 10 = n / 10000 % 10 := by omega
  have d3 : n / 10 / 10 / 10 % 10 = n / 1000 % 10 := by omega
  have d2 : n / 10 / 10 % 10 = n / 100 % 10 := by omega
  rw [d5, d4, d3, d2]
  simp [lastN, sixDigits]

/-- The decimal numeral of a number below 1000, padded with zeros to three
characters, consists of its three digits. -/
theorem padStart0_three (k : Nat) (hk : k < 1000) :
    padStart0 3 (Nat.toDigits 10 k) = threeDigits k := by
  have e0 := toDigits_eq k
  have e1 := toDigits_eq (k / 10)
  have e2 := toDigits_eq (k / 10 / 10)
  have h3 : k / 10 / 10 / 10 = 0 := by omega
  have d2 : k / 10 / 10 % 10 = k / 100 % 10 := by omega
  simp only [h3, if_true, List.nil_append] at e2
  by_cases h1 : k / 10 = 0
  · have hz1 : k / 10 % 10 = 0 := by omega
    have hz2 : k / 100 % 10 = 0 := by omega
    simp only [h1, if_true, List.nil_append] at e0
    rw [e0]
    simp [padStart0, threeDigits, hz1, hz2, Nat.digitChar]
  · by_cases h2 : k / 10 / 10 = 0
    · have hz2 : k / 100 % 10 = 0 := by omega
      simp only [h1, if_false] at e0
      simp only [h2, if_true, List.nil_append] at e1
      rw [e0, e1]
      simp [padStart0, threeDigits, hz2, Nat.digitChar]
    · simp only [h1, if_false] at e0
      simp only [h2, if_false] at e1
      rw [e0, e1, e2, d2]
      simp [padStart0, threeDigits]

/-- The character of a digit below ten is a decimal digit. -/
theorem isDigit_digitChar (m : Nat) (hm : m < 10) : (Nat.digitChar m).isDigit = true := by
  interval_cases m <;> rfl

/-- Two digits below ten with the same character are equal. -/
theorem digitChar_inj_of_lt (a b : Nat) (ha : a < 10) (hb : b < 10)
    (h : Nat.digitChar a = Nat.digitChar b) : a = b := by
  have := digitChar_inj ⟨a, by omega⟩ ⟨b, by omega⟩ h
  exact congrArg Fin.val this

/-- The whole part of a thousand times a draw from `[0, 1)` is below 1000. -/
theorem floor_draw_lt (r : ℚ) (h0 : 0 ≤ r) (h1 : r < 1) :
    0 ≤ ⌊r * 1000⌋ ∧ (⌊r * 1000⌋).toNat < 1000 := by
  have hf0 : 0 ≤ ⌊r * 1000⌋ := Int.floor_nonneg.mpr (by positivity)
  have hf1 : ⌊r * 1000⌋ < 1000 := by
    rw [Int.floor_lt]
    push_cast
    linarith
  exact ⟨hf0, by omega⟩

/-- The generated order number for a clock value of at least six digits and a
draw from `[0, 1)`, written out. -/
theorem genOrderNumber_eq (now : Nat) (r : ℚ) (hnow : 100000 ≤ now) (h0 : 0 ≤ r) (h1 : r < 1) :
    genOrderNumber now r =
      "ORD-" ++ String.mk (sixDigits now) ++ "-" ++
        String.mk (threeDigits (⌊r * 1000⌋).toNat) := by
  simp only [genOrderNumber, orderNumberOf]
  rw [lastN_six now hnow, padStart0_three _ (floor_draw_lt r h0 h1).2]

/-- The generated order number is the template at the whole part of a thousand
times the draw. -/
theorem genOrderNumber_orderNumberOf (now : Nat) (r : ℚ) :
    genOrderNumber now r = orderNumberOf now (⌊r * 1000⌋).toNat := rfl

/-- The template for a clock value of at least six digits and an integer below
1000, written out. -/
theorem orderNumberOf_eq (now k : Nat) (hnow : 100000 ≤ now) (hk : k < 1000) :
    orderNumberOf now k =
      "ORD-" ++ String.mk (sixDigits now) ++ "-" ++ String.mk (threeDigits k) := by
  simp only [orderNumberOf]
  rw [lastN_six now hnow, padStart0_three _ hk]

/-- Every character of a decimal numeral is a decimal digit. -/
theorem toDigits_isDigit (n : Nat) : ∀ c ∈ Nat.toDigits 10 n, c.isDigit = true := by
  induction n using Nat.strong_induction_on with
  | _ n ih =>
    intro c hc
    rw [toDigits_eq n] at hc
    rcases List.mem_append.mp hc with h | h
    · by_cases h0 : n / 10 = 0
      · simp [h0] at h
      · simp only [h0, if_false] at h
        exact ih (n / 10) (by omega) c h
    · rw [List.mem_singleton] at h
      rw [h]
      exact isDigit_digitChar _ (Nat.mod_lt _ (by norm_num))

/-- The decimal numeral of a number below `10 ^ (k + 1)` has between one and
`k + 1` characters. -/
theorem toDigits_length_le (k : Nat) :
    ∀ n, n < 10 ^ (k + 1) →
      0 < (Nat.toDigits 10 n).length ∧ (Nat.toDigits 10 n).length ≤ k + 1 := by
  induction k with
  | zero =>
    intro n hn
    have h0 : n / 10 = 0 := by omega
    rw [toDigits_eq n]
    simp [h0]
  | succ k ih =>
    intro n hn
    rw [toDigits_eq n]
    by_cases h0 : n / 10 = 0
    · simp [h0]
    · simp only [h0, if_false, List.length_append, List.length_singleton]
      have hlt : n / 10 < 10 ^ (k + 1) := by
        rw [pow_succ] at hn
        omega
      have := ih (n / 10) hlt
      omega

/-- The last six characters of a list of at most six characters are the whole
list. -/
theorem lastN_of_length_le {α : Type} (n : Nat) (l : List α) (h : l.length ≤ n) :
    lastN n l = l := by
  simp only [lastN]
  rw [Nat.sub_eq_zero_of_le h]
  rfl

/-- The order number that the hooks give to an order without order number is
the template at the clock value and an integer below 1000, for a draw from
`[0, 1)`. -/
theorem preSave_orderNumber (now : Nat) (r : ℚ) (o : Order) (h0 : 0 ≤ r) (h1 : r < 1)
    (hnone : o.orderNumber = none) :
    ∃ k, k < 1000 ∧ (o.preSave now r).orderNumber = some (orderNumberOf now k) := by
  refine ⟨(⌊r * 1000⌋).toNat, (floor_draw_lt r h0 h1).2, ?_⟩
  simp only [Order.preSave, Order.preSaveNumber, Order.preSaveTotal, hnone, true_or, if_true]
  split_ifs <;> rfl

/-- The six digits of a number are decimal digits. -/
theorem sixDigits_isDigit (n : Nat) : ∀ c ∈ sixDigits n, c.isDigit = true := by
  intro c hc
  simp only [sixDigits, List.mem_cons, List.mem_singleton, List.not_mem_nil, or_false] at hc
  rcases hc with h | h | h | h | h | h <;> rw [h] <;>
    exact isDigit_digitChar _ (Nat.mod_lt _ (by norm_num))

/-- The three digits of a number are decimal digits. -/
theorem threeDigits_isDigit (k : Nat) : ∀ c ∈ threeDigits k, c.isDigit = true := by
  intro c hc
  simp only [threeDigits, List.mem_cons, List.mem_singleton, List.not_mem_nil, or_false] at hc
  rcases hc with h | h | h <;> rw [h] <;>
    exact isDigit_digitChar _ (Nat.mod_lt _ (by norm_num))

/-! ### C24: the format of a generated order number -/

/-- C24, as stated, fails: saved at the clock value 5 with the draw 1/2, an order
without order number gets the number `ORD-5-500`, whose timestamp part has one
digit. -/
theorem short_clock_order_number_counterexample :
    firstNewOrder.orderNumber = none ∧
    (saveNewOrder earlyEnv riceStore firstNewOrder).1.map (fun o => o.orderNumber) =
      some (some "ORD-5-500") := by
  decide!

/-- C24, amended. When an order without order number is saved, as a new
document or as a stored one, with a draw from `[0, 1)`, the order number of the
saved order is `ORD-`, a timestamp part, `-`, and the three decimal digits of
an integer below 1000. At a clock value of at least 100000 the timestamp part
is the six decimal digits of the clock value modulo 1000000, which are the
last six characters of the decimal numeral of the clock value. At a clock
value below 100000 the timestamp part is the whole decimal numeral of the
clock value, which has at least one and fewer than six characters, all of them
decimal digits. -/
theorem orderNumber_format (env : Env) (s s1 : Store) (o saved : Order)
    (h0 : 0 ≤ env.random s.tick) (h1 : env.random s.tick < 1)
    (hnone : o.orderNumber = none)
    (hsave : saveNewOrder env s o = (some saved, s1) ∨ saveOrder env s o = (some saved, s1)) :
    ∃ k, k < 1000 ∧
      (threeDigits k).length = 3 ∧
      (∀ c ∈ threeDigits k, c.isDigit = true) ∧
      (100000 ≤ env.clock s.tick →
        saved.orderNumber = some ("ORD-" ++ String.mk (sixDigits (env.clock s.tick)) ++ "-" ++
          String.mk (threeDigits k)) ∧
        (sixDigits (env.clock s.tick)).length = 6 ∧
        (∀ c ∈ sixDigits (env.clock s.tick), c.isDigit = true) ∧
        ∃ front, Nat.toDigits 10 (env.clock s.tick) = front ++ sixDigits (env.clock s.tick)) ∧
      (env.clock s.tick < 100000 →
        saved.orderNumber = some ("ORD-" ++ String.mk (Nat.toDigits 10 (env.clock s.tick)) ++
          "-" ++ String.mk (threeDigits k)) ∧
        0 < (Nat.toDigits 10 (env.clock s.tick)).length ∧
        (Nat.toDigits 10 (env.clock s.tick)).length < 6 ∧
        ∀ c ∈ Nat.toDigits 10 (env.clock s.tick), c.isDigit = true) := by
  have hsaved : saved = o.preSave (env.clock s.tick) (env.random s.tick) := by
    rcases hsave with hsave | hsave
    · simp only [saveNewOrder] at hsave
      split_ifs at hsave
      · simp at hsave
      · simp at hsave
      · simp only [Prod.mk.injEq, Option.some.injEq] at hsave
        exact hsave.1.symm
    · simp only [saveOrder] at hsave
      split_ifs at hsave
      · simp at hsave
      · simp at hsave
      · simp only [Prod.mk.injEq, Option.some.injEq] at hsave
        exact hsave.1.symm
  obtain ⟨k, hk, hnum⟩ := preSave_orderNumber (env.clock s.tick) (env.random s.tick) o h0 h1 hnone
  rw [← hsaved] at hnum
  refine ⟨k, hk, rfl, threeDigits_isDigit k, ?_, ?_⟩
  · intro hnow
    refine ⟨?_, rfl, sixDigits_isDigit _, ?_⟩
    · rw [hnum, orderNumberOf_eq _ _ hnow hk]
    · refine ⟨(Nat.toDigits 10 (env.clock s.tick)).take
        ((Nat.toDigits 10 (env.clock s.tick)).length - 6), ?_⟩
      rw [← lastN_six _ hnow]
      simp only [lastN]
      exact (List.take_append_drop _ _).symm
  · intro hnow
    have hlen := toDigits_length_le 4 (env.clock s.tick) (by norm_num; omega)
    refine ⟨?_, hlen.1, by omega, toDigits_isDigit _⟩
    rw [hnum]
    simp only [orderNumberOf]
    rw [lastN_of_length_le 6 _ (by omega), padStart0_three _ hk]

/-- The examples of C24: the first order saved in `quietEnv`, whose clock shows
1700000123456, gets the number `ORD-123456-500`, and the first order saved in
`earlyEnv`, whose clock shows 5, gets the timestamp part `5`. -/
theorem orderNumber_format_witness :
    (saveNewOrder quietEnv riceStore firstNewOrder).1.map (fun o => o.orderNumber) =
      some (some "ORD-123456-500") ∧
    (∃ k, k < 1000 ∧
      (firstNewOrder.preSave (quietEnv.clock 0) (quietEnv.random 0)).orderNumber =
        some ("ORD-" ++ String.mk (sixDigits 1700000123456) ++ "-" ++
          String.mk (threeDigits k))) ∧
    (∃ k, k < 1000 ∧
      (firstNewOrder.preSave (earlyEnv.clock 0) (earlyEnv.random 0)).orderNumber =
        some ("ORD-" ++ String.mk (Nat.toDigits 10 5) ++ "-" ++ String.mk (threeDigits k))) :=
  ⟨by decide!,
    (orderNumber_format quietEnv riceStore (saveNewOrder quietEnv riceStore firstNewOrder).2
      firstNewOrder
      (firstNewOrder.preSave (quietEnv.clock 0) (quietEnv.random 0))
      (by decide!) (by decide!) rfl (Or.inl (by decide!))).elim
      (fun k hk => ⟨k, hk.1, (hk.2.2.2.1 (by decide!)).1⟩),
    (orderNumber_format earlyEnv riceStore (saveNewOrder earlyEnv riceStore firstNewOrder).2
      firstNewOrder
      (firstNewOrder.preSave (earlyEnv.clock 0) (earlyEnv.random 0))
      (by decide!) (by decide!) rfl (Or.inl (by decide!))).elim
      (fun k hk => ⟨k, hk.1, (hk.2.2.2.2 (by decide!)).1⟩)⟩

/-! ### C25: when two generated order numbers are equal -/

/-- C25, as stated, fails: two distinct new orders of tenant 7, the second
created 1000000 milliseconds after the first with a draw in the same
thousandth, are given the same order number. -/
theorem order_numbers_collide_counterexample :
    firstNewOrder.id ≠ secondNewOrder.id ∧ firstNewOrder.business = secondNewOrder.business ∧
    (firstNewOrder.preSave 1700000000000 (1 / 2)).orderNumber = some "ORD-000000-500" ∧
    (secondNewOrder.preSave 1700001000000 (1 / 2 + 1 / 4000)).orderNumber =
      some "ORD-000000-500" := by
  decide!

/-- The save of a new order against the unique index keeps the stored order
numbers distinct per tenant. -/
theorem saveNewOrderIndexed_unique (env : Env) (s : Store) (o : Order)
    (huniq : UniqueOrderNumbers s) :
    UniqueOrderNumbers (saveNewOrderIndexed env s o).2 := by
  simp only [saveNewOrderIndexed]
  split_ifs with hv hw
  · exact huniq
  · exact huniq
  · have hno : violatesOrderNumberIndex s
        (o.preSave (env.clock s.tick) (env.random s.tick)) = false := by
      cases h : violatesOrderNumberIndex s (o.preSave (env.clock s.tick) (env.random s.tick))
      · rfl
      · simp [h] at hw
    simp only [UniqueOrderNumbers, insertOrder]
    rw [List.pairwise_append]
    refine ⟨huniq, List.pairwise_singleton _ _, ?_⟩
    intro a ha b hb
    rw [List.mem_singleton] at hb
    subst hb
    rintro ⟨h1, h2⟩
    have : violatesOrderNumberIndex s
        (o.preSave (env.clock s.tick) (env.random s.tick)) = true := by
      simp only [violatesOrderNumberIndex, List.any_eq_true]
      exact ⟨a, ha, by simp [h1, h2]⟩
    rw [hno] at this
    cases this

/-- The save of a new order that violates the unique index stores no order
and answers with a failure. -/
theorem saveNewOrderIndexed_rejected (env : Env) (s : Store) (o : Order)
    (hv : violatesOrderNumberIndex s (o.preSave (env.clock s.tick) (env.random s.tick)) = true) :
    (saveNewOrderIndexed env s o).1 = none ∧
      (saveNewOrderIndexed env s o).2.orders = s.orders := by
  simp only [saveNewOrderIndexed, hv, Bool.or_true, if_true]
  split_ifs <;> exact ⟨rfl, rfl⟩

/-- The save of a new order in an environment that fails the writes violating
the unique index is the save against the index. -/
theorem saveNewOrder_eq_indexed (env : Env) (s : Store) (o : Order)
    (hidx : violatesOrderNumberIndex s (o.preSave (env.clock s.tick) (env.random s.tick)) = true →
      env.writeFails s.tick = true) :
    saveNewOrder env s o = saveNewOrderIndexed env s o := by
  simp only [saveNewOrder, saveNewOrderIndexed]
  by_cases hv : (!o.valid) = true
  · simp only [hv, if_true]
  · simp only [hv, if_false]
    cases hw : env.writeFails s.tick
    · cases hx : violatesOrderNumberIndex s (o.preSave (env.clock s.tick) (env.random s.tick))
      · rfl
      · rw [hidx hx] at hw
        cases hw
    · rfl

/-- C25, amended. The order number that the hooks give to an order without
order number, for a draw from `[0, 1)`, is the template at the clock value and
an integer below 1000. For two clock values of at least 100000 and two
integers below 1000 the templates are equal exactly when the two clock values
have the same remainder modulo 1000000 and the two integers are equal. The
save of a new order against the unique index `(business, orderNumber)` stores
no order and answers with a failure when the order as the hooks leave it has
the tenant and the order number of a stored order, and if no two stored orders
have the same tenant and order number before the save, none have after it.
The save of a new order as the handlers perform it is this save in every
environment that fails the writes violating the index. -/
theorem order_numbers_equal_iff (now1 now2 k1 k2 : Nat) (r : ℚ) (env : Env) (s : Store)
    (o : Order)
    (hn1 : 100000 ≤ now1) (hn2 : 100000 ≤ now2) (hk1 : k1 < 1000) (hk2 : k2 < 1000) :
    (0 ≤ r → r < 1 → o.orderNumber = none →
      ∃ k, k < 1000 ∧ (o.preSave now1 r).orderNumber = some (orderNumberOf now1 k)) ∧
    (orderNumberOf now1 k1 = orderNumberOf now2 k2 ↔
      (now1 % 1000000 = now2 % 1000000 ∧ k1 = k2)) ∧
    (violatesOrderNumberIndex s (o.preSave (env.clock s.tick) (env.random s.tick)) = true →
      (saveNewOrderIndexed env s o).1 = none ∧
      (saveNewOrderIndexed env s o).2.orders = s.orders) ∧
    (UniqueOrderNumbers s → UniqueOrderNumbers (saveNewOrderIndexed env s o).2) ∧
    ((violatesOrderNumberIndex s (o.preSave (env.clock s.tick) (env.random s.tick)) = true →
        env.writeFails s.tick = true) →
      saveNewOrder env s o = saveNewOrderIndexed env s o) := by
  refine ⟨fun h0 h1 hnone => preSave_orderNumber now1 r o h0 h1 hnone, ?_,
    saveNewOrderIndexed_rejected env s o, saveNewOrderIndexed_unique env s o,
    saveNewOrder_eq_indexed env s o⟩
  rw [orderNumberOf_eq now1 k1 hn1 hk1, orderNumberOf_eq now2 k2 hn2 hk2]
  have hdig : ∀ a b : Nat,
      Nat.digitChar (a % 10) = Nat.digitChar (b % 10) ↔ a % 10 = b % 10 := by
    intro a b
    constructor
    · exact digitChar_inj_of_lt _ _ (Nat.mod_lt _ (by norm_num)) (Nat.mod_lt _ (by norm_num))
    · intro h; rw [h]
  constructor
  · intro h
    have hl := congrArg String.data h
    simp only [String.data_append, sixDigits, threeDigits, List.cons_append, List.nil_append,
      List.append_assoc] at hl
    have hl2 : ("ORD-".data ++ (sixDigits now1 ++ ("-".data ++ threeDigits k1))) =
        ("ORD-".data ++ (sixDigits now2 ++ ("-".data ++ threeDigits k2))) := by
      simpa [sixDigits, threeDigits] using hl
    have hl3 := List.append_cancel_left hl2
    simp only [sixDigits, threeDigits, List.cons_append, List.nil_append, List.cons.injEq,
      hdig, and_true] at hl3
    obtain ⟨a5, a4, a3, a2, a1, a0, _, b2, b1, b0⟩ := hl3
    exact ⟨by omega, by omega⟩
  · rintro ⟨hn, hr⟩
    have e5 : now1 / 100000 % 10 = now2 / 100000 % 10 := by omega
    have e4 : now1 / 10000 % 10 = now2 / 10000 % 10 := by omega
    have e3 : now1 / 1000 % 10 = now2 / 1000 % 10 := by omega
    have e2 : now1 / 100 % 10 = now2 / 100 % 10 := by omega
    have e1 : now1 / 10 % 10 = now2 / 10 % 10 := by omega
    have e0 : now1 % 10 = now2 % 10 := by omega
    simp only [sixDigits, e5, e4, e3, e2, e1, e0, hr]

/-- The examples of C25. The clock values 1700000000000 and 1700001000000 agree
modulo 1000000, so the templates at 500 are equal; one millisecond later the
template is another one. In `steppingEnv` the order `firstNewOrder` is stored
with the number `ORD-000000-500` and the order `secondNewOrder` of the same
tenant is then given the same number: its save against the index fails and
the store holds the first order alone. In `indexEnv`, which fails this write,
the save of the handlers is the save against the index. -/
theorem order_numbers_equal_iff_witness :
    (orderNumberOf 1700000000000 500 = orderNumberOf 1700001000000 500 ∧
      orderNumberOf 1700000000000 500 ≠ orderNumberOf 1700000000001 500) ∧
    ((saveNewOrder steppingEnv riceStore firstNewOrder).2.orders.map
        (fun q => (q.id, q.orderNumber)) = [(910, some "ORD-000000-500")] ∧
      (secondNewOrder.preSave (steppingEnv.clock 1) (steppingEnv.random 1)).orderNumber =
        some "ORD-000000-500" ∧
      (saveNewOrderIndexed steppingEnv (saveNewOrder steppingEnv riceStore firstNewOrder).2
        secondNewOrder).1 = none ∧
      (saveNewOrderIndexed steppingEnv (saveNewOrder steppingEnv riceStore firstNewOrder).2
        secondNewOrder).2.orders =
          (saveNewOrder steppingEnv riceStore firstNewOrder).2.orders) ∧
    saveNewOrder indexEnv (saveNewOrder indexEnv riceStore firstNewOrder).2 secondNewOrder =
      saveNewOrderIndexed indexEnv (saveNewOrder indexEnv riceStore firstNewOrder).2
        secondNewOrder :=
  ⟨⟨(order_numbers_equal_iff 1700000000000 1700001000000 500 500 (1 / 2) steppingEnv riceStore
      firstNewOrder (by norm_num) (by norm_num) (by norm_num) (by norm_num)).2.1.mpr
      (by decide),
    fun h => absurd ((order_numbers_equal_iff 1700000000000 1700000000001 500 500 (1 / 2)
      steppingEnv riceStore firstNewOrder (by norm_num) (by norm_num) (by norm_num)
      (by norm_num)).2.1.mp h).1 (by decide)⟩,
   ⟨by decide!, by decide!,
    (order_numbers_equal_iff 1700000000000 1700001000000 500 500 (1 / 2) steppingEnv
      (saveNewOrder steppingEnv riceStore firstNewOrder).2 secondNewOrder
      (by norm_num) (by norm_num) (by norm_num) (by norm_num)).2.2.1 (by decide!)⟩,
   (order_numbers_equal_iff 1700000000000 1700001000000 500 500 (1 / 2) indexEnv
      (saveNewOrder indexEnv riceStore firstNewOrder).2 secondNewOrder
      (by norm_num) (by norm_num) (by norm_num) (by norm_num)).2.2.2.2 (fun _ => by decide!)⟩

/-! ### C26: the cost price of a restock request -/

/-- C26, the code at the failing input. The restock request for 2 units of
`rice` with `costPrice: 0` passes the validators and succeeds, and the cost
price of `rice` is still 3; with `costPrice: 5` it becomes 5, and without a
cost price it stays 3. -/
theorem restock_ignores_zero_cost_price :
    restockValid { quantity := .num 2, costPrice := some 0 } = true ∧
    (restock quietEnv riceStore owner 1 { quantity := .num 2, costPrice := some 0 }).1.isRestocked =
      true ∧
    (restock quietEnv riceStore owner 1
      { quantity := .num 2, costPrice := some 0 }).2.products.map
        (fun p => (p.currentStock, p.costPrice)) = [(97, 3)] ∧
    (restock quietEnv riceStore owner 1
      { quantity := .num 2, costPrice := some 5 }).2.products.map
        (fun p => (p.currentStock, p.costPrice)) = [(97, 5)] ∧
    (restock quietEnv riceStore owner 1
      { quantity := .num 2 }).2.products.map
        (fun p => (p.currentStock, p.costPrice)) = [(97, 3)] := by
  decide!

/-! ### C27: delivery and the maximum stock level -/

/-- C27, the code at the failing input. `rice` holds 95 of at most 100 and the
order has two lines of 4 units each for it. Each line passes the check against
the stored stock (99 is not above 100), the delivery succeeds, and `rice` ends
with 103 units, above its maximum. -/
theorem delivery_exceeds_ceiling :
    overstockCheck doubleLineStore doubleLineOrder.products = none ∧
    (updateOrderStatus quietEnv doubleLineStore owner 904 .delivered).1.isUpdated = true ∧
    doubleLineStore.products.map (fun p => (p.currentStock, p.maxStockLevel)) = [(95, 100)] ∧
    (updateOrderStatus quietEnv doubleLineStore owner 904 .delivered).2.products.map
      (fun p => (p.currentStock, p.maxStockLevel)) = [(103, 100)] := by
  decide!

/-! ### C29: a restock quantity sent as a string -/

/-- C29, the code at the failing input. The request body with `quantity: "5"`
passes the validators. For `beans`, which holds 2 units, the restock succeeds
and leaves 25 units, not 7; for `rice`, which holds 95 of at most 100, the
request is rejected for capacity although 95 + 5 is not above 100. With the
number 5 the results are 7 units and a success with 100 units. -/
theorem restock_string_quantity_concatenates :
    restockValid { quantity := .str "5".toList } = true ∧
    (restock quietEnv beansStore owner 2 { quantity := .str "5".toList }).1.isRestocked = true ∧
    (restock quietEnv beansStore owner 2 { quantity := .str "5".toList }).2.products.map
      (fun p => p.currentStock) = [25] ∧
    (restock quietEnv riceStore owner 1 { quantity := .str "5".toList }).1 =
      .capacityExceeded
        { currentStock := 95
          maxStockLevel := 100
          requestedQuantity := .str "5".toList
          maxAllowedQuantity := 5 } ∧
    (restock quietEnv beansStore owner 2 { quantity := .num 5 }).2.products.map
      (fun p => p.currentStock) = [7] ∧
    (restock quietEnv riceStore owner 1 { quantity := .num 5 }).2.products.map
      (fun p => p.currentStock) = [100] := by
  decide!

/-! ### C28: the ceiling after the manual stock-increasing operations -/

/-- The save of a product whose stock is not above its maximum: it either
throws and leaves the products alone, or every stored product with the id is
afterwards the saved product, whose stock is within the ceiling, and the other
products are as they were. -/
theorem saveProduct_bounds (env : Env) (s : Store) (p : Product)
    (hle : p.currentStock ≤ p.maxStockLevel) :
    ((saveProduct env s p).1 = none ∧ (saveProduct env s p).2.products = s.products) ∨
    (∃ saved, (saveProduct env s p).1 = some saved ∧ saved.id = p.id ∧ WithinCeiling saved ∧
      ∀ q ∈ (saveProduct env s p).2.products,
        (q.id = p.id → q = saved) ∧ (q.id ≠ p.id → q ∈ s.products)) := by
  simp only [saveProduct, replaceProduct]
  split_ifs with hv hw
  · exact Or.inl ⟨rfl, rfl⟩
  · exact Or.inl ⟨rfl, rfl⟩
  · refine Or.inr ⟨_, rfl, rfl, ⟨?_, hle⟩, ?_⟩
    · simp only [Bool.not_eq_true, Bool.not_eq_false', Product.valid, Bool.and_eq_true,
        decide_eq_true_eq] at hv
      exact hv.1.1.1.1.1.1.1.1.1.2
    · intro q hq
      obtain ⟨q0, hq0, hq0e⟩ := List.mem_map.mp hq
      by_cases hc : q0.id = p.preValidate.id
      · rw [if_pos hc] at hq0e
        exact ⟨fun _ => hq0e.symm, fun h => absurd (by rw [← hq0e]; rfl) h⟩
      · rw [if_neg hc] at hq0e
        subst hq0e
        exact ⟨fun h => absurd h hc, fun _ => hq0⟩

/-- After a successful restock every stored product with the id is within the
ceiling. -/
theorem restock_bounds (env : Env) (s : Store) (user : ReqUser) (id : ObjectId)
    (b : RestockBody) (hok : (restock env s user id b).1.isRestocked = true) :
    ∀ q ∈ (restock env s user id b).2.products, q.id = id → WithinCeiling q := by
  revert hok
  simp only [restock]
  split_ifs with hvalid
  · intro h; cases h
  cases hf : s.products.find? (fun p => p.id == id && p.business == user.currentBusiness) with
  | none => intro h; cases h
  | some product =>
    have hid : product.id = id := by
      have := List.find?_some hf
      simp only [Bool.and_eq_true, beq_iff_eq] at this
      exact this.1
    simp only []
    split_ifs with hgt
    · intro h; cases h
    cases hc : castNumber (jsAdd product.currentStock b.quantity) with
    | none => intro h; cases h
    | some stock =>
      have hle : stock ≤ product.maxStockLevel := by
        simp only [jsGt, castNumber] at hgt hc
        rw [hc] at hgt
        simpa using hgt
      simp only []
      have hstep : ∀ p2 : Product, p2.id = id → p2.currentStock ≤ p2.maxStockLevel →
          (match saveProduct env s p2 with
            | (none, s1) => (StockResponse.serverError, s1)
            | (some saved, s1) =>
              (StockResponse.restocked saved (decide (saved.currentStock ≤ saved.minStockLevel)),
                s1)).1.isRestocked = true →
          ∀ q ∈ (match saveProduct env s p2 with
            | (none, s1) => (StockResponse.serverError, s1)
            | (some saved, s1) =>
              (StockResponse.restocked saved (decide (saved.currentStock ≤ saved.minStockLevel)),
                s1)).2.products, q.id = id → WithinCeiling q := by
        intro p2 hp2 hle2
        have hc2 := saveProduct_bounds env s p2 hle2
        cases hsv : saveProduct env s p2 with
        | mk res s1 =>
          rw [hsv] at hc2
          simp only [] at hc2
          cases res with
          | none => intro h; cases h
          | some saved =>
            rcases hc2 with ⟨h, _⟩ | ⟨sv, h, _, hw, hall⟩
            · cases h
            · cases h
              intro _ q hq hqid
              rw [(hall q hq).1 (hqid.trans hp2.symm)]
              exact hw
      cases hcp : b.costPrice with
      | none => exact hstep _ hid hle
      | some c =>
        simp only []
        split_ifs
        · exact hstep _ hid hle
        · exact hstep _ hid hle

/-- After a successful manual reorder every stored product with the id is
within the ceiling. -/
theorem reorder_bounds (env : Env) (s : Store) (user : ReqUser) (id : ObjectId)
    (saved : Product) (status : StockStatus) (order : Order)
    (hok : (reorder env s user id).1 = .reordered saved status order) :
    ∀ q ∈ (reorder env s user id).2.products, q.id = id → WithinCeiling q := by
  revert hok
  simp only [reorder]
  cases hf : findProduct s id with
  | none => intro h; cases h
  | some product =>
    have hid : product.id = id := (findProduct_some s id product hf).2
    simp only []
    split_ifs with hact hcap
    · intro h; cases h
    · intro h; cases h
    have hle : product.currentStock + product.reorderQuantity ≤ product.maxStockLevel :=
      not_lt.mp hcap
    have hstep : ∀ (o : Order) (note : Product → Order → Notification),
        (match saveNewOrder env s o with
          | (none, s1) => (StockResponse.serverError, s1)
          | (some order1, s1) =>
            match saveProduct env s1 { product with
                currentStock := product.currentStock + product.reorderQuantity
                lastRestocked := some (env.clock s1.tick) } with
            | (none, s2) => (StockResponse.serverError, s2)
            | (some saved, s2) =>
              match saveNotification env s2 (note saved order1) with
              | (none, s3) => (StockResponse.serverError, s3)
              | (some _, s3) =>
                (StockResponse.reordered saved (inlineStockStatus saved) order1, s3)).1 =
            .reordered saved status order →
        ∀ q ∈ (match saveNewOrder env s o with
          | (none, s1) => (StockResponse.serverError, s1)
          | (some order1, s1) =>
            match saveProduct env s1 { product with
                currentStock := product.currentStock + product.reorderQuantity
                lastRestocked := some (env.clock s1.tick) } with
            | (none, s2) => (StockResponse.serverError, s2)
            | (some saved, s2) =>
              match saveNotification env s2 (note saved order1) with
              | (none, s3) => (StockResponse.serverError, s3)
              | (some _, s3) =>
                (StockResponse.reordered saved (inlineStockStatus saved) order1, s3)).2.products,
          q.id = id → WithinCeiling q := by
      intro o note
      cases hsv : saveNewOrder env s o with
      | mk res s1 =>
        cases res with
        | none => intro h; cases h
        | some order1 =>
          simp only []
          have hc2 := saveProduct_bounds env s1 { product with
            currentStock := product.currentStock + product.reorderQuantity
            lastRestocked := some (env.clock s1.tick) } hle
          cases hsp : saveProduct env s1 { product with
              currentStock := product.currentStock + product.reorderQuantity
              lastRestocked := some (env.clock s1.tick) } with
          | mk res2 s2 =>
            rw [hsp] at hc2
            simp only [] at hc2
            cases res2 with
            | none => intro h; cases h
            | some sv =>
              rcases hc2 with ⟨h, _⟩ | ⟨sv1, h, _, hw, hall⟩
              · cases h
              · cases h
                simp only []
                have f1 := (saveNotification_frame env s2 (note sv order1)).1
                cases hsn : saveNotification env s2 (note sv order1) with
                | mk res3 s3 =>
                  rw [hsn] at f1
                  simp only [] at f1
                  cases res3 with
                  | none => intro h; cases h
                  | some _ =>
                    intro _ q hq hqid
                    simp only [f1] at hq
                    rw [(hall q hq).1 (hqid.trans hid.symm)]
                    exact hw
    exact hstep _ (fun saved order1 =>
      { recipient := user.id
        business := some saved.business
        type := .system_alert
        title := "Product Reordered"
        data := {
          productId := some saved.id
          orderId := some order1.id
          quantity := some product.reorderQuantity } })

/-- One step of the bulk reorder in any environment: every product is as it
was or has the id and is within the ceiling; and when the id is added to the
results every stored product with the id is within the ceiling. -/
theorem reorderOne_bounds (env : Env) (user : ReqUser) (st : BulkState) (id : ObjectId) :
    (∀ q ∈ (reorderOne env user st id).store.products,
      q ∈ st.store.products ∨ (q.id = id ∧ WithinCeiling q)) ∧
    ((reorderOne env user st id).results = st.results ∨
      ∃ r, (reorderOne env user st id).results = st.results ++ [r] ∧ r.productId = id ∧
        ∀ q ∈ (reorderOne env user st id).store.products, q.id = id → WithinCeiling q) := by
  have hsame : ∀ q ∈ st.store.products, q ∈ st.store.products ∨ (q.id = id ∧ WithinCeiling q) :=
    fun q hq => Or.inl hq
  simp only [reorderOne]
  cases hf : findProduct st.store id with
  | none => exact ⟨hsame, Or.inl rfl⟩
  | some p =>
    have hid : p.id = id := (findProduct_some _ id p hf).2
    simp only []
    split_ifs with hact hcap
    · exact ⟨hsame, Or.inl rfl⟩
    · exact ⟨hsame, Or.inl rfl⟩
    · have hle : p.currentStock + p.reorderQuantity ≤ p.maxStockLevel := not_lt.mp hcap
      generalize hord : ({
          id := env.newId st.store.tick
          products := [{
            product := p.id
            quantity := p.reorderQuantity
            unitPrice := p.costPrice
            totalPrice := p.reorderQuantity * p.costPrice }]
          business := p.business
          status := .confirmed
          orderType := .manual
          supplier := some p.supplier
          expectedDeliveryDate := some (env.clock st.store.tick + twoDays)
          createdBy := user.id
          notes := some ("Bulk reorder for " ++ p.name ++ " - Low stock alert triggered") } :
            Order) = order
      have hprod := (saveNewOrder_cases env st.store order).1
      cases hsv : saveNewOrder env st.store order with
      | mk res s1 =>
        rw [hsv] at hprod
        simp only [] at hprod
        cases res with
        | none =>
          refine ⟨?_, Or.inl rfl⟩
          simp only [hprod]
          exact hsame
        | some order1 =>
          simp only []
          generalize hprd : ({ p with
              currentStock := p.currentStock + p.reorderQuantity
              lastRestocked := some (env.clock s1.tick) } : Product) = p1
          have hp1id : p1.id = p.id := by rw [← hprd]
          have hle1 : p1.currentStock ≤ p1.maxStockLevel := by rw [← hprd]; exact hle
          have hc2 := saveProduct_bounds env s1 p1 hle1
          cases hsp : saveProduct env s1 p1 with
          | mk res2 s2 =>
            rw [hsp] at hc2
            simp only [] at hc2
            cases res2 with
            | none =>
              rcases hc2 with ⟨_, hp⟩ | ⟨sv1, h, _⟩
              · refine ⟨?_, Or.inl rfl⟩
                simp only [hp, hprod]
                exact hsame
              · cases h
            | some sv =>
              rcases hc2 with ⟨h, _⟩ | ⟨sv1, h, hsid, hw, hall⟩
              · cases h
              · cases h
                have hall2 : ∀ q ∈ s2.products, q.id = id → WithinCeiling q := by
                  intro q hq hqid
                  rw [(hall q hq).1 (hqid.trans (hp1id.trans hid).symm)]
                  exact hw
                refine ⟨?_, Or.inr ⟨_, rfl, hsid.trans (hp1id.trans hid), hall2⟩⟩
                intro q hq
                by_cases hqid : q.id = id
                · exact Or.inr ⟨hqid, hall2 q hq hqid⟩
                · refine Or.inl ?_
                  have := (hall q hq).2 (fun h => hqid (h.trans (hp1id.trans hid)))
                  rw [hprod] at this
                  exact this

/-- The loop of the bulk reorder in any environment: at the end, every stored
product whose id was added to the results is within the ceiling, if that held
of the results at the start. -/
theorem foldl_reorderOne_bounds (env : Env) (user : ReqUser) :
    ∀ (ids : List ObjectId) (st : BulkState),
      (∀ r ∈ st.results, ∀ q ∈ st.store.products, q.id = r.productId → WithinCeiling q) →
      ∀ r ∈ (ids.foldl (reorderOne env user) st).results,
        ∀ q ∈ (ids.foldl (reorderOne env user) st).store.products,
          q.id = r.productId → WithinCeiling q := by
  intro ids
  induction ids with
  | nil => intro st h; exact h
  | cons id rest ih =>
    intro st h
    rw [List.foldl_cons]
    apply ih
    obtain ⟨hprods, hres⟩ := reorderOne_bounds env user st id
    intro r hr q hq hqid
    rcases hres with hres | ⟨r1, hres, hr1, hall⟩
    · rw [hres] at hr
      rcases hprods q hq with hq0 | ⟨_, hw⟩
      · exact h r hr q hq0 hqid
      · exact hw
    · rw [hres] at hr
      rcases List.mem_append.mp hr with hr | hr
      · rcases hprods q hq with hq0 | ⟨_, hw⟩
        · exact h r hr q hq0 hqid
        · exact hw
      · rw [List.mem_singleton] at hr
        subst hr
        exact hall q hq (hqid.trans hr1)

/-- C28. In any environment: after a successful restock and after a successful
manual reorder every stored product with the id of the request has a stock
that is neither negative nor above its maximum; and after the bulk reorder of
any list of ids, repeated ids included, the same holds of every stored product
whose id the loop added to the results, which are the results of the answer. -/
theorem manual_restock_within_ceiling (env : Env) (s : Store) (user : ReqUser)
    (id : ObjectId) (ids : List ObjectId) (b : RestockBody) :
    ((restock env s user id b).1.isRestocked = true →
      ∀ q ∈ (restock env s user id b).2.products, q.id = id → WithinCeiling q) ∧
    (∀ saved status order, (reorder env s user id).1 = .reordered saved status order →
      ∀ q ∈ (reorder env s user id).2.products, q.id = id → WithinCeiling q) ∧
    (∀ r ∈ (ids.foldl (reorderOne env user) { store := s }).results,
      ∀ q ∈ (reorderMultiple env s user ids).2.products,
        q.id = r.productId → WithinCeiling q) ∧
    (∀ results errors, (reorderMultiple env s user ids).1 = .completed results errors →
      results = (ids.foldl (reorderOne env user) { store := s }).results) := by
  refine ⟨restock_bounds env s user id b, reorder_bounds env s user id, ?_, ?_⟩
  · have h := foldl_reorderOne_bounds env user ids { store := s } (by simp)
    simp only [reorderMultiple]
    split_ifs with h0 hres
    · have hnil : ids = [] := List.length_eq_zero.mp h0
      subst hnil
      simp
    · intro r hr q hq
      have f1 := (saveNotification_frame env
        (ids.foldl (reorderOne env user) { store := s }).store
        { recipient := user.id
          business := some user.currentBusiness
          type := .system_alert
          title := "Bulk Reorder Completed"
          data := {
            reorderedProducts :=
              (ids.foldl (reorderOne env user) { store := s }).results.map (fun r => r.productId)
            totalProducts :=
              some (ids.foldl (reorderOne env user) { store := s }).results.length } }).1
      have hq2 : q ∈ (ids.foldl (reorderOne env user) { store := s }).store.products := by
        rw [← f1]
        revert hq
        cases saveNotification env _ _ with
        | mk res s1 => cases res <;> exact fun h => h
      exact h r hr q hq2
    · exact h
  · intro results errors
    simp only [reorderMultiple]
    split_ifs with h0 hres
    · intro h; cases h
    · cases saveNotification env _ _ with
      | mk res s1 =>
        cases res with
        | none => intro h; cases h
        | some _ =>
          intro h
          simp only [BulkResponse.completed.injEq] at h
          exact h.1.symm
    · intro h
      simp only [BulkResponse.completed.injEq] at h
      exact h.1.symm

/-- The example of C28: eleven bulk reorders of `beans` (2 units, 10 per
reorder, at most 100) give nine results and two errors and leave 92 units, and
a restock of `rice` by 5 units leaves it at its maximum of 100. -/
theorem manual_restock_within_ceiling_witness :
    (reorderMultiple quietEnv beansStore owner (List.replicate 11 2)).1.results.length = 9 ∧
    (reorderMultiple quietEnv beansStore owner (List.replicate 11 2)).1.errors.length = 2 ∧
    (reorderMultiple quietEnv beansStore owner (List.replicate 11 2)).2.products.map
      (fun p => (p.currentStock, p.maxStockLevel)) = [(92, 100)] ∧
    (restock quietEnv riceStore owner 1 { quantity := .num 5 }).2.products.map
      (fun p => (p.currentStock, p.maxStockLevel)) = [(100, 100)] ∧
    ∀ q ∈ (restock quietEnv riceStore owner 1 { quantity := .num 5 }).2.products,
      q.id = 1 → WithinCeiling q :=
  ⟨by decide!, by decide!, by decide!, by decide!,
    (manual_restock_within_ceiling quietEnv riceStore owner 1 [] { quantity := .num 5 }).1
      (by decide!)⟩

/-! ### C30: the maximum stock level of an accepted product -/

/-- The hook and the validators accept a product exactly when the validators
accept it with some `maxOrderQuantity` and its maximum stock level is at least
1. -/
theorem preValidate_valid_iff (p : Product) :
    p.preValidate.valid = true ↔
      (1 ≤ p.maxStockLevel ∧ ({ p with maxOrderQuantity := 1 } : Product).valid = true) := by
  simp only [Product.preValidate, Product.valid, Bool.and_eq_true, decide_eq_true_eq]
  constructor
  · rintro ⟨h, hm⟩
    exact ⟨hm, h, le_refl 1⟩
  · rintro ⟨hm, h, _⟩
    exact ⟨h, hm⟩

/-- C30. The hook followed by the validators accepts a product only if its
maximum stock level is at least 1. For a product with maximum stock level 0 the
hook sets `maxOrderQuantity` to 0 and the product is rejected: neither the save
of a new document nor the save of a stored one stores it, and the create route,
whose validators allow a `maxStockLevel` of 0, answers without creating a
product. For a maximum stock level of at least 1, when the other fields pass
their validators, the product is accepted with `maxOrderQuantity` equal to the
maximum stock level. -/
theorem product_needs_positive_maximum (isEmail : String → Bool) (env : Env) (s : Store)
    (user : ReqUser) (b : CreateBody) (p : Product) :
    (p.preValidate.valid = true → 1 ≤ p.maxStockLevel) ∧
    (p.maxStockLevel = 0 →
      p.preValidate.maxOrderQuantity = 0 ∧ p.preValidate.valid = false ∧
      insertProduct env s p = (none, s) ∧ saveProduct env s p = (none, s)) ∧
    (1 ≤ p.maxStockLevel → ({ p with maxOrderQuantity := 1 } : Product).valid = true →
      p.preValidate.valid = true ∧ p.preValidate.maxOrderQuantity = p.maxStockLevel) ∧
    (castNumber b.maxStockLevel = some 0 →
      (∀ saved, (createProduct isEmail env s user b).1 ≠ .created saved) ∧
      (createProduct isEmail env s user b).2 = s) := by
  refine ⟨fun h => ((preValidate_valid_iff p).mp h).1, ?_, ?_, ?_⟩
  · intro h0
    have hv : p.preValidate.valid = false := by
      cases hc : p.preValidate.valid with
      | false => rfl
      | true =>
        have := ((preValidate_valid_iff p).mp hc).1
        omega
    refine ⟨h0, hv, ?_, ?_⟩
    · simp [insertProduct, hv]
    · simp [saveProduct, hv]
  · intro h1 hv
    exact ⟨(preValidate_valid_iff p).mpr ⟨h1, hv⟩, rfl⟩
  · intro hmx
    have hins : ∀ q : Product, q.maxStockLevel = 0 → insertProduct env s q = (none, s) := by
      intro q hq
      have hv : q.preValidate.valid = false := by
        cases hc : q.preValidate.valid with
        | false => rfl
        | true =>
          have := ((preValidate_valid_iff q).mp hc).1
          omega
      simp [insertProduct, hv]
    simp only [createProduct, hmx]
    split_ifs
    · exact ⟨by simp, rfl⟩
    · exact ⟨by simp, rfl⟩
    · exact ⟨by simp, rfl⟩
    · cases castNumber b.currentStock with
      | none => exact ⟨by simp, rfl⟩
      | some cs =>
        cases castNumber b.minStockLevel with
        | none => exact ⟨by simp, rfl⟩
        | some mn =>
          cases castNumber b.reorderQuantity with
          | none => exact ⟨by simp, rfl⟩
          | some rq =>
            simp only []
            rw [hins _ rfl]
            exact ⟨by simp, rfl⟩

/-- The example of C30: `rice` with a maximum of 0 and no stock passes the
validators as it stands, but not after the hook, which sets its
`maxOrderQuantity` to 0; the create request with `maxStockLevel: 0` passes the
route validators and creates nothing; `rice` itself, with a maximum of 100, is
accepted with `maxOrderQuantity` 100. -/
theorem product_needs_positive_maximum_witness :
    ({ rice with maxStockLevel := 0, currentStock := 0 } : Product).valid = true ∧
    createValid hasAt zeroMaxBody = true ∧
    (({ rice with maxStockLevel := 0, currentStock := 0 } : Product).preValidate.maxOrderQuantity =
        0 ∧
      ({ rice with maxStockLevel := 0, currentStock := 0 } : Product).preValidate.valid = false ∧
      insertProduct quietEnv riceStore { rice with maxStockLevel := 0, currentStock := 0 } =
        (none, riceStore) ∧
      saveProduct quietEnv riceStore { rice with maxStockLevel := 0, currentStock := 0 } =
        (none, riceStore)) ∧
    (createProduct hasAt quietEnv riceStore owner zeroMaxBody).1 = .failed ∧
    (createProduct hasAt quietEnv riceStore owner zeroMaxBody).2 = riceStore ∧
    (rice.preValidate.valid = true ∧ rice.preValidate.maxOrderQuantity = rice.maxStockLevel) :=
  ⟨by decide!, by decide!,
    (product_needs_positive_maximum hasAt quietEnv riceStore owner zeroMaxBody
      { rice with maxStockLevel := 0, currentStock := 0 }).2.1 rfl,
    by decide!,
    ((product_needs_positive_maximum hasAt quietEnv riceStore owner zeroMaxBody rice).2.2.2
      (by decide!)).2,
    (product_needs_positive_maximum hasAt quietEnv riceStore owner zeroMaxBody rice).2.2.1
      (by decide!) (by decide!)⟩

end Inventory
